import Mathlib

/-!
# The promise pipe of `src/core/lib/promise/pipe.h`

A shallow embedding of the one-deep pipe: the `Center` state machine, the
`Push` and `Next` promises, the sender and receiver handles and `NextResult`,
followed by the theorems that settle the claims of the specification.

Conventions of the embedding.

* A member function `R Center::f(args)` becomes a function from the center
  before the call to a `Step`: the returned value, the center after the call
  and the list of waiter calls (`Wake()` / `pending()`) in program order.
* `abort()` is the value `none` of an `Option`.
* `DCHECK`/`DCHECK_NE` are compiled out of release builds and trace logging
  has no effect on the state: neither is embedded.
* There is one center per pipe, so a `RefCountedPtr<Center<T>>` member of a
  handle is embedded as a `Bool`: `true` when the pointer is not null.
* Two step functions run a pipe through its handles. `Op.step` follows the
  state of the center and the values that cross it; there a promise of
  `Next()`, `AwaitClosed()` or `AwaitEmpty()` lives within one operation.
  `RefOp.step` follows `refs_`: every promise is an object of the
  configuration from its creation to its destruction, with the copies of
  `center_` it holds.
-/

namespace grpc_core

/-- The result of polling a promise, `Poll<T>` of `poll.h`: pending or ready
with a value. -/
inductive Poll (α : Type) where
  | pending : Poll α
  | ready (a : α) : Poll α
deriving DecidableEq, Repr

/-- Unit result of `PollEmpty`, the `Empty` struct of `poll.h`. -/
inductive Empty where
  | mk : Empty
deriving DecidableEq, Repr

/-- What `std::move` leaves behind in an object of type `T`. For scalar types
a move is a copy; for class types the moved-from object is valid but its
content is decided by the type. -/
class MoveSemantics (T : Type) where
  /-- The content of an object after it has been moved from. -/
  moved_from : T → T

instance : MoveSemantics Nat := ⟨id⟩

instance : MoveSemantics Int := ⟨id⟩

/-- The three `IntraActivityWaiter` members of `Center`. -/
inductive Waiter where
  | on_empty_ : Waiter
  | on_full_ : Waiter
  | on_closed_ : Waiter
deriving DecidableEq, Repr

/-- Modelled from the spec: `IntraActivityWaiter` (declared in `activity.h`,
which is not among the sources). The spec describes a wait-set as a one-slot
registration of the poller that returned pending, rescheduled by a wake. The
embedding records the calls made on the three waiters: `wake w` for
`w.Wake()` and `pending w` for `return w.pending()`. -/
inductive WaiterCall where
  | wake (w : Waiter) : WaiterCall
  | pending (w : Waiter) : WaiterCall
deriving DecidableEq, Repr

/-- Modelled from the spec: `InterceptorList<T>` (declared in
`interceptor_list.h`, which is not among the sources), the base class of
`Center`. The spec describes it as an ordered sequence of stages, each a
transform from `T` to optional `T`; the list is kept in execution order. -/
abbrev InterceptorList (T : Type) := List (T → Option T)

/-- Modelled from the spec: `InterceptorList::Run`. The combined pipeline
takes `Some(v)` and yields an optional `T`; a stage returning `None`
short-circuits the rest. -/
def InterceptorList.Run {T : Type} : InterceptorList T → Option T → Option T
  | _, none => none
  | [], some v => some v
  | f :: rest, some v => InterceptorList.Run rest (f v)

/-- Modelled from the spec: `InterceptorList::PrependMap`, used by the sender:
the stage is attached at the head of the pipeline. -/
def InterceptorList.PrependMap {T : Type} (l : InterceptorList T) (f : T → Option T) :
    InterceptorList T :=
  f :: l

/-- Modelled from the spec: `InterceptorList::AppendMap`, used by the
receiver: the stage is attached at the tail of the pipeline. -/
def InterceptorList.AppendMap {T : Type} (l : InterceptorList T) (f : T → Option T) :
    InterceptorList T :=
  l ++ [f]

/-- Modelled from the spec: `InterceptorList::ResetInterceptorList`, which
clears the list. -/
def InterceptorList.ResetInterceptorList {T : Type} (_l : InterceptorList T) :
    InterceptorList T :=
  []

namespace pipe_detail

/-- State of `value_`: `enum class ValueState : uint8_t` of `Center`. -/
inductive ValueState where
  | kEmpty : ValueState
  | kReady : ValueState
  | kWaitingForAck : ValueState
  | kAcked : ValueState
  | kClosed : ValueState
  | kReadyClosed : ValueState
  | kWaitingForAckAndClosed : ValueState
  | kCancelled : ValueState
deriving DecidableEq, Repr

/-- The data members of `Center<T>`: the inherited interceptor list, the
slot `value_`, the reference count `refs_` (a `uint8_t`) and the state. The
three waiters are embedded through the calls made on them. -/
structure Center (T : Type) where
  interceptors : InterceptorList T
  value_ : T
  refs_ : Nat
  value_state_ : ValueState

/-- Outcome of one member-function call on the center. -/
structure Step (T : Type) (α : Type) where
  ret : α
  center : Center T
  calls : List WaiterCall

/-- Constructor `Center()`: two references, state `kEmpty`, a
default-constructed slot and an empty interceptor list. -/
def Center.new (T : Type) [Inhabited T] : Center T :=
  { interceptors := [], value_ := default, refs_ := 2, value_state_ := .kEmpty }

/-- Member `IncrementRefCount`: `refs_++` on a `uint8_t`. -/
def Center.IncrementRefCount {T : Type} (c : Center T) : Center T :=
  { c with refs_ := (c.refs_ + 1) % 256 }

/-- Member `Unref`: `refs_--` on a `uint8_t`; the flag tells whether the
destructor ran (`0 == refs_`). -/
def Center.Unref {T : Type} (c : Center T) : Center T × Bool :=
  let r := (c.refs_ + 255) % 256
  ({ c with refs_ := r }, r == 0)

/-- Member `Poll<bool> Center::Push(T* value)`. -/
def Center.Push {T : Type} (c : Center T) (value : T) : Step T (Poll Bool) :=
  match c.value_state_ with
  | .kClosed | .kReadyClosed | .kCancelled | .kWaitingForAckAndClosed =>
    ⟨.ready false, c, []⟩
  | .kReady | .kAcked | .kWaitingForAck =>
    ⟨.pending, c, [.pending .on_empty_]⟩
  | .kEmpty =>
    ⟨.ready true, { c with value_state_ := .kReady, value_ := value }, [.wake .on_full_]⟩

/-- Member `Poll<bool> Center::PollAck()`. -/
def Center.PollAck {T : Type} (c : Center T) : Step T (Poll Bool) :=
  match c.value_state_ with
  | .kClosed => ⟨.ready true, c, []⟩
  | .kCancelled => ⟨.ready false, c, []⟩
  | .kReady | .kReadyClosed | .kEmpty | .kWaitingForAck | .kWaitingForAckAndClosed =>
    ⟨.pending, c, [.pending .on_empty_]⟩
  | .kAcked =>
    ⟨.ready true, { c with value_state_ := .kEmpty }, [.wake .on_empty_]⟩

/-- Member `Poll<std::optional<T>> Center::Next()`; `std::move(value_)`
hands out the slot and leaves the moved-from content behind. -/
def Center.Next {T : Type} [MoveSemantics T] (c : Center T) : Step T (Poll (Option T)) :=
  match c.value_state_ with
  | .kEmpty | .kAcked | .kWaitingForAck | .kWaitingForAckAndClosed =>
    ⟨.pending, c, [.pending .on_full_]⟩
  | .kReadyClosed =>
    ⟨.ready (some c.value_),
      { c with value_state_ := .kWaitingForAckAndClosed,
               value_ := MoveSemantics.moved_from c.value_ }, []⟩
  | .kReady =>
    ⟨.ready (some c.value_),
      { c with value_state_ := .kWaitingForAck,
               value_ := MoveSemantics.moved_from c.value_ }, []⟩
  | .kClosed | .kCancelled => ⟨.ready none, c, []⟩

/-- Member `Poll<bool> Center::PollClosedForSender()`. -/
def Center.PollClosedForSender {T : Type} (c : Center T) : Step T (Poll Bool) :=
  match c.value_state_ with
  | .kEmpty | .kAcked | .kReady | .kWaitingForAck =>
    ⟨.pending, c, [.pending .on_closed_]⟩
  | .kWaitingForAckAndClosed | .kReadyClosed | .kClosed => ⟨.ready false, c, []⟩
  | .kCancelled => ⟨.ready true, c, []⟩

/-- Member `Poll<bool> Center::PollClosedForReceiver()`. -/
def Center.PollClosedForReceiver {T : Type} (c : Center T) : Step T (Poll Bool) :=
  match c.value_state_ with
  | .kEmpty | .kAcked | .kReady | .kReadyClosed | .kWaitingForAck
  | .kWaitingForAckAndClosed =>
    ⟨.pending, c, [.pending .on_closed_]⟩
  | .kClosed => ⟨.ready false, c, []⟩
  | .kCancelled => ⟨.ready true, c, []⟩

/-- Member `Poll<Empty> Center::PollEmpty()`. -/
def Center.PollEmpty {T : Type} (c : Center T) : Step T (Poll Empty) :=
  match c.value_state_ with
  | .kReady | .kReadyClosed => ⟨.pending, c, [.pending .on_empty_]⟩
  | .kWaitingForAck | .kWaitingForAckAndClosed | .kAcked | .kEmpty | .kClosed
  | .kCancelled =>
    ⟨.ready .mk, c, []⟩

/-- Member `void Center::AckNext()`; `none` is `abort()`. -/
def Center.AckNext {T : Type} (c : Center T) : Option (Step T Unit) :=
  match c.value_state_ with
  | .kReady | .kWaitingForAck =>
    some ⟨(), { c with value_state_ := .kAcked }, [.wake .on_empty_]⟩
  | .kReadyClosed | .kWaitingForAckAndClosed =>
    some ⟨(), { c with interceptors := c.interceptors.ResetInterceptorList,
                       value_state_ := .kClosed },
      [.wake .on_closed_, .wake .on_empty_, .wake .on_full_]⟩
  | .kClosed | .kCancelled => some ⟨(), c, []⟩
  | .kEmpty | .kAcked => none

/-- Member `void Center::MarkClosed()`. -/
def Center.MarkClosed {T : Type} (c : Center T) : Step T Unit :=
  match c.value_state_ with
  | .kEmpty | .kAcked =>
    ⟨(), { c with interceptors := c.interceptors.ResetInterceptorList,
                  value_state_ := .kClosed },
      [.wake .on_empty_, .wake .on_full_, .wake .on_closed_]⟩
  | .kReady => ⟨(), { c with value_state_ := .kReadyClosed }, [.wake .on_closed_]⟩
  | .kWaitingForAck =>
    ⟨(), { c with value_state_ := .kWaitingForAckAndClosed }, [.wake .on_closed_]⟩
  | .kReadyClosed | .kClosed | .kCancelled | .kWaitingForAckAndClosed => ⟨(), c, []⟩

/-- Member `void Center::MarkCancelled()`. -/
def Center.MarkCancelled {T : Type} (c : Center T) : Step T Unit :=
  match c.value_state_ with
  | .kEmpty | .kAcked | .kReady | .kReadyClosed | .kWaitingForAck
  | .kWaitingForAckAndClosed =>
    ⟨(), { c with interceptors := c.interceptors.ResetInterceptorList,
                  value_state_ := .kCancelled },
      [.wake .on_empty_, .wake .on_full_, .wake .on_closed_]⟩
  | .kClosed | .kCancelled => ⟨(), c, []⟩

/-- Member `bool Center::cancelled()`. -/
def Center.cancelled {T : Type} (c : Center T) : Bool :=
  c.value_state_ == .kCancelled

/-- Modelled from the spec: `RefCountedPtr` (declared in `ref_counted_ptr.h`,
which is not among the sources). The release of a `RefCountedPtr<Center<T>>`
member, by its destructor or by `reset()`: a pointer that is not null drops
its reference with `Unref`. -/
def Center.release {T : Type} (held : Bool) (c : Center T) : Center T :=
  if held then c.Unref.1 else c

/-- The alternatives of `std::variant<T, AwaitingAck> state_` in `Push`. -/
inductive PushState (T : Type) where
  | value (v : T) : PushState T
  | AwaitingAck : PushState T
deriving DecidableEq, Repr

/-- The promise `pipe_detail::Push<T>`: `center_` and `state_`. -/
structure Push (T : Type) where
  center_ : Bool
  state_ : PushState T
deriving DecidableEq, Repr

/-- Whether the variant holds the `AwaitingAck` alternative. -/
def Push.awaiting {T : Type} (p : Push T) : Bool :=
  match p.state_ with
  | .AwaitingAck => true
  | .value _ => false

/-- One poll of the promise: `Poll<bool> Push::operator()()`. Returns the
poll result and the promise after the poll. -/
def Push.poll {T : Type} (p : Push T) (c : Center T) : Step T (Poll Bool × Push T) :=
  if p.center_ = false then ⟨(.ready false, p), c, []⟩
  else
    match p.state_ with
    | .value v =>
      let r := c.Push v
      match r.ret with
      | .ready ok =>
        let p' : Push T := { p with state_ := .AwaitingAck }
        if ok = false then ⟨(.ready false, p'), r.center, r.calls⟩
        else
          let a := r.center.PollAck
          ⟨(a.ret, p'), a.center, r.calls ++ a.calls⟩
      | .pending => ⟨(.pending, p), r.center, r.calls⟩
    | .AwaitingAck =>
      let a := c.PollAck
      ⟨(a.ret, p), a.center, a.calls⟩

/-- Destructor of `Push`: releases `center_`. -/
def Push.destroy {T : Type} (p : Push T) (c : Center T) : Center T :=
  Center.release p.center_ c

/-- The promise `pipe_detail::Next<T>`: only `center_`. -/
structure Next where
  center_ : Bool
deriving DecidableEq, Repr

/-- One poll of the promise: `Poll<std::optional<T>> Next::operator()()`. -/
def Next.poll {T : Type} [MoveSemantics T] (n : Next) (c : Center T) :
    Step T (Poll (Option T)) :=
  if n.center_ = false then ⟨.ready none, c, []⟩ else c.Next

end pipe_detail

open pipe_detail

/-- The handle `NextResult<T>`: `center_` and `cancelled_`. The constructor
taking a center leaves `cancelled_` uninitialised, which is `none` here. -/
structure NextResult where
  center_ : Bool
  cancelled_ : Option Bool
deriving DecidableEq, Repr

/-- Member `bool NextResult::has_value() const`. -/
def NextResult.has_value (r : NextResult) : Bool :=
  r.center_

/-- Member `const T& NextResult::value() const`: `CHECK(has_value())`, then
the slot of the center; `none` is the failed check. -/
def NextResult.value {T : Type} (r : NextResult) (c : Center T) : Option T :=
  if r.has_value then some c.value_ else none

/-- Member `bool NextResult::cancelled() const`. -/
def NextResult.cancelled (r : NextResult) : Option Bool :=
  r.cancelled_

/-- Destructor `NextResult::~NextResult()`: `AckNext` when a center is held,
then the release of `center_`; `none` is `abort()`. -/
def NextResult.destroy {T : Type} (r : NextResult) (c : Center T) : Option (Step T Unit) :=
  if r.center_ then
    match c.AckNext with
    | some a => some ⟨(), Center.release true a.center, a.calls⟩
    | none => none
  else some ⟨(), c, []⟩

/-- Member `void NextResult::reset()`: `AckNext` and `center_.reset()` when a
center is held; `none` is `abort()`. -/
def NextResult.reset {T : Type} (r : NextResult) (c : Center T) :
    Option (Step T NextResult) :=
  if r.center_ then
    match c.AckNext with
    | some a => some ⟨{ r with center_ := false }, Center.release true a.center, a.calls⟩
    | none => none
  else some ⟨r, c, []⟩

/-- The handle `PipeSender<T>`: only `center_`. -/
structure PipeSender where
  center_ : Bool
deriving DecidableEq, Repr

/-- Destructor `PipeSender::~PipeSender()`: `MarkClosed` when a center is
held, then the release of `center_`. -/
def PipeSender.destroy {T : Type} (s : PipeSender) (c : Center T) : Step T Unit :=
  if s.center_ then
    let m := c.MarkClosed
    ⟨(), Center.release true m.center, m.calls⟩
  else ⟨(), c, []⟩

/-- Member `void PipeSender::Close()`. -/
def PipeSender.Close {T : Type} (s : PipeSender) (c : Center T) : Step T PipeSender :=
  if s.center_ then
    let m := c.MarkClosed
    ⟨{ center_ := false }, Center.release true m.center, m.calls⟩
  else ⟨s, c, []⟩

/-- Member `void PipeSender::CloseWithError()`. -/
def PipeSender.CloseWithError {T : Type} (s : PipeSender) (c : Center T) :
    Step T PipeSender :=
  if s.center_ then
    let m := c.MarkCancelled
    ⟨{ center_ := false }, Center.release true m.center, m.calls⟩
  else ⟨s, c, []⟩

/-- Member `PushType PipeSender::Push(T value)`: the promise gets
`center_->Ref()`, or a null center when the sender has none. -/
def PipeSender.Push {T : Type} (s : PipeSender) (c : Center T) (value : T) :
    Step T (Push T) :=
  if s.center_ then ⟨{ center_ := true, state_ := .value value }, c.IncrementRefCount, []⟩
  else ⟨{ center_ := false, state_ := .value value }, c, []⟩

/-- One poll of the promise returned by `PipeSender::AwaitClosed()`; `none`
is the dereference of a null `center`. -/
def PipeSender.AwaitClosed {T : Type} (s : PipeSender) (c : Center T) :
    Option (Step T (Poll Bool)) :=
  if s.center_ then some c.PollClosedForSender else none

/-- Member `PipeSender::InterceptAndMap(f)`: `center_->PrependMap(f)`; `none`
is the dereference of a null `center_`. -/
def PipeSender.InterceptAndMap {T : Type} (s : PipeSender) (c : Center T)
    (f : T → Option T) : Option (Center T) :=
  if s.center_ then some { c with interceptors := c.interceptors.PrependMap f } else none

/-- The handle `PipeReceiver<T>`: only `center_`. -/
structure PipeReceiver where
  center_ : Bool
deriving DecidableEq, Repr

/-- Destructor `PipeReceiver::~PipeReceiver()`: `MarkCancelled` when a center
is held, then the release of `center_`. -/
def PipeReceiver.destroy {T : Type} (r : PipeReceiver) (c : Center T) : Step T Unit :=
  if r.center_ then
    let m := c.MarkCancelled
    ⟨(), Center.release true m.center, m.calls⟩
  else ⟨(), c, []⟩

/-- Member `void PipeReceiver::CloseWithError()`. -/
def PipeReceiver.CloseWithError {T : Type} (r : PipeReceiver) (c : Center T) :
    Step T PipeReceiver :=
  if r.center_ then
    let m := c.MarkCancelled
    ⟨{ center_ := false }, Center.release true m.center, m.calls⟩
  else ⟨r, c, []⟩

/-- Creation and one poll of the promise returned by `PipeReceiver::Next()`:
`Seq(pipe_detail::Next<T>(center_), lambda)`. The first stage polls the center;
once it is ready the lambda computes `open` and `cancelled` and the `If`
either runs the interceptors over the value or delivers an empty result.
The promise holds no state besides the center pointer until it resolves, so
each poll is embedded as a poll of a fresh promise. The `IncrementRefCount`
is the reference of a value-bearing `NextResult`: the capture `center` is
const in the lambda, so that `std::move(center)` copies it. The two copies of
`center_` that the promise itself holds, in the `Next<T>` and in the capture,
are not counted here but in `RefOp.step`. -/
def PipeReceiver.Next {T : Type} [MoveSemantics T] (r : PipeReceiver) (c : Center T) :
    Step T (Poll NextResult) :=
  let n := Next.poll { center_ := r.center_ } c
  match n.ret with
  | .pending => ⟨.pending, n.center, n.calls⟩
  | .ready value =>
    let cancelled : Bool := if r.center_ = false then true else n.center.cancelled
    match value with
    | some v =>
      match n.center.interceptors.Run (some v) with
      | some v' =>
        ⟨.ready { center_ := true, cancelled_ := none },
          Center.IncrementRefCount { n.center with value_ := v' }, n.calls⟩
      | none =>
        let m := n.center.MarkCancelled
        ⟨.ready { center_ := false, cancelled_ := some true }, m.center, n.calls ++ m.calls⟩
    | none => ⟨.ready { center_ := false, cancelled_ := some cancelled }, n.center, n.calls⟩

/-- One poll of the promise returned by `PipeReceiver::AwaitClosed()`. -/
def PipeReceiver.AwaitClosed {T : Type} (r : PipeReceiver) (c : Center T) :
    Step T (Poll Bool) :=
  if r.center_ = false then ⟨.ready false, c, []⟩ else c.PollClosedForReceiver

/-- One poll of the promise returned by `PipeReceiver::AwaitEmpty()`; `none`
is the dereference of a null `center`. -/
def PipeReceiver.AwaitEmpty {T : Type} (r : PipeReceiver) (c : Center T) :
    Option (Step T (Poll Empty)) :=
  if r.center_ then some c.PollEmpty else none

/-- Member `PipeReceiver::InterceptAndMap(f)`: `center_->AppendMap(f)`; `none`
is the dereference of a null `center_`. -/
def PipeReceiver.InterceptAndMap {T : Type} (r : PipeReceiver) (c : Center T)
    (f : T → Option T) : Option (Center T) :=
  if r.center_ then some { c with interceptors := c.interceptors.AppendMap f } else none

/-- One interceptor registration made through a handle:
`PipeSender::InterceptAndMap(f)` or `PipeReceiver::InterceptAndMap(f)`. -/
inductive Registration (T : Type) where
  | by_sender (f : T → Option T) : Registration T
  | by_receiver (f : T → Option T) : Registration T

/-- Performs one registration through the given handles. -/
def Registration.apply {T : Type} (s : PipeSender) (r : PipeReceiver) :
    Registration T → Center T → Option (Center T)
  | .by_sender f, c => s.InterceptAndMap c f
  | .by_receiver f, c => r.InterceptAndMap c f

/-- Performs a sequence of registrations, first to last. -/
def register {T : Type} (s : PipeSender) (r : PipeReceiver) :
    List (Registration T) → Center T → Option (Center T)
  | [], c => some c
  | g :: rest, c => (g.apply s r c).bind (register s r rest)

/-- The stages registered by the sender, in registration order. -/
def senderStages {T : Type} : List (Registration T) → List (T → Option T)
  | [] => []
  | .by_sender f :: rest => f :: senderStages rest
  | .by_receiver _ :: rest => senderStages rest

/-- The stages registered by the receiver, in registration order. -/
def receiverStages {T : Type} : List (Registration T) → List (T → Option T)
  | [] => []
  | .by_sender _ :: rest => receiverStages rest
  | .by_receiver f :: rest => f :: receiverStages rest

/-- The pipeline `run` in the words of the specification: the
sender-registered stages first, the most recently prepended first, then the
receiver-registered stages in append order; an empty result ends the run. -/
def spec_run {T : Type} (regs : List (Registration T)) (v : T) : Option T :=
  ((senderStages regs).reverse ++ receiverStages regs).foldl (fun acc f => acc.bind f) (some v)

/-- What the delivery scenario observes: the result of the first poll of the
push and the outcome of the receiver's `Next`. -/
structure Delivery (T : Type) where
  push : Poll Bool × Push T
  next : Step T (Poll NextResult)

/-- The delivery scenario on a fresh pipe: the handles register `regs1`, the
sender creates `Push(v)` and polls it once, the handles register `regs2`, and
the receiver polls `Next()`. -/
def deliver {T : Type} [Inhabited T] [MoveSemantics T]
    (regs1 regs2 : List (Registration T)) (v : T) : Option (Delivery T) :=
  (register { center_ := true } { center_ := true } regs1 (Center.new T)).bind fun c1 =>
    let created := PipeSender.Push { center_ := true } c1 v
    let polled := created.ret.poll created.center
    (register { center_ := true } { center_ := true } regs2 polled.center).map fun c2 =>
      { push := polled.ret, next := PipeReceiver.Next { center_ := true } c2 }

/-- The value that a poll of the push deposits: the argument of the call
`center_->Push(p)` made inside `Push::operator()` when that call returns
true; empty when no such call is made or it does not return true. -/
def pipe_detail.Push.deposits {T : Type} (p : Push T) (c : Center T) : List T :=
  if p.center_ = false then []
  else
    match p.state_ with
    | .value v => if (c.Push v).ret = .ready true then [v] else []
    | .AwaitingAck => []

/-- The value that a poll of the receiver's `Next()` takes out of the center:
what the call `center_->Next()` made inside `pipe_detail::Next::operator()`
returns when it returns a value. -/
def PipeReceiver.takes {T : Type} [MoveSemantics T] (r : PipeReceiver) (c : Center T) :
    List T :=
  match (Next.poll { center_ := r.center_ } c).ret with
  | .ready (some x) => [x]
  | _ => []

/-- A pipe in use: the center, the two handles (`none` once destroyed), the
`Push` promises that have not resolved yet, the `NextResult` objects alive,
and two history lists: the values deposited by `Center::Push` calls that
returned true and the values returned by `Center::Next` calls. -/
structure Config (T : Type) where
  center : Center T
  sender : Option PipeSender
  receiver : Option PipeReceiver
  pushes : List (Push T)
  results : List NextResult
  pushed : List T
  received : List T

/-- The constructor `Pipe(Center<T>* center)`: a new center shared by a
sender and a receiver. -/
def Config.init (T : Type) [Inhabited T] : Config T :=
  { center := Center.new T, sender := some { center_ := true },
    receiver := some { center_ := true }, pushes := [], results := [],
    pushed := [], received := [] }

/-- The operations on a pipe through its handles. Promises and results are
addressed by their position in the configuration. -/
inductive Op (T : Type) where
  | sender_Push (v : T) : Op T
  | poll_Push (i : Nat) : Op T
  | destroy_Push (i : Nat) : Op T
  | receiver_Next : Op T
  | destroy_NextResult (j : Nat) : Op T
  | reset_NextResult (j : Nat) : Op T
  | sender_Close : Op T
  | sender_CloseWithError : Op T
  | destroy_sender : Op T
  | receiver_CloseWithError : Op T
  | destroy_receiver : Op T
  | sender_InterceptAndMap (f : T → Option T) : Op T
  | receiver_InterceptAndMap (f : T → Option T) : Op T
  | sender_AwaitClosed : Op T
  | receiver_AwaitClosed : Op T
  | receiver_AwaitEmpty : Op T

/-- One operation on a configuration; `none` when the object addressed does
not exist, when a null center is dereferenced or when the operation reaches
`abort()`. A push that resolves is destroyed with the poll that resolved it,
and a promise of `Next()`, `AwaitClosed()` or `AwaitEmpty()` is made, polled
once and destroyed within the operation. So the copies of `center_` that such
a promise holds while it lives are not in `refs_` here: `refs_` of a `Config`
counts the references that outlive an operation, and no statement on the
reference count is made on `Op.step`. The reference count over the whole
life of the promises is the subject of `RefOp.step`. -/
def Op.step {T : Type} [MoveSemantics T] : Op T → Config T → Option (Config T)
  | .sender_Push v, w =>
    match w.sender with
    | some s =>
      let r := s.Push w.center v
      some { w with center := r.center, pushes := w.pushes ++ [r.ret] }
    | none => none
  | .poll_Push i, w =>
    match w.pushes[i]? with
    | some p =>
      let r := p.poll w.center
      match r.ret.1 with
      | .pending =>
        some { w with center := r.center, pushes := w.pushes.set i r.ret.2,
                      pushed := w.pushed ++ p.deposits w.center }
      | .ready _ =>
        some { w with center := Push.destroy r.ret.2 r.center,
                      pushes := w.pushes.eraseIdx i,
                      pushed := w.pushed ++ p.deposits w.center }
    | none => none
  | .destroy_Push i, w =>
    match w.pushes[i]? with
    | some p => some { w with center := p.destroy w.center, pushes := w.pushes.eraseIdx i }
    | none => none
  | .receiver_Next, w =>
    match w.receiver with
    | some r =>
      let n := r.Next w.center
      match n.ret with
      | .pending =>
        some { w with center := n.center, received := w.received ++ r.takes w.center }
      | .ready nr =>
        some { w with center := n.center, results := w.results ++ [nr],
                      received := w.received ++ r.takes w.center }
    | none => none
  | .destroy_NextResult j, w =>
    match w.results[j]? with
    | some nr =>
      match nr.destroy w.center with
      | some d => some { w with center := d.center, results := w.results.eraseIdx j }
      | none => none
    | none => none
  | .reset_NextResult j, w =>
    match w.results[j]? with
    | some nr =>
      match nr.reset w.center with
      | some d => some { w with center := d.center, results := w.results.set j d.ret }
      | none => none
    | none => none
  | .sender_Close, w =>
    match w.sender with
    | some s =>
      let r := s.Close w.center
      some { w with center := r.center, sender := some r.ret }
    | none => none
  | .sender_CloseWithError, w =>
    match w.sender with
    | some s =>
      let r := s.CloseWithError w.center
      some { w with center := r.center, sender := some r.ret }
    | none => none
  | .destroy_sender, w =>
    match w.sender with
    | some s => some { w with center := (s.destroy w.center).center, sender := none }
    | none => none
  | .receiver_CloseWithError, w =>
    match w.receiver with
    | some r =>
      let d := r.CloseWithError w.center
      some { w with center := d.center, receiver := some d.ret }
    | none => none
  | .destroy_receiver, w =>
    match w.receiver with
    | some r => some { w with center := (r.destroy w.center).center, receiver := none }
    | none => none
  | .sender_InterceptAndMap f, w =>
    match w.sender with
    | some s => (s.InterceptAndMap w.center f).map fun c => { w with center := c }
    | none => none
  | .receiver_InterceptAndMap f, w =>
    match w.receiver with
    | some r => (r.InterceptAndMap w.center f).map fun c => { w with center := c }
    | none => none
  | .sender_AwaitClosed, w =>
    match w.sender with
    | some s => (s.AwaitClosed w.center).map fun r => { w with center := r.center }
    | none => none
  | .receiver_AwaitClosed, w =>
    match w.receiver with
    | some r => some { w with center := (r.AwaitClosed w.center).center }
    | none => none
  | .receiver_AwaitEmpty, w =>
    match w.receiver with
    | some r => (r.AwaitEmpty w.center).map fun d => { w with center := d.center }
    | none => none

/-- A sequence of operations, first to last; `none` as soon as one of them
yields `none`. -/
def run {T : Type} [MoveSemantics T] : List (Op T) → Config T → Option (Config T)
  | [], w => some w
  | op :: rest, w => (op.step w).bind (run rest)

/-- Number of unresolved pushes in the `AwaitingAck` sub-state. -/
def Config.awaitingAck {T : Type} (w : Config T) : Nat :=
  w.pushes.countP Push.awaiting

/-- Number of `NextResult` objects that hold the center. -/
def Config.holdingResults {T : Type} (w : Config T) : Nat :=
  w.results.countP NextResult.has_value

/-- The invariant of the handle protocol. At most one unresolved push awaits
its acknowledgement, and none does while the center is `kEmpty`; at most one
`NextResult` holds the center, and while one does the center waits for its
acknowledgement or is cancelled; and the two histories agree with the state:
a readable value is the one deposited last, and otherwise everything
deposited has been taken, except that a value may be lost to the terminal
states. -/
def Config.Inv {T : Type} (w : Config T) : Prop :=
  w.awaitingAck ≤ 1 ∧
  (w.center.value_state_ = .kEmpty → w.awaitingAck = 0) ∧
  w.holdingResults ≤ 1 ∧
  (0 < w.holdingResults →
    w.center.value_state_ = .kWaitingForAck ∨
    w.center.value_state_ = .kWaitingForAckAndClosed ∨
    w.center.value_state_ = .kCancelled) ∧
  (match w.center.value_state_ with
    | .kReady | .kReadyClosed => w.pushed = w.received ++ [w.center.value_]
    | .kClosed | .kCancelled => w.received <+: w.pushed
    | .kEmpty | .kAcked | .kWaitingForAck | .kWaitingForAckAndClosed =>
      w.pushed = w.received)

/-- The configuration after two values went through the pipe one after the
other and the second is held by the receiver. -/
def Config.second_delivered : Config Nat :=
  { center := { interceptors := [], value_ := 2, refs_ := 4, value_state_ := .kWaitingForAck },
    sender := some { center_ := true }, receiver := some { center_ := true },
    pushes := [{ center_ := true, state_ := .AwaitingAck }],
    results := [{ center_ := true, cancelled_ := none }],
    pushed := [1, 2], received := [1, 2] }

/-- The configuration after two pushes were created and each was polled
once: the first deposited its value, the second still holds its own. -/
def Config.two_pushes : Config Nat :=
  { center := { interceptors := [], value_ := 1, refs_ := 4, value_state_ := .kReady },
    sender := some { center_ := true }, receiver := some { center_ := true },
    pushes := [{ center_ := true, state_ := .AwaitingAck },
               { center_ := true, state_ := .value 2 }],
    results := [], pushed := [1], received := [] }

/-- A call of one of the nine state-machine member functions of `Center`. -/
inductive CenterCall (T : Type) where
  | Push (value : T) : CenterCall T
  | PollAck : CenterCall T
  | Next : CenterCall T
  | PollClosedForSender : CenterCall T
  | PollClosedForReceiver : CenterCall T
  | PollEmpty : CenterCall T
  | AckNext : CenterCall T
  | MarkClosed : CenterCall T
  | MarkCancelled : CenterCall T

/-- The center and the waiter calls after a member-function call; `none` is
`abort()`. -/
def CenterCall.apply {T : Type} [MoveSemantics T] :
    CenterCall T → Center T → Option (Center T × List WaiterCall)
  | .Push v, c => some ((c.Push v).center, (c.Push v).calls)
  | .PollAck, c => some (c.PollAck.center, c.PollAck.calls)
  | .Next, c => some (c.Next.center, c.Next.calls)
  | .PollClosedForSender, c => some (c.PollClosedForSender.center, c.PollClosedForSender.calls)
  | .PollClosedForReceiver, c =>
    some (c.PollClosedForReceiver.center, c.PollClosedForReceiver.calls)
  | .PollEmpty, c => some (c.PollEmpty.center, c.PollEmpty.calls)
  | .AckNext, c => c.AckNext.map fun a => (a.center, a.calls)
  | .MarkClosed, c => some (c.MarkClosed.center, c.MarkClosed.calls)
  | .MarkCancelled, c => some (c.MarkCancelled.center, c.MarkCancelled.calls)

/-- A sequence of member-function calls, first to last; `none` as soon as one
of them reaches `abort()`. -/
def Center.apply_all {T : Type} [MoveSemantics T] :
    List (CenterCall T) → Center T → Option (Center T)
  | [], c => some c
  | call :: rest, c => (call.apply c).bind fun r => Center.apply_all rest r.1

/-- History of the value in flight, kept beside a configuration: `idle` when
no unresolved push has a value deposited, `deposited` once a poll of a push
made a `Center::Push` call that returned true, `acknowledged` once `AckNext`
has been executed after that deposit. -/
inductive AckGate where
  | idle : AckGate
  | deposited : AckGate
  | acknowledged : AckGate
deriving DecidableEq, Repr

/-- How one operation moves the history. A poll that deposits starts a new
flight; a poll that resolves, or the destruction of, the push that deposited
ends it; the destruction or reset of a `NextResult` that holds the center
executes `AckNext` and marks a deposited value as acknowledged. -/
def Op.gate {T : Type} (op : Op T) (w : Config T) (g : AckGate) : AckGate :=
  match op with
  | .poll_Push i =>
    match w.pushes[i]? with
    | some p =>
      if (p.deposits w.center).isEmpty then
        match (p.poll w.center).ret.1 with
        | .ready _ => if p.awaiting then .idle else g
        | .pending => g
      else .deposited
    | none => g
  | .destroy_Push i =>
    match w.pushes[i]? with
    | some p => if p.awaiting then .idle else g
    | none => g
  | .destroy_NextResult j =>
    match w.results[j]? with
    | some nr =>
      if nr.center_ then
        match g with
        | .deposited => .acknowledged
        | _ => g
      else g
    | none => g
  | .reset_NextResult j =>
    match w.results[j]? with
    | some nr =>
      if nr.center_ then
        match g with
        | .deposited => .acknowledged
        | _ => g
      else g
    | none => g
  | _ => g

/-- A sequence of operations with the history kept beside the configuration. -/
def runGate {T : Type} [MoveSemantics T] :
    List (Op T) → Config T → AckGate → Option (Config T × AckGate)
  | [], w, g => some (w, g)
  | op :: rest, w, g => (op.step w).bind fun w2 => runGate rest w2 (op.gate w g)

/-- The history agrees with the configuration: while a push awaits its
acknowledgement, the value is marked deposited as long as it is queued or
held by the receiver, and acknowledged once the center is `kAcked` or
`kClosed`. -/
def Config.GateOk {T : Type} (w : Config T) (g : AckGate) : Prop :=
  0 < w.awaitingAck →
    match w.center.value_state_ with
    | .kReady | .kReadyClosed | .kWaitingForAck | .kWaitingForAckAndClosed => g = .deposited
    | .kAcked | .kClosed => g = .acknowledged
    | .kEmpty | .kCancelled => True

/-- The configuration after a value went through the pipe and was
acknowledged, before the push that deposited it is polled again. -/
def Config.acknowledged : Config Nat :=
  { center := { interceptors := [], value_ := 1, refs_ := 3, value_state_ := .kAcked },
    sender := some { center_ := true }, receiver := some { center_ := true },
    pushes := [{ center_ := true, state_ := .AwaitingAck }],
    results := [], pushed := [1], received := [1] }

/-- The configuration after the sender created a push and closed, and the
receiver closed with error: the center, still referenced by the push, is
`kClosed`, and the receiver holds no center. -/
def Config.closed_then_cancelled : Config Nat :=
  { center := { interceptors := [], value_ := 0, refs_ := 1, value_state_ := .kClosed },
    sender := some { center_ := false }, receiver := some { center_ := false },
    pushes := [{ center_ := true, state_ := .value 1 }],
    results := [], pushed := [], received := [] }

/-- Whether the result of a poll is pending. -/
def Poll.is_pending {α : Type} : Poll α → Bool
  | .pending => true
  | .ready _ => false

/-- A call of one of the six polling member functions of `Center`. -/
inductive CenterPoll (T : Type) where
  | Push (value : T) : CenterPoll T
  | PollAck : CenterPoll T
  | Next : CenterPoll T
  | PollClosedForSender : CenterPoll T
  | PollClosedForReceiver : CenterPoll T
  | PollEmpty : CenterPoll T

/-- Whether the polling function would return pending on the given center. -/
def CenterPoll.pending {T : Type} [MoveSemantics T] : CenterPoll T → Center T → Bool
  | .Push v, c => (c.Push v).ret.is_pending
  | .PollAck, c => c.PollAck.ret.is_pending
  | .Next, c => c.Next.ret.is_pending
  | .PollClosedForSender, c => c.PollClosedForSender.ret.is_pending
  | .PollClosedForReceiver, c => c.PollClosedForReceiver.ret.is_pending
  | .PollEmpty, c => c.PollEmpty.ret.is_pending

/-- The waiter calls that the polling function makes on the given center. -/
def CenterPoll.calls {T : Type} [MoveSemantics T] : CenterPoll T → Center T → List WaiterCall
  | .Push v, c => (c.Push v).calls
  | .PollAck, c => c.PollAck.calls
  | .Next, c => c.Next.calls
  | .PollClosedForSender, c => c.PollClosedForSender.calls
  | .PollClosedForReceiver, c => c.PollClosedForReceiver.calls
  | .PollEmpty, c => c.PollEmpty.calls

/-- The waiter named in the `return w.pending()` statements of the polling
function: `on_empty_` for `Push`, `PollAck` and `PollEmpty`, `on_full_` for
`Next`, `on_closed_` for the two closed-polls. -/
def CenterPoll.waiter {T : Type} : CenterPoll T → Waiter
  | .Push _ => .on_empty_
  | .PollAck => .on_empty_
  | .Next => .on_full_
  | .PollClosedForSender => .on_closed_
  | .PollClosedForReceiver => .on_closed_
  | .PollEmpty => .on_empty_

/-- While the sender side is open, that is in `kEmpty`, `kReady`,
`kWaitingForAck` and `kAcked`, the sender exists and holds the center, and so
does every unresolved push. -/
def Config.Attached {T : Type} (w : Config T) : Prop :=
  (w.center.value_state_ = .kEmpty ∨ w.center.value_state_ = .kReady ∨
      w.center.value_state_ = .kWaitingForAck ∨ w.center.value_state_ = .kAcked) →
    w.sender = some { center_ := true } ∧ w.pushes.countP (fun p => !p.center_) = 0

/-- The pipe is stuck behind an acknowledgement that nobody observes: the
center is `kAcked` and no unresolved push awaits an acknowledgement, or the
pipe has been closed or cancelled since. -/
def Config.Stuck {T : Type} (w : Config T) : Prop :=
  (w.center.value_state_ = .kAcked ∧ w.awaitingAck = 0) ∨
  w.center.value_state_ = .kClosed ∨ w.center.value_state_ = .kCancelled

/-- The configuration after the value of a first push was read and
acknowledged and that push was destroyed, while a second push still holds
its value. -/
def Config.abandoned_ack : Config Nat :=
  { center := { interceptors := [], value_ := 1, refs_ := 3, value_state_ := .kAcked },
    sender := some { center_ := true }, receiver := some { center_ := true },
    pushes := [{ center_ := true, state_ := .value 2 }],
    results := [], pushed := [1], received := [1] }

/-- Modelled from the spec: `RefCountedPtr` (declared in `ref_counted_ptr.h`,
which is not among the sources). A copy of a `RefCountedPtr<Center<T>>`, as
made by a capture `[center = center_]` or by passing `center_` by value: a
pointer that is not null takes one more reference with `IncrementRefCount`. -/
def pipe_detail.Center.copy {T : Type} (held : Bool) (c : Center T) : Center T :=
  if held then c.IncrementRefCount else c

/-- The promise returned by `PipeReceiver::Next()`:
`Seq(pipe_detail::Next<T>(center_), [center = center_](...) {...})`. It is
made with two copies of the receiver's `center_`, one in the `Next<T>` and
one in the capture; `center_` tells whether they are not null, `copies` how
many of them the promise holds and `resolved` whether a poll returned a
`NextResult`. -/
structure NextPromise where
  center_ : Bool
  copies : Nat
  resolved : Bool
deriving DecidableEq, Repr

/-- The references a `Next()` promise holds. -/
def NextPromise.refs (np : NextPromise) : Nat :=
  if np.center_ then np.copies else 0

/-- The three member functions that return a lambda capturing
`center = center_`. -/
inductive AwaitKind where
  | sender_AwaitClosed : AwaitKind
  | receiver_AwaitClosed : AwaitKind
  | receiver_AwaitEmpty : AwaitKind
deriving DecidableEq, Repr

/-- The promise returned by `AwaitClosed()` or `AwaitEmpty()`: a lambda with
one copy of the handle's `center_`; `center` tells whether it is not null. -/
structure AwaitPromise where
  kind : AwaitKind
  center : Bool
deriving DecidableEq, Repr

/-- A pipe with every object that can hold a reference to its center: the
two handles (`none` once destroyed), the `Push` objects alive, resolved or
not, the `NextResult` objects alive, the `Next()` promises that have not
resolved, and the `AwaitClosed()` and `AwaitEmpty()` promises alive. -/
structure RefConfig (T : Type) where
  center : Center T
  sender : Option PipeSender
  receiver : Option PipeReceiver
  pushes : List (Push T)
  results : List NextResult
  nexts : List NextPromise
  awaits : List AwaitPromise

/-- The constructor `Pipe(Center<T>* center)`, with no promise made yet. -/
def RefConfig.init (T : Type) [Inhabited T] : RefConfig T :=
  { center := Center.new T, sender := some { center_ := true },
    receiver := some { center_ := true }, pushes := [], results := [],
    nexts := [], awaits := [] }

/-- The operations on a pipe, with the creation, the polls and the
destruction of every promise as operations of their own. -/
inductive RefOp (T : Type) where
  | sender_Push (v : T) : RefOp T
  | poll_Push (i : Nat) : RefOp T
  | destroy_Push (i : Nat) : RefOp T
  | receiver_Next : RefOp T
  | poll_Next (k : Nat) (kept : Nat) : RefOp T
  | destroy_Next (k : Nat) : RefOp T
  | destroy_NextResult (j : Nat) : RefOp T
  | reset_NextResult (j : Nat) : RefOp T
  | sender_Close : RefOp T
  | sender_CloseWithError : RefOp T
  | destroy_sender : RefOp T
  | receiver_CloseWithError : RefOp T
  | destroy_receiver : RefOp T
  | sender_InterceptAndMap (f : T → Option T) : RefOp T
  | receiver_InterceptAndMap (f : T → Option T) : RefOp T
  | sender_AwaitClosed : RefOp T
  | receiver_AwaitClosed : RefOp T
  | receiver_AwaitEmpty : RefOp T
  | poll_Await (k : Nat) : RefOp T
  | destroy_Await (k : Nat) : RefOp T

/-- One poll of an `AwaitClosed()` or `AwaitEmpty()` promise: the center
after the poll; `none` is the dereference of a null `center`. -/
def AwaitPromise.poll {T : Type} (a : AwaitPromise) (c : Center T) : Option (Center T) :=
  match a.kind with
  | .sender_AwaitClosed =>
    (PipeSender.AwaitClosed { center_ := a.center } c).map fun r => r.center
  | .receiver_AwaitClosed => some (PipeReceiver.AwaitClosed { center_ := a.center } c).center
  | .receiver_AwaitEmpty =>
    (PipeReceiver.AwaitEmpty { center_ := a.center } c).map fun r => r.center

/-- One operation; `none` when the object addressed does not exist, when a
null center is dereferenced, when the operation reaches `abort()` or when a
promise that has resolved is polled again. Creating a promise copies the
handle's `center_`, twice for `Next()`; a `Push` keeps its reference until it
is destroyed, whatever its polls returned. `Seq` is not among the sources:
how many of its two copies a `Next()` promise still holds once it has
resolved is the argument `kept` of the poll, any number up to the copies it
held; the others are released by that poll, and the rest by the destruction
of the promise. A value-bearing `NextResult` holds the reference that
`PipeReceiver.Next` takes for it. -/
def RefOp.step {T : Type} [MoveSemantics T] : RefOp T → RefConfig T → Option (RefConfig T)
  | .sender_Push v, w =>
    match w.sender with
    | some s =>
      let r := s.Push w.center v
      some { w with center := r.center, pushes := w.pushes ++ [r.ret] }
    | none => none
  | .poll_Push i, w =>
    match w.pushes[i]? with
    | some p =>
      let r := p.poll w.center
      some { w with center := r.center, pushes := w.pushes.set i r.ret.2 }
    | none => none
  | .destroy_Push i, w =>
    match w.pushes[i]? with
    | some p => some { w with center := p.destroy w.center, pushes := w.pushes.eraseIdx i }
    | none => none
  | .receiver_Next, w =>
    match w.receiver with
    | some r =>
      some { w with center := Center.copy r.center_ (Center.copy r.center_ w.center),
                    nexts := w.nexts ++
                      [{ center_ := r.center_, copies := 2, resolved := false }] }
    | none => none
  | .poll_Next k kept, w =>
    match w.nexts[k]? with
    | some np =>
      if np.resolved = true ∨ np.copies < kept then none
      else
        let n := PipeReceiver.Next { center_ := np.center_ } w.center
        match n.ret with
        | .pending => some { w with center := n.center }
        | .ready nr =>
          some { w with center := (Center.release np.center_)^[np.copies - kept] n.center,
                        results := w.results ++ [nr],
                        nexts := w.nexts.set k { np with copies := kept, resolved := true } }
    | none => none
  | .destroy_Next k, w =>
    match w.nexts[k]? with
    | some np =>
      some { w with center := (Center.release np.center_)^[np.copies] w.center,
                    nexts := w.nexts.eraseIdx k }
    | none => none
  | .destroy_NextResult j, w =>
    match w.results[j]? with
    | some nr =>
      match nr.destroy w.center with
      | some d => some { w with center := d.center, results := w.results.eraseIdx j }
      | none => none
    | none => none
  | .reset_NextResult j, w =>
    match w.results[j]? with
    | some nr =>
      match nr.reset w.center with
      | some d => some { w with center := d.center, results := w.results.set j d.ret }
      | none => none
    | none => none
  | .sender_Close, w =>
    match w.sender with
    | some s =>
      let r := s.Close w.center
      some { w with center := r.center, sender := some r.ret }
    | none => none
  | .sender_CloseWithError, w =>
    match w.sender with
    | some s =>
      let r := s.CloseWithError w.center
      some { w with center := r.center, sender := some r.ret }
    | none => none
  | .destroy_sender, w =>
    match w.sender with
    | some s => some { w with center := (s.destroy w.center).center, sender := none }
    | none => none
  | .receiver_CloseWithError, w =>
    match w.receiver with
    | some r =>
      let d := r.CloseWithError w.center
      some { w with center := d.center, receiver := some d.ret }
    | none => none
  | .destroy_receiver, w =>
    match w.receiver with
    | some r => some { w with center := (r.destroy w.center).center, receiver := none }
    | none => none
  | .sender_InterceptAndMap f, w =>
    match w.sender with
    | some s => (s.InterceptAndMap w.center f).map fun c => { w with center := c }
    | none => none
  | .receiver_InterceptAndMap f, w =>
    match w.receiver with
    | some r => (r.InterceptAndMap w.center f).map fun c => { w with center := c }
    | none => none
  | .sender_AwaitClosed, w =>
    match w.sender with
    | some s =>
      some { w with center := Center.copy s.center_ w.center,
                    awaits := w.awaits ++ [{ kind := .sender_AwaitClosed, center := s.center_ }] }
    | none => none
  | .receiver_AwaitClosed, w =>
    match w.receiver with
    | some r =>
      some { w with center := Center.copy r.center_ w.center,
                    awaits := w.awaits ++ [{ kind := .receiver_AwaitClosed, center := r.center_ }] }
    | none => none
  | .receiver_AwaitEmpty, w =>
    match w.receiver with
    | some r =>
      some { w with center := Center.copy r.center_ w.center,
                    awaits := w.awaits ++ [{ kind := .receiver_AwaitEmpty, center := r.center_ }] }
    | none => none
  | .poll_Await k, w =>
    match w.awaits[k]? with
    | some a => (a.poll w.center).map fun c => { w with center := c }
    | none => none
  | .destroy_Await k, w =>
    match w.awaits[k]? with
    | some a =>
      some { w with center := Center.release a.center w.center, awaits := w.awaits.eraseIdx k }
    | none => none

/-- A sequence of operations, first to last; `none` as soon as one of them
yields `none`. -/
def runRef {T : Type} [MoveSemantics T] : List (RefOp T) → RefConfig T → Option (RefConfig T)
  | [], w => some w
  | op :: rest, w => (op.step w).bind (runRef rest)

/-- The references held by handles: one for the sender and one for the
receiver while they hold the center, one for each `Push` alive that holds it
and one for each value-bearing `NextResult`. -/
def RefConfig.handle_refs {T : Type} (w : RefConfig T) : Nat :=
  (match w.sender with
    | some s => if s.center_ then 1 else 0
    | none => 0) +
  (match w.receiver with
    | some r => if r.center_ then 1 else 0
    | none => 0) +
  w.pushes.countP (fun p => p.center_) +
  w.results.countP NextResult.has_value

/-- The references held by promises: the copies held by each `Next()`
promise, two while it has not resolved, and one for each `AwaitClosed()` or
`AwaitEmpty()` promise, when the handle held the center at the creation. -/
def RefConfig.promise_refs {T : Type} (w : RefConfig T) : Nat :=
  (w.nexts.map NextPromise.refs).sum + w.awaits.countP (fun a => a.center)

/-- Number of live references to the center. -/
def RefConfig.live {T : Type} (w : RefConfig T) : Nat :=
  w.handle_refs + w.promise_refs

/-- Whether fewer than `n` references are live in every configuration that the
sequence of operations goes through, the first and the last included. -/
def liveBelow {T : Type} [MoveSemantics T] (n : Nat) : List (RefOp T) → RefConfig T → Bool
  | [], w => decide (w.live < n)
  | op :: rest, w =>
    decide (w.live < n) &&
      match op.step w with
      | some w2 => liveBelow n rest w2
      | none => true

/-- The fresh pipe after the receiver made a `Next()` promise that has not
been polled yet. -/
def RefConfig.next_pending : RefConfig Nat :=
  { center := { interceptors := [], value_ := 0, refs_ := 4, value_state_ := .kEmpty },
    sender := some { center_ := true }, receiver := some { center_ := true },
    pushes := [], results := [],
    nexts := [{ center_ := true, copies := 2, resolved := false }], awaits := [] }

/-- The pipe after a push, a `Next()` promise and a sender `AwaitClosed()`
promise were made, the push deposited 1 and the `Next()` promise resolved
with it and kept none of its copies. -/
def RefConfig.delivered : RefConfig Nat :=
  { center := { interceptors := [], value_ := 1, refs_ := 5, value_state_ := .kWaitingForAck },
    sender := some { center_ := true }, receiver := some { center_ := true },
    pushes := [{ center_ := true, state_ := .AwaitingAck }],
    results := [{ center_ := true, cancelled_ := none }],
    nexts := [{ center_ := true, copies := 0, resolved := true }],
    awaits := [{ kind := .sender_AwaitClosed, center := true }] }

/-! ## Theorems -/

section CenterContracts

variable {T : Type}

/-- C1: `Center::Push(v)` on every state. From `kEmpty` it stores `v`, sets the
state to `kReady`, wakes `on_full_` only and returns ready(true); from
`kClosed`, `kReadyClosed`, `kWaitingForAckAndClosed` and `kCancelled` it
returns ready(false) and changes nothing; from `kReady`, `kWaitingForAck` and
`kAcked` it returns pending on `on_empty_` and changes nothing. -/
theorem Center_Push_contract (c : Center T) (v : T) :
    (c.value_state_ = .kEmpty →
      c.Push v = ⟨.ready true, { c with value_ := v, value_state_ := .kReady },
        [.wake .on_full_]⟩) ∧
    (c.value_state_ = .kClosed ∨ c.value_state_ = .kReadyClosed ∨
        c.value_state_ = .kWaitingForAckAndClosed ∨ c.value_state_ = .kCancelled →
      c.Push v = ⟨.ready false, c, []⟩) ∧
    (c.value_state_ = .kReady ∨ c.value_state_ = .kWaitingForAck ∨
        c.value_state_ = .kAcked →
      c.Push v = ⟨.pending, c, [.pending .on_empty_]⟩) := by
  obtain ⟨i, x, r, s⟩ := c
  cases s <;> simp [Center.Push]

/-- C1, at a concrete center: pushing 7 into an empty center. -/
theorem Center_Push_contract_witness :
    (Center.Push (Center.new Nat) 7).ret = .ready true ∧
    (Center.Push (Center.new Nat) 7).center.value_ = 7 ∧
    (Center.Push (Center.new Nat) 7).center.value_state_ = .kReady := by
  have h := (Center_Push_contract (Center.new Nat) 7).1 rfl
  rw [h]
  exact ⟨rfl, rfl, rfl⟩

/-- C2: `Center::Next()` on every state. From `kReady` (`kReadyClosed`) it
sets the state to `kWaitingForAck` (`kWaitingForAckAndClosed`), returns the
value held in the slot and leaves the moved-from slot behind; from `kClosed`
and `kCancelled` it returns no value and changes nothing; from `kEmpty`,
`kAcked`, `kWaitingForAck` and `kWaitingForAckAndClosed` it returns pending
on `on_full_` and changes nothing. -/
theorem Center_Next_contract [MoveSemantics T] (c : Center T) :
    (c.value_state_ = .kReady →
      c.Next = ⟨.ready (some c.value_),
        { c with value_state_ := .kWaitingForAck,
                 value_ := MoveSemantics.moved_from c.value_ }, []⟩) ∧
    (c.value_state_ = .kReadyClosed →
      c.Next = ⟨.ready (some c.value_),
        { c with value_state_ := .kWaitingForAckAndClosed,
                 value_ := MoveSemantics.moved_from c.value_ }, []⟩) ∧
    (c.value_state_ = .kClosed ∨ c.value_state_ = .kCancelled →
      c.Next = ⟨.ready none, c, []⟩) ∧
    (c.value_state_ = .kEmpty ∨ c.value_state_ = .kAcked ∨
        c.value_state_ = .kWaitingForAck ∨ c.value_state_ = .kWaitingForAckAndClosed →
      c.Next = ⟨.pending, c, [.pending .on_full_]⟩) := by
  obtain ⟨i, x, r, s⟩ := c
  cases s <;> simp [Center.Next]

/-- C2, at a concrete center: reading the 7 held by a ready center. -/
theorem Center_Next_contract_witness :
    (Center.Next (⟨[], 7, 2, .kReady⟩ : Center Nat)).ret = .ready (some 7) ∧
    (Center.Next (⟨[], 7, 2, .kReady⟩ : Center Nat)).center.value_state_ = .kWaitingForAck := by
  have h := (Center_Next_contract (⟨[], 7, 2, .kReady⟩ : Center Nat)).1 rfl
  rw [h]
  exact ⟨rfl, rfl⟩

/-- C3: `Center::PollAck()` on every state. From `kAcked` it sets the state to
`kEmpty`, wakes `on_empty_` and returns ready(true); from `kClosed` it
returns ready(true) and from `kCancelled` ready(false), changing nothing; from
the five other states it returns pending on `on_empty_` and changes
nothing. -/
theorem Center_PollAck_contract (c : Center T) :
    (c.value_state_ = .kAcked →
      c.PollAck = ⟨.ready true, { c with value_state_ := .kEmpty }, [.wake .on_empty_]⟩) ∧
    (c.value_state_ = .kClosed → c.PollAck = ⟨.ready true, c, []⟩) ∧
    (c.value_state_ = .kCancelled → c.PollAck = ⟨.ready false, c, []⟩) ∧
    (c.value_state_ = .kEmpty ∨ c.value_state_ = .kReady ∨
        c.value_state_ = .kReadyClosed ∨ c.value_state_ = .kWaitingForAck ∨
        c.value_state_ = .kWaitingForAckAndClosed →
      c.PollAck = ⟨.pending, c, [.pending .on_empty_]⟩) := by
  obtain ⟨i, x, r, s⟩ := c
  cases s <;> simp [Center.PollAck]

/-- C3, at a concrete center: the acknowledgement is observed from `kAcked`. -/
theorem Center_PollAck_contract_witness :
    (Center.PollAck (⟨[], 7, 2, .kAcked⟩ : Center Nat)).ret = .ready true ∧
    (Center.PollAck (⟨[], 7, 2, .kAcked⟩ : Center Nat)).center.value_state_ = .kEmpty := by
  have h := (Center_PollAck_contract (⟨[], 7, 2, .kAcked⟩ : Center Nat)).1 rfl
  rw [h]
  exact ⟨rfl, rfl⟩

/-- C4: `Center::AckNext()` on every state. From `kReady` and `kWaitingForAck`
the state becomes `kAcked` and `on_empty_` is woken; from `kReadyClosed` and
`kWaitingForAckAndClosed` the interceptor list is cleared, the state becomes
`kClosed` and `on_closed_`, `on_empty_`, `on_full_` are woken; from `kClosed`
and `kCancelled` nothing changes; and the call aborts exactly when the state
is `kEmpty` or `kAcked`. -/
theorem Center_AckNext_contract (c : Center T) :
    (c.value_state_ = .kReady ∨ c.value_state_ = .kWaitingForAck →
      c.AckNext = some ⟨(), { c with value_state_ := .kAcked }, [.wake .on_empty_]⟩) ∧
    (c.value_state_ = .kReadyClosed ∨ c.value_state_ = .kWaitingForAckAndClosed →
      c.AckNext = some ⟨(), { c with interceptors := [], value_state_ := .kClosed },
        [.wake .on_closed_, .wake .on_empty_, .wake .on_full_]⟩) ∧
    (c.value_state_ = .kClosed ∨ c.value_state_ = .kCancelled →
      c.AckNext = some ⟨(), c, []⟩) ∧
    (c.AckNext = none ↔ c.value_state_ = .kEmpty ∨ c.value_state_ = .kAcked) := by
  obtain ⟨i, x, r, s⟩ := c
  cases s <;> simp [Center.AckNext, InterceptorList.ResetInterceptorList]

/-- C4, at concrete centers: an acknowledgement from `kWaitingForAck`, and the
abort from `kEmpty`. -/
theorem Center_AckNext_contract_witness :
    (Center.AckNext (⟨[], 7, 2, .kWaitingForAck⟩ : Center Nat)).isSome = true ∧
    Center.AckNext (Center.new Nat) = none := by
  have h := (Center_AckNext_contract (⟨[], 7, 2, .kWaitingForAck⟩ : Center Nat)).1 (Or.inr rfl)
  have h2 := (Center_AckNext_contract (Center.new Nat)).2.2.2.2 (Or.inl rfl)
  rw [h, h2]
  exact ⟨rfl, rfl⟩

/-- C5: `Center::MarkClosed()` on every state. From `kEmpty` and `kAcked` it
clears the interceptor list, sets the state to `kClosed` and wakes the three
waiters; from `kReady` (`kWaitingForAck`) the state becomes `kReadyClosed`
(`kWaitingForAckAndClosed`), only `on_closed_` is woken and the slot and the
interceptor list are kept; in the four other states nothing changes. -/
theorem Center_MarkClosed_contract (c : Center T) :
    (c.value_state_ = .kEmpty ∨ c.value_state_ = .kAcked →
      c.MarkClosed = ⟨(), { c with interceptors := [], value_state_ := .kClosed },
        [.wake .on_empty_, .wake .on_full_, .wake .on_closed_]⟩) ∧
    (c.value_state_ = .kReady →
      c.MarkClosed = ⟨(), { c with value_state_ := .kReadyClosed }, [.wake .on_closed_]⟩) ∧
    (c.value_state_ = .kWaitingForAck →
      c.MarkClosed =
        ⟨(), { c with value_state_ := .kWaitingForAckAndClosed }, [.wake .on_closed_]⟩) ∧
    (c.value_state_ = .kReadyClosed ∨ c.value_state_ = .kWaitingForAckAndClosed ∨
        c.value_state_ = .kClosed ∨ c.value_state_ = .kCancelled →
      c.MarkClosed = ⟨(), c, []⟩) ∧
    (c.value_state_ = .kReady ∨ c.value_state_ = .kWaitingForAck →
      c.MarkClosed.center.value_ = c.value_ ∧
      c.MarkClosed.center.interceptors = c.interceptors) := by
  obtain ⟨i, x, r, s⟩ := c
  cases s <;> simp [Center.MarkClosed, InterceptorList.ResetInterceptorList]

/-- C5, at a concrete center: closing while the value 7 waits to be read. -/
theorem Center_MarkClosed_contract_witness :
    (Center.MarkClosed (⟨[], 7, 2, .kReady⟩ : Center Nat)).center.value_state_ = .kReadyClosed ∧
    (Center.MarkClosed (⟨[], 7, 2, .kReady⟩ : Center Nat)).calls = [.wake .on_closed_] := by
  have h := (Center_MarkClosed_contract (⟨[], 7, 2, .kReady⟩ : Center Nat)).2.1 rfl
  rw [h]
  exact ⟨rfl, rfl⟩

/-- C6: `Center::MarkCancelled()` on every state. From the six states other
than `kClosed` and `kCancelled` it clears the interceptor list, sets the state
to `kCancelled` and wakes `on_empty_`, `on_full_` and `on_closed_`; from
`kClosed` and `kCancelled` it changes nothing and wakes nothing. -/
theorem Center_MarkCancelled_contract (c : Center T) :
    (c.value_state_ = .kEmpty ∨ c.value_state_ = .kAcked ∨ c.value_state_ = .kReady ∨
        c.value_state_ = .kReadyClosed ∨ c.value_state_ = .kWaitingForAck ∨
        c.value_state_ = .kWaitingForAckAndClosed →
      c.MarkCancelled = ⟨(), { c with interceptors := [], value_state_ := .kCancelled },
        [.wake .on_empty_, .wake .on_full_, .wake .on_closed_]⟩) ∧
    (c.value_state_ = .kClosed ∨ c.value_state_ = .kCancelled →
      c.MarkCancelled = ⟨(), c, []⟩) := by
  obtain ⟨i, x, r, s⟩ := c
  cases s <;> simp [Center.MarkCancelled, InterceptorList.ResetInterceptorList]

/-- C6, at a concrete center: cancelling while a value is waiting for its
acknowledgement. -/
theorem Center_MarkCancelled_contract_witness :
    (Center.MarkCancelled (⟨[some], 7, 2, .kWaitingForAck⟩ : Center Nat)).center.value_state_
      = .kCancelled ∧
    (Center.MarkCancelled (⟨[some], 7, 2, .kWaitingForAck⟩ : Center Nat)).center.interceptors.length
      = 0 := by
  have h := (Center_MarkCancelled_contract (⟨[some], 7, 2, .kWaitingForAck⟩ : Center Nat)).1
    (Or.inr (Or.inr (Or.inr (Or.inr (Or.inl rfl)))))
  rw [h]
  exact ⟨rfl, rfl⟩

end CenterContracts

section HandleProtocol

variable {T : Type}

/-- C7: round trip of one value. On a fresh pipe the first poll of `Push(v)`
deposits `v` and is pending with the center in `kReady`; the receiver's
`Next` yields a `NextResult` holding exactly `v` with the center in
`kWaitingForAck`; the push polled again is still pending; once the
`NextResult` is destroyed the next poll of the push resolves true and the
center is back in `kEmpty`. -/
theorem Push_round_trip [Inhabited T] [MoveSemantics T] (v : T) :
    ∃ (p0 p1 p3 p5 : Push T) (c0 c1 c2 c3 c4 c5 : Center T) (nr : NextResult)
      (k1 k2 k3 k4 k5 : List WaiterCall),
      PipeSender.Push { center_ := true } (Center.new T) v = ⟨p0, c0, []⟩ ∧
      c0.value_state_ = .kEmpty ∧ c0.interceptors = [] ∧
      p0.poll c0 = ⟨(.pending, p1), c1, k1⟩ ∧
      c1.value_state_ = .kReady ∧ c1.value_ = v ∧ p1.state_ = .AwaitingAck ∧
      PipeReceiver.Next { center_ := true } c1 = ⟨.ready nr, c2, k2⟩ ∧
      nr.has_value = true ∧ nr.value c2 = some v ∧ c2.value_state_ = .kWaitingForAck ∧
      p1.poll c2 = ⟨(.pending, p3), c3, k3⟩ ∧
      c3.value_state_ = .kWaitingForAck ∧ p3.state_ = .AwaitingAck ∧
      nr.destroy c3 = some ⟨(), c4, k4⟩ ∧ c4.value_state_ = .kAcked ∧
      p3.poll c4 = ⟨(.ready true, p5), c5, k5⟩ ∧ c5.value_state_ = .kEmpty :=
  ⟨_, _, _, _, _, _, _, _, _, _, _, _, _, _, _, _,
    rfl, rfl, rfl, rfl, rfl, rfl, rfl, rfl, rfl, rfl, rfl, rfl, rfl, rfl, rfl, rfl, rfl, rfl⟩

/-- Running the interceptor list on no value yields no value. -/
theorem InterceptorList.Run_none (l : InterceptorList T) :
    InterceptorList.Run l none = none := by
  cases l <;> rfl

/-- A left fold of `Option.bind` that starts from no value yields no value. -/
theorem foldl_bind_none (l : List (T → Option T)) :
    l.foldl (fun acc f => acc.bind f) none = none := by
  induction l with
  | nil => rfl
  | cons f rest ih => simpa using ih

/-- Running the interceptor list is a left fold of `Option.bind`. -/
theorem InterceptorList.Run_eq_foldl (l : InterceptorList T) (o : Option T) :
    InterceptorList.Run l o = l.foldl (fun acc f => acc.bind f) o := by
  induction l generalizing o with
  | nil => cases o <;> simp [InterceptorList.Run]
  | cons f rest ih =>
    cases o with
    | none => rw [InterceptorList.Run_none, foldl_bind_none]
    | some x => simp [InterceptorList.Run, ih]

/-- The stages registered by the sender in two batches. -/
theorem senderStages_append (a b : List (Registration T)) :
    senderStages (a ++ b) = senderStages a ++ senderStages b := by
  induction a with
  | nil => rfl
  | cons g rest ih => cases g <;> simp [senderStages, ih]

/-- The stages registered by the receiver in two batches. -/
theorem receiverStages_append (a b : List (Registration T)) :
    receiverStages (a ++ b) = receiverStages a ++ receiverStages b := by
  induction a with
  | nil => rfl
  | cons g rest ih => cases g <;> simp [receiverStages, ih]

/-- Registrations through handles that hold the center always succeed and only
change the interceptor list: sender stages pile up in front, receiver stages
queue up behind. -/
theorem register_eq (regs : List (Registration T)) (c : Center T) :
    register { center_ := true } { center_ := true } regs c =
      some { c with interceptors :=
        (senderStages regs).reverse ++ (c.interceptors ++ receiverStages regs) } := by
  induction regs generalizing c with
  | nil => simp [register, senderStages, receiverStages]
  | cons g rest ih =>
    cases g <;>
      simp [register, Registration.apply, PipeSender.InterceptAndMap,
        PipeReceiver.InterceptAndMap, InterceptorList.PrependMap, InterceptorList.AppendMap,
        senderStages, receiverStages, ih]

/-- C8: value preservation with interceptor order. Whatever the handles
registered before the push and between the push and the read, when the
pipeline `run` of the specification yields `w` for the pushed `v`, the
receiver's `Next` delivers a value-bearing `NextResult` that exposes `w`, and
the slot of the center holds `w`. -/
theorem Next_value_preservation [Inhabited T] [MoveSemantics T] (v w : T)
    (regs1 regs2 : List (Registration T)) (h : spec_run (regs1 ++ regs2) v = some w) :
    ∃ (c : Center T) (k : List WaiterCall),
      deliver regs1 regs2 v =
        some { push := (.pending, { center_ := true, state_ := .AwaitingAck }),
               next := ⟨.ready { center_ := true, cancelled_ := none }, c, k⟩ } ∧
      NextResult.value { center_ := true, cancelled_ := none } c = some w ∧
      c.value_ = w ∧ c.value_state_ = .kWaitingForAck := by
  have hrun : InterceptorList.Run
      ((senderStages regs2).reverse ++ ((senderStages regs1).reverse ++
        (receiverStages regs1 ++ receiverStages regs2))) (some v) = some w := by
    rw [InterceptorList.Run_eq_foldl, ← h]
    simp [spec_run, senderStages_append, receiverStages_append]
  simp [deliver, register_eq, Center.new, PipeSender.Push, Center.IncrementRefCount,
    Push.poll, Center.Push, Center.PollAck, PipeReceiver.Next, Next.poll, Center.Next,
    hrun, NextResult.value, NextResult.has_value]

/-- C8, the scenario of the specification: the sender prepends `x + 1`, the
receiver appends `x * 10`, and `Push(2)` is delivered as 30. -/
theorem Next_value_preservation_witness :
    spec_run ([.by_sender (fun x => some (x + 1)), .by_receiver (fun x => some (x * 10))] ++ [])
        (2 : Nat) = some 30 ∧
    ∃ (c : Center Nat) (k : List WaiterCall),
      deliver [.by_sender (fun x => some (x + 1)), .by_receiver (fun x => some (x * 10))] []
          (2 : Nat) =
        some { push := (.pending, { center_ := true, state_ := .AwaitingAck }),
               next := ⟨.ready { center_ := true, cancelled_ := none }, c, k⟩ } ∧
      NextResult.value { center_ := true, cancelled_ := none } c = some 30 ∧
      c.value_ = 30 ∧ c.value_state_ = .kWaitingForAck :=
  ⟨rfl, Next_value_preservation 2 30 _ _ rfl⟩

/-- Replacing the element at a position changes a count by the difference
between the old and the new element. -/
theorem countP_set_at {α : Type} (f : α → Bool) (l : List α) (i : Nat) (p q : α)
    (h : l[i]? = some p) :
    (l.set i q).countP f + (if f p then 1 else 0) = l.countP f + (if f q then 1 else 0) := by
  induction l generalizing i with
  | nil => simp at h
  | cons a rest ih =>
    cases i with
    | zero =>
      simp only [List.getElem?_cons_zero, Option.some.injEq] at h
      subst h
      simp only [List.set_cons_zero, List.countP_cons]
      omega
    | succ n =>
      simp only [List.getElem?_cons_succ] at h
      have := ih n h
      simp only [List.set_cons_succ, List.countP_cons]
      omega

/-- Removing the element at a position lowers a count by that element. -/
theorem countP_eraseIdx_at {α : Type} (f : α → Bool) (l : List α) (i : Nat) (p : α)
    (h : l[i]? = some p) :
    (l.eraseIdx i).countP f + (if f p then 1 else 0) = l.countP f := by
  induction l generalizing i with
  | nil => simp at h
  | cons a rest ih =>
    cases i with
    | zero =>
      simp only [List.getElem?_cons_zero, Option.some.injEq] at h
      subst h
      simp only [List.eraseIdx_cons_zero, List.countP_cons]
    | succ n =>
      simp only [List.getElem?_cons_succ] at h
      have := ih n h
      simp only [List.eraseIdx_cons_succ, List.countP_cons]
      omega

/-- A property kept by every operation holds after every run that starts
where it holds. -/
theorem run_invariant [MoveSemantics T] (P : Config T → Prop)
    (hstep : ∀ (op : Op T) (w w2 : Config T), P w → op.step w = some w2 → P w2) :
    ∀ (ops : List (Op T)) (w w2 : Config T), P w → run ops w = some w2 → P w2 := by
  intro ops
  induction ops with
  | nil =>
    intro w w2 hw h
    simp only [run, Option.some.injEq] at h
    exact h ▸ hw
  | cons op rest ih =>
    intro w w2 hw h
    simp only [run] at h
    cases hs : op.step w with
    | none => simp [hs] at h
    | some w1 =>
      rw [hs] at h
      exact ih w1 w2 (hstep op w w1 hw hs) h

/-- The invariant holds in the configuration made by the `Pipe` constructor. -/
theorem Config.Inv_init [Inhabited T] : (Config.init T).Inv := by
  simp [Config.Inv, Config.init, Center.new, Config.awaitingAck, Config.holdingResults]

/-- Creating a push keeps the invariant. -/
theorem Inv_sender_Push [MoveSemantics T] (v : T) (w w2 : Config T) (hw : w.Inv)
    (h : (Op.sender_Push v).step w = some w2) : w2.Inv := by
  obtain ⟨c, sd, rc, ps, rs, pd, rv⟩ := w
  obtain ⟨il, x, n, st⟩ := c
  cases sd with
  | none => simp [Op.step] at h
  | some s =>
    obtain ⟨b⟩ := s
    cases b <;> simp [Op.step, PipeSender.Push, Center.IncrementRefCount] at h <;> subst h <;>
      simpa [Config.Inv, Config.awaitingAck, Config.holdingResults, Push.awaiting] using hw

/-- Polling a push keeps the invariant. -/
theorem Inv_poll_Push [MoveSemantics T] (i : Nat) (w w2 : Config T) (hw : w.Inv)
    (h : (Op.poll_Push i).step w = some w2) : w2.Inv := by
  obtain ⟨c, sd, rc, ps, rs, pd, rv⟩ := w
  obtain ⟨il, x, n, st⟩ := c
  simp only [Op.step] at h
  cases hp : ps[i]? with
  | none => simp [hp] at h
  | some p =>
    obtain ⟨b, q⟩ := p
    have hset1 := countP_set_at Push.awaiting ps i _ { center_ := b, state_ := .AwaitingAck } hp
    have hset2 := countP_set_at Push.awaiting ps i _ { center_ := b, state_ := q } hp
    have herase := countP_eraseIdx_at Push.awaiting ps i _ hp
    rw [hp] at h
    cases b <;> cases q <;> cases st <;>
      simp [Push.poll, Center.Push, Center.PollAck, Push.destroy, Center.release,
        Center.Unref, Push.deposits] at h <;>
      subst h <;>
      simp [Config.Inv, Config.awaitingAck, Config.holdingResults, Push.awaiting,
        -List.countP_eq_zero, -List.countP_pos_iff]
        at hw hset1 hset2 herase ⊢ <;>
      (split_ands <;> first | omega | simp_all [-List.countP_eq_zero, -List.countP_pos_iff])

/-- Destroying an unresolved push keeps the invariant. -/
theorem Inv_destroy_Push [MoveSemantics T] (i : Nat) (w w2 : Config T) (hw : w.Inv)
    (h : (Op.destroy_Push i).step w = some w2) : w2.Inv := by
  obtain ⟨c, sd, rc, ps, rs, pd, rv⟩ := w
  obtain ⟨il, x, n, st⟩ := c
  simp only [Op.step] at h
  cases hp : ps[i]? with
  | none => simp [hp] at h
  | some p =>
    obtain ⟨b, q⟩ := p
    have herase := countP_eraseIdx_at Push.awaiting ps i _ hp
    rw [hp] at h
    cases b <;> cases q <;> cases st <;>
      simp [Push.destroy, Center.release, Center.Unref] at h <;>
      subst h <;>
      simp [Config.Inv, Config.awaitingAck, Config.holdingResults, Push.awaiting,
        -List.countP_eq_zero, -List.countP_pos_iff]
        at hw herase ⊢ <;>
      (split_ands <;> first | omega | simp_all [-List.countP_eq_zero, -List.countP_pos_iff])

/-- Polling the receiver's `Next()` keeps the invariant. -/
theorem Inv_receiver_Next [MoveSemantics T] (w w2 : Config T) (hw : w.Inv)
    (h : Op.receiver_Next.step w = some w2) : w2.Inv := by
  obtain ⟨c, sd, rc, ps, rs, pd, rv⟩ := w
  obtain ⟨il, x, n, st⟩ := c
  cases rc with
  | none => simp [Op.step] at h
  | some r =>
    obtain ⟨b⟩ := r
    cases hr : InterceptorList.Run il (some x) <;> cases b <;> cases st <;>
      simp [Op.step, PipeReceiver.Next, Next.poll, Center.Next, Center.cancelled,
        PipeReceiver.takes, Center.MarkCancelled, Center.IncrementRefCount,
        InterceptorList.ResetInterceptorList, hr] at h <;>
      subst h <;>
      simp [Config.Inv, Config.awaitingAck, Config.holdingResults, NextResult.has_value,
        -List.countP_eq_zero, -List.countP_pos_iff]
        at hw ⊢ <;>
      (split_ands <;> first | omega | simp_all [-List.countP_eq_zero, -List.countP_pos_iff])

/-- Destroying a `NextResult` keeps the invariant. -/
theorem Inv_destroy_NextResult [MoveSemantics T] (j : Nat) (w w2 : Config T) (hw : w.Inv)
    (h : (Op.destroy_NextResult j).step w = some w2) : w2.Inv := by
  obtain ⟨c, sd, rc, ps, rs, pd, rv⟩ := w
  obtain ⟨il, x, n, st⟩ := c
  simp only [Op.step] at h
  cases hp : rs[j]? with
  | none => simp [hp] at h
  | some nr =>
    obtain ⟨b, cn⟩ := nr
    have herase := countP_eraseIdx_at NextResult.has_value rs j _ hp
    rw [hp] at h
    cases b <;> cases st <;>
      simp [NextResult.destroy, Center.AckNext, Center.release, Center.Unref,
        InterceptorList.ResetInterceptorList] at h <;>
      subst h <;>
      simp [Config.Inv, Config.awaitingAck, Config.holdingResults, NextResult.has_value,
        -List.countP_eq_zero, -List.countP_pos_iff]
        at hw herase ⊢ <;>
      (split_ands <;> first | omega | simp_all [-List.countP_eq_zero, -List.countP_pos_iff])

/-- Resetting a `NextResult` keeps the invariant. -/
theorem Inv_reset_NextResult [MoveSemantics T] (j : Nat) (w w2 : Config T) (hw : w.Inv)
    (h : (Op.reset_NextResult j).step w = some w2) : w2.Inv := by
  obtain ⟨c, sd, rc, ps, rs, pd, rv⟩ := w
  obtain ⟨il, x, n, st⟩ := c
  simp only [Op.step] at h
  cases hp : rs[j]? with
  | none => simp [hp] at h
  | some nr =>
    obtain ⟨b, cn⟩ := nr
    have hset1 := countP_set_at NextResult.has_value rs j _ { center_ := false, cancelled_ := cn } hp
    rw [hp] at h
    cases b <;> cases st <;>
      simp [NextResult.reset, Center.AckNext, Center.release, Center.Unref,
        InterceptorList.ResetInterceptorList] at h <;>
      subst h <;>
      simp [Config.Inv, Config.awaitingAck, Config.holdingResults, NextResult.has_value,
        -List.countP_eq_zero, -List.countP_pos_iff]
        at hw hset1 ⊢ <;>
      (split_ands <;> first | omega | simp_all [-List.countP_eq_zero, -List.countP_pos_iff])

/-- Closing, cancelling or destroying the sender keeps the invariant. -/
theorem Inv_sender_close [MoveSemantics T] (op : Op T) (w w2 : Config T) (hw : w.Inv)
    (hop : op = .sender_Close ∨ op = .sender_CloseWithError ∨ op = .destroy_sender)
    (h : op.step w = some w2) : w2.Inv := by
  obtain ⟨c, sd, rc, ps, rs, pd, rv⟩ := w
  obtain ⟨il, x, n, st⟩ := c
  cases sd with
  | none => rcases hop with rfl | rfl | rfl <;> simp [Op.step] at h
  | some s =>
    obtain ⟨b⟩ := s
    rcases hop with rfl | rfl | rfl <;> cases b <;> cases st <;>
      simp [Op.step, PipeSender.Close, PipeSender.CloseWithError, PipeSender.destroy,
        Center.MarkClosed, Center.MarkCancelled, Center.release, Center.Unref,
        InterceptorList.ResetInterceptorList] at h <;>
      subst h <;>
      simp [Config.Inv, Config.awaitingAck, Config.holdingResults,
        -List.countP_eq_zero, -List.countP_pos_iff]
        at hw ⊢ <;>
      (split_ands <;> first | omega | simp_all [-List.countP_eq_zero, -List.countP_pos_iff])

/-- Cancelling or destroying the receiver keeps the invariant. -/
theorem Inv_receiver_close [MoveSemantics T] (op : Op T) (w w2 : Config T) (hw : w.Inv)
    (hop : op = .receiver_CloseWithError ∨ op = .destroy_receiver)
    (h : op.step w = some w2) : w2.Inv := by
  obtain ⟨c, sd, rc, ps, rs, pd, rv⟩ := w
  obtain ⟨il, x, n, st⟩ := c
  cases rc with
  | none => rcases hop with rfl | rfl <;> simp [Op.step] at h
  | some r =>
    obtain ⟨b⟩ := r
    rcases hop with rfl | rfl <;> cases b <;> cases st <;>
      simp [Op.step, PipeReceiver.CloseWithError, PipeReceiver.destroy,
        Center.MarkCancelled, Center.release, Center.Unref,
        InterceptorList.ResetInterceptorList] at h <;>
      subst h <;>
      simp [Config.Inv, Config.awaitingAck, Config.holdingResults,
        -List.countP_eq_zero, -List.countP_pos_iff]
        at hw ⊢ <;>
      (split_ands <;> first | omega | simp_all [-List.countP_eq_zero, -List.countP_pos_iff])

/-- Registering an interceptor and polling the closed and empty conditions
keep the invariant: they change neither the state, the slot, the promises nor
the histories. -/
theorem Inv_observers [MoveSemantics T] (op : Op T) (w w2 : Config T) (hw : w.Inv)
    (hop : (∃ f, op = .sender_InterceptAndMap f) ∨ (∃ f, op = .receiver_InterceptAndMap f) ∨
      op = .sender_AwaitClosed ∨ op = .receiver_AwaitClosed ∨ op = .receiver_AwaitEmpty)
    (h : op.step w = some w2) : w2.Inv := by
  obtain ⟨c, sd, rc, ps, rs, pd, rv⟩ := w
  obtain ⟨il, x, n, st⟩ := c
  rcases hop with ⟨f, rfl⟩ | ⟨f, rfl⟩ | rfl | rfl | rfl
  · cases sd with
    | none => simp [Op.step] at h
    | some s =>
      obtain ⟨b⟩ := s
      cases b <;> simp [Op.step, PipeSender.InterceptAndMap] at h
      subst h
      simpa [Config.Inv, Config.awaitingAck, Config.holdingResults] using hw
  · cases rc with
    | none => simp [Op.step] at h
    | some r =>
      obtain ⟨b⟩ := r
      cases b <;> simp [Op.step, PipeReceiver.InterceptAndMap] at h
      subst h
      simpa [Config.Inv, Config.awaitingAck, Config.holdingResults] using hw
  · cases sd with
    | none => simp [Op.step] at h
    | some s =>
      obtain ⟨b⟩ := s
      cases b <;> cases st <;>
        simp [Op.step, PipeSender.AwaitClosed, Center.PollClosedForSender] at h <;>
        subst h <;>
        simpa [Config.Inv, Config.awaitingAck, Config.holdingResults] using hw
  · cases rc with
    | none => simp [Op.step] at h
    | some r =>
      obtain ⟨b⟩ := r
      cases b <;> cases st <;>
        simp [Op.step, PipeReceiver.AwaitClosed, Center.PollClosedForReceiver] at h <;>
        subst h <;>
        simpa [Config.Inv, Config.awaitingAck, Config.holdingResults] using hw
  · cases rc with
    | none => simp [Op.step] at h
    | some r =>
      obtain ⟨b⟩ := r
      cases b <;> cases st <;>
        simp [Op.step, PipeReceiver.AwaitEmpty, Center.PollEmpty] at h <;>
        subst h <;>
        simpa [Config.Inv, Config.awaitingAck, Config.holdingResults] using hw

/-- Every operation keeps the invariant. -/
theorem Inv_step [MoveSemantics T] (op : Op T) (w w2 : Config T) (hw : w.Inv)
    (h : op.step w = some w2) : w2.Inv := by
  cases op with
  | sender_Push v => exact Inv_sender_Push v w w2 hw h
  | poll_Push i => exact Inv_poll_Push i w w2 hw h
  | destroy_Push i => exact Inv_destroy_Push i w w2 hw h
  | receiver_Next => exact Inv_receiver_Next w w2 hw h
  | destroy_NextResult j => exact Inv_destroy_NextResult j w w2 hw h
  | reset_NextResult j => exact Inv_reset_NextResult j w w2 hw h
  | sender_Close => exact Inv_sender_close _ w w2 hw (Or.inl rfl) h
  | sender_CloseWithError => exact Inv_sender_close _ w w2 hw (Or.inr (Or.inl rfl)) h
  | destroy_sender => exact Inv_sender_close _ w w2 hw (Or.inr (Or.inr rfl)) h
  | receiver_CloseWithError => exact Inv_receiver_close _ w w2 hw (Or.inl rfl) h
  | destroy_receiver => exact Inv_receiver_close _ w w2 hw (Or.inr rfl) h
  | sender_InterceptAndMap f => exact Inv_observers _ w w2 hw (Or.inl ⟨f, rfl⟩) h
  | receiver_InterceptAndMap f => exact Inv_observers _ w w2 hw (Or.inr (Or.inl ⟨f, rfl⟩)) h
  | sender_AwaitClosed => exact Inv_observers _ w w2 hw (Or.inr (Or.inr (Or.inl rfl))) h
  | receiver_AwaitClosed =>
    exact Inv_observers _ w w2 hw (Or.inr (Or.inr (Or.inr (Or.inl rfl)))) h
  | receiver_AwaitEmpty =>
    exact Inv_observers _ w w2 hw (Or.inr (Or.inr (Or.inr (Or.inr rfl)))) h

/-- The invariant holds in every configuration reached from a fresh pipe. -/
theorem Inv_reachable [Inhabited T] [MoveSemantics T] (ops : List (Op T)) (w : Config T)
    (h : run ops (Config.init T) = some w) : w.Inv :=
  run_invariant Config.Inv Inv_step ops (Config.init T) w Config.Inv_init h

/-- C9: in-order, exactly-once delivery. After every sequence of operations
on a fresh pipe, the values returned by the `Center::Next` calls, in order,
are a leading segment of the values deposited by the `Center::Push` calls
that returned true, in order. It holds whether or not the handles register
interceptors along the way. -/
theorem in_order_delivery [Inhabited T] [MoveSemantics T] (ops : List (Op T))
    (w : Config T) (h : run ops (Config.init T) = some w) : w.received <+: w.pushed := by
  have hinv := Inv_reachable ops w h
  obtain ⟨c, sd, rc, ps, rs, pd, rv⟩ := w
  obtain ⟨il, x, n, st⟩ := c
  obtain ⟨-, -, -, -, hv⟩ := hinv
  cases st <;> simp only at hv <;> first
    | exact hv
    | exact hv ▸ List.prefix_refl _
    | exact hv ▸ List.prefix_append _ _

/-- C9, on a run that delivers 1 and then 2. -/
theorem in_order_delivery_witness :
    run [.sender_Push 1, .poll_Push 0, .receiver_Next, .destroy_NextResult 0, .poll_Push 0,
        .sender_Push 2, .poll_Push 0, .receiver_Next] (Config.init Nat)
      = some Config.second_delivered ∧
    Config.second_delivered.received = [1, 2] ∧
    Config.second_delivered.received <+: Config.second_delivered.pushed :=
  have hrun : run [.sender_Push 1, .poll_Push 0, .receiver_Next, .destroy_NextResult 0,
      .poll_Push 0, .sender_Push 2, .poll_Push 0, .receiver_Next] (Config.init Nat)
      = some Config.second_delivered := rfl
  ⟨hrun, rfl, in_order_delivery _ _ hrun⟩

/-- C10: one at a time. In every configuration reached from a fresh pipe at
most one unresolved push is in the `AwaitingAck` sub-state, and while there
is one the center is not `kEmpty`, so that a poll of any push that still
holds its value deposits nothing and leaves the center as it is; the center
is `kEmpty` again only once no push awaits an acknowledgement. -/
theorem one_at_a_time [Inhabited T] [MoveSemantics T] (ops : List (Op T))
    (w : Config T) (h : run ops (Config.init T) = some w) :
    w.awaitingAck ≤ 1 ∧
    (0 < w.awaitingAck →
      w.center.value_state_ ≠ .kEmpty ∧
      ∀ (q : Push T) (v : T), q.state_ = .value v →
        q.deposits w.center = [] ∧ (q.poll w.center).center = w.center ∧
        ((q.poll w.center).ret.1 = .pending ∨ (q.poll w.center).ret.1 = .ready false)) := by
  have hinv := Inv_reachable ops w h
  obtain ⟨c, sd, rc, ps, rs, pd, rv⟩ := w
  obtain ⟨il, x, n, st⟩ := c
  obtain ⟨h1, h2, -, -, -⟩ := hinv
  refine ⟨h1, fun hpos => ?_⟩
  have hne : st ≠ .kEmpty := fun he => by
    have := h2 he
    omega
  refine ⟨hne, fun q v hq => ?_⟩
  obtain ⟨b, qs⟩ := q
  simp only at hq
  subst hq
  cases b <;> cases st <;>
    simp [Push.deposits, Push.poll, Center.Push] at hne ⊢

/-- C10, on a run with two pushes polled in turn: the first awaits its
acknowledgement, the second still holds its value. -/
theorem one_at_a_time_witness :
    run [.sender_Push 1, .sender_Push 2, .poll_Push 0, .poll_Push 1] (Config.init Nat)
      = some Config.two_pushes ∧
    Config.two_pushes.awaitingAck ≤ 1 ∧
    (0 < Config.two_pushes.awaitingAck →
      Config.two_pushes.center.value_state_ ≠ .kEmpty ∧
      ∀ (q : Push Nat) (v : Nat), q.state_ = .value v →
        q.deposits Config.two_pushes.center = [] ∧
        (q.poll Config.two_pushes.center).center = Config.two_pushes.center ∧
        ((q.poll Config.two_pushes.center).ret.1 = .pending ∨
          (q.poll Config.two_pushes.center).ret.1 = .ready false)) :=
  have hrun : run [.sender_Push 1, .sender_Push 2, .poll_Push 0, .poll_Push 1]
      (Config.init Nat) = some Config.two_pushes := rfl
  ⟨hrun, one_at_a_time _ _ hrun⟩

end HandleProtocol

section ClosingAndCancelling

variable {T : Type}

/-- C12, as stated, fails in two ways. On a center that is already `kClosed`
`MarkCancelled` changes nothing, and afterwards a push that awaits its
acknowledgement resolves true, the receiver's `Next` reports cancelled =
false and both `AwaitClosed` polls resolve false. And on a center that holds
9 in `kReady`, the receiver's `CloseWithError` applies `MarkCancelled` and
leaves the center `kCancelled` and the receiver without a center: the
`AwaitClosed` of that receiver then resolves false; likewise the sender is
left without a center by its own `CloseWithError`, and the poll of its
`AwaitClosed` dereferences a null pointer. -/
theorem cancel_promptness_counterexample :
    (Center.MarkCancelled (⟨[], 0, 2, .kClosed⟩ : Center Nat)).center.value_state_ = .kClosed ∧
    (Push.poll ⟨true, .AwaitingAck⟩
      (Center.MarkCancelled (⟨[], 0, 2, .kClosed⟩ : Center Nat)).center).ret.1 = .ready true ∧
    (PipeReceiver.Next ⟨true⟩
      (Center.MarkCancelled (⟨[], 0, 2, .kClosed⟩ : Center Nat)).center).ret
        = .ready ⟨false, some false⟩ ∧
    (PipeSender.AwaitClosed ⟨true⟩
      (Center.MarkCancelled (⟨[], 0, 2, .kClosed⟩ : Center Nat)).center).map (fun r => r.ret)
        = some (.ready false) ∧
    (PipeReceiver.AwaitClosed ⟨true⟩
      (Center.MarkCancelled (⟨[], 0, 2, .kClosed⟩ : Center Nat)).center).ret = .ready false ∧
    (PipeReceiver.CloseWithError ⟨true⟩ (⟨[], 9, 3, .kReady⟩ : Center Nat)).center.value_state_
      = .kCancelled ∧
    (PipeReceiver.AwaitClosed
      (PipeReceiver.CloseWithError ⟨true⟩ (⟨[], 9, 3, .kReady⟩ : Center Nat)).ret
      (PipeReceiver.CloseWithError ⟨true⟩ (⟨[], 9, 3, .kReady⟩ : Center Nat)).center).ret
        = .ready false ∧
    (PipeSender.CloseWithError ⟨true⟩ (⟨[], 9, 3, .kReady⟩ : Center Nat)).center.value_state_
      = .kCancelled ∧
    (PipeSender.AwaitClosed
      (PipeSender.CloseWithError ⟨true⟩ (⟨[], 9, 3, .kReady⟩ : Center Nat)).ret
      (PipeSender.CloseWithError ⟨true⟩ (⟨[], 9, 3, .kReady⟩ : Center Nat)).center).map
        (fun r => r.ret) = none :=
  ⟨rfl, rfl, rfl, rfl, rfl, rfl, rfl, rfl, rfl⟩

/-- C12, amended: cancel promptness from every state other than `kClosed`.
`MarkCancelled` leaves the center `kCancelled`, and on a cancelled center
every poll of a push, whether it holds its value or awaits its
acknowledgement, resolves false, and every poll of a receiver's `Next` yields
a `NextResult` with no value and cancelled = true. The poll of an
`AwaitClosed` resolves true when the sender or the receiver held the center
as the promise was made; for a receiver that held none, as after its own
`CloseWithError`, it resolves false, and for a sender that held none, as
after its own `Close` or `CloseWithError`, it dereferences a null pointer.
None of these polls changes the center, so the same holds for every later
poll. -/
theorem cancel_promptness [MoveSemantics T] (c : Center T)
    (hc : c.value_state_ ≠ .kClosed) :
    c.MarkCancelled.center.value_state_ = .kCancelled ∧
    ∀ d : Center T, d.value_state_ = .kCancelled →
      (∀ p : Push T, (p.poll d).ret.1 = .ready false ∧ (p.poll d).center = d) ∧
      (∀ r : PipeReceiver, r.Next d = ⟨.ready ⟨false, some true⟩, d, []⟩) ∧
      (∀ s : PipeSender,
        PipeSender.AwaitClosed s d = if s.center_ then some ⟨.ready true, d, []⟩ else none) ∧
      (∀ r : PipeReceiver, PipeReceiver.AwaitClosed r d = ⟨.ready r.center_, d, []⟩) := by
  refine ⟨?_, fun d hd => ⟨fun p => ?_, fun r => ?_, fun s => ?_, fun r => ?_⟩⟩
  · obtain ⟨il, x, n, st⟩ := c
    cases st <;> simp [Center.MarkCancelled] at hc ⊢
  · obtain ⟨il, x, n, st⟩ := d
    obtain ⟨b, q⟩ := p
    simp only at hd
    subst hd
    cases b <;> cases q <;> simp [Push.poll, Center.Push, Center.PollAck]
  · obtain ⟨il, x, n, st⟩ := d
    obtain ⟨b⟩ := r
    simp only at hd
    subst hd
    cases b <;> simp [PipeReceiver.Next, Next.poll, Center.Next, Center.cancelled]
  · obtain ⟨il, x, n, st⟩ := d
    obtain ⟨b⟩ := s
    simp only at hd
    subst hd
    cases b <;> simp [PipeSender.AwaitClosed, Center.PollClosedForSender]
  · obtain ⟨il, x, n, st⟩ := d
    obtain ⟨b⟩ := r
    simp only at hd
    subst hd
    cases b <;> simp [PipeReceiver.AwaitClosed, Center.PollClosedForReceiver]

/-- C12, amended, at a concrete center: cancelling while 9 waits to be read,
then polling the push that deposited it and the `AwaitClosed` of a receiver
that holds the center and of one that does not. -/
theorem cancel_promptness_witness :
    (Center.MarkCancelled (⟨[], 9, 3, .kReady⟩ : Center Nat)).center.value_state_
      = .kCancelled ∧
    (Push.poll ⟨true, .AwaitingAck⟩
      (Center.MarkCancelled (⟨[], 9, 3, .kReady⟩ : Center Nat)).center).ret.1 = .ready false ∧
    (PipeReceiver.AwaitClosed ⟨true⟩
      (Center.MarkCancelled (⟨[], 9, 3, .kReady⟩ : Center Nat)).center).ret = .ready true ∧
    (PipeReceiver.AwaitClosed ⟨false⟩
      (Center.MarkCancelled (⟨[], 9, 3, .kReady⟩ : Center Nat)).center).ret = .ready false :=
  have h := cancel_promptness (⟨[], 9, 3, .kReady⟩ : Center Nat) (by decide)
  ⟨h.1, ((h.2 _ h.1).1 ⟨true, .AwaitingAck⟩).1,
    congrArg Step.ret ((h.2 _ h.1).2.2.2 ⟨true⟩),
    congrArg Step.ret ((h.2 _ h.1).2.2.2 ⟨false⟩)⟩

/-- C15: idempotence of close and cancel. On every center a second
`MarkClosed` returns the center left by the first one, state, interceptor
list and slot included, and wakes nothing; so does a second `MarkCancelled`;
and a `MarkClosed` after a `MarkCancelled` changes nothing. -/
theorem close_cancel_idempotent (c : Center T) :
    c.MarkClosed.center.MarkClosed = ⟨(), c.MarkClosed.center, []⟩ ∧
    c.MarkCancelled.center.MarkCancelled = ⟨(), c.MarkCancelled.center, []⟩ ∧
    c.MarkCancelled.center.MarkClosed = ⟨(), c.MarkCancelled.center, []⟩ := by
  obtain ⟨il, x, n, st⟩ := c
  cases st <;> simp [Center.MarkClosed, Center.MarkCancelled]

/-- C16, as stated, fails on a fresh center: `MarkClosed` takes `kEmpty` to
`kClosed`, where `MarkCancelled` changes nothing, so the state is `kClosed`
and not `kCancelled`. -/
theorem cancel_after_close_counterexample :
    (Center.MarkCancelled (Center.MarkClosed (Center.new Nat)).center).center.value_state_
      = .kClosed ∧
    (Center.MarkCancelled (Center.MarkClosed (Center.new Nat)).center).center.value_state_
      ≠ .kCancelled :=
  ⟨rfl, by decide⟩

/-- C16, amended: `MarkClosed` followed by `MarkCancelled`. From `kReady`,
`kReadyClosed`, `kWaitingForAck` and `kWaitingForAckAndClosed` the center ends
`kCancelled` with an empty interceptor list; from `kEmpty` and `kAcked` it
ends `kClosed` with an empty interceptor list; from `kClosed` and
`kCancelled` nothing changes. -/
theorem cancel_after_close (c : Center T) :
    (c.value_state_ = .kReady ∨ c.value_state_ = .kReadyClosed ∨
        c.value_state_ = .kWaitingForAck ∨ c.value_state_ = .kWaitingForAckAndClosed →
      c.MarkClosed.center.MarkCancelled.center.value_state_ = .kCancelled ∧
      c.MarkClosed.center.MarkCancelled.center.interceptors = []) ∧
    (c.value_state_ = .kEmpty ∨ c.value_state_ = .kAcked →
      c.MarkClosed.center.MarkCancelled.center.value_state_ = .kClosed ∧
      c.MarkClosed.center.MarkCancelled.center.interceptors = []) ∧
    (c.value_state_ = .kClosed ∨ c.value_state_ = .kCancelled →
      c.MarkClosed.center.MarkCancelled.center = c) := by
  obtain ⟨il, x, n, st⟩ := c
  cases st <;>
    simp [Center.MarkClosed, Center.MarkCancelled, InterceptorList.ResetInterceptorList]

/-- C16, amended, at a concrete center: closing and then cancelling while 7
waits to be read. -/
theorem cancel_after_close_witness :
    (Center.MarkCancelled (Center.MarkClosed (⟨[some], 7, 2, .kReady⟩ : Center Nat)).center
      ).center.value_state_ = .kCancelled ∧
    (Center.MarkCancelled (Center.MarkClosed (⟨[some], 7, 2, .kReady⟩ : Center Nat)).center
      ).center.interceptors.length = 0 := by
  have h := (cancel_after_close (⟨[some], 7, 2, .kReady⟩ : Center Nat)).1 (Or.inl rfl)
  exact ⟨h.1, by rw [h.2]; rfl⟩

/-- C13: half-close cleanness, for every value `v` on a fresh pipe. When the
sender closes after `v` was deposited and before it is read, the receiver's
`Next` still yields `v`; while that `NextResult` is alive the receiver's
`AwaitClosed` is pending; destroying it moves the center to `kClosed`, after
which the `AwaitClosed` polls of the receiver and of the sender resolve
false. The same holds when the sender closes while the `NextResult` is
already held. The `AwaitClosed` promises are those created while the handles
held the center. -/
theorem half_close_cleanness [Inhabited T] [MoveSemantics T] (v : T) :
    (∃ (p0 p1 : Push T) (c0 c1 c2 c3 c4 : Center T) (s1 : PipeSender) (nr : NextResult)
        (k1 k2 k3 k4 : List WaiterCall),
      PipeSender.Push { center_ := true } (Center.new T) v = ⟨p0, c0, []⟩ ∧
      p0.poll c0 = ⟨(.pending, p1), c1, k1⟩ ∧ c1.value_state_ = .kReady ∧
      PipeSender.Close { center_ := true } c1 = ⟨s1, c2, k2⟩ ∧
      c2.value_state_ = .kReadyClosed ∧
      PipeReceiver.Next { center_ := true } c2 = ⟨.ready nr, c3, k3⟩ ∧
      nr.value c3 = some v ∧ c3.value_state_ = .kWaitingForAckAndClosed ∧
      PipeReceiver.AwaitClosed { center_ := true } c3 = ⟨.pending, c3, [.pending .on_closed_]⟩ ∧
      nr.destroy c3 = some ⟨(), c4, k4⟩ ∧ c4.value_state_ = .kClosed ∧
      PipeReceiver.AwaitClosed { center_ := true } c4 = ⟨.ready false, c4, []⟩ ∧
      PipeSender.AwaitClosed { center_ := true } c4 = some ⟨.ready false, c4, []⟩) ∧
    (∃ (p0 p1 : Push T) (c0 c1 c2 c3 c4 : Center T) (s1 : PipeSender) (nr : NextResult)
        (k1 k2 k3 k4 : List WaiterCall),
      PipeSender.Push { center_ := true } (Center.new T) v = ⟨p0, c0, []⟩ ∧
      p0.poll c0 = ⟨(.pending, p1), c1, k1⟩ ∧ c1.value_state_ = .kReady ∧
      PipeReceiver.Next { center_ := true } c1 = ⟨.ready nr, c2, k2⟩ ∧
      nr.value c2 = some v ∧ c2.value_state_ = .kWaitingForAck ∧
      PipeSender.Close { center_ := true } c2 = ⟨s1, c3, k3⟩ ∧
      c3.value_state_ = .kWaitingForAckAndClosed ∧ nr.value c3 = some v ∧
      PipeReceiver.AwaitClosed { center_ := true } c3 = ⟨.pending, c3, [.pending .on_closed_]⟩ ∧
      nr.destroy c3 = some ⟨(), c4, k4⟩ ∧ c4.value_state_ = .kClosed ∧
      PipeReceiver.AwaitClosed { center_ := true } c4 = ⟨.ready false, c4, []⟩ ∧
      PipeSender.AwaitClosed { center_ := true } c4 = some ⟨.ready false, c4, []⟩) :=
  ⟨⟨_, _, _, _, _, _, _, _, _, _, _, _, _,
      rfl, rfl, rfl, rfl, rfl, rfl, rfl, rfl, rfl, rfl, rfl, rfl, rfl⟩,
    ⟨_, _, _, _, _, _, _, _, _, _, _, _, _,
      rfl, rfl, rfl, rfl, rfl, rfl, rfl, rfl, rfl, rfl, rfl, rfl, rfl, rfl⟩⟩

/-- C17: an interceptor that drops the value cancels the pipe. When
`Center::Next` yields `v` and the interceptor chain yields nothing for it, the
receiver's `Next` leaves the center `kCancelled` with the interceptor list
cleared and delivers a `NextResult` with no value, cancelled = true and no
center, whose destruction executes no `AckNext` and changes nothing; every
push polled afterwards, the one that deposited `v` included, resolves
false. -/
theorem interceptor_drop_cancels [MoveSemantics T] (c : Center T) (v : T)
    (hv : c.Next.ret = .ready (some v)) (hrun : c.interceptors.Run (some v) = none) :
    ∃ (d : Center T) (k : List WaiterCall),
      PipeReceiver.Next { center_ := true } c =
        ⟨.ready { center_ := false, cancelled_ := some true }, d, k⟩ ∧
      d.value_state_ = .kCancelled ∧ d.interceptors = [] ∧
      NextResult.destroy { center_ := false, cancelled_ := some true } d = some ⟨(), d, []⟩ ∧
      ∀ p : Push T, (p.poll d).ret.1 = .ready false ∧ (p.poll d).center = d := by
  obtain ⟨il, x, n, st⟩ := c
  cases st <;> simp [Center.Next] at hv <;> subst hv <;> simp only at hrun <;>
    simp [PipeReceiver.Next, Next.poll, Center.Next, hrun, Center.MarkCancelled,
      InterceptorList.ResetInterceptorList, NextResult.destroy] <;>
    intro p <;> obtain ⟨b, q⟩ := p <;>
    cases b <;> cases q <;> simp [Push.poll, Center.Push, Center.PollAck]

/-- C17, the scenario of the specification: the sender prepended a stage that
drops every value, 5 was pushed, and the receiver polls `Next`. -/
theorem interceptor_drop_cancels_witness :
    ∃ (d : Center Nat) (k : List WaiterCall),
      PipeReceiver.Next { center_ := true } ⟨[fun _ => none], 5, 3, .kReady⟩ =
        ⟨.ready { center_ := false, cancelled_ := some true }, d, k⟩ ∧
      d.value_state_ = .kCancelled ∧ d.interceptors = [] ∧
      NextResult.destroy { center_ := false, cancelled_ := some true } d = some ⟨(), d, []⟩ ∧
      ∀ p : Push Nat, (p.poll d).ret.1 = .ready false ∧ (p.poll d).center = d :=
  interceptor_drop_cancels (⟨[fun _ => none], 5, 3, .kReady⟩ : Center Nat) 5 rfl rfl

/-- C18, as stated, fails for a receiver that holds no center. After the
sender created a push and closed the fresh pipe and the receiver closed with
error, the center is `kClosed` and not cancelled, the `Next` step of the
receiver yields no value, and the `NextResult` reports cancelled = true. -/
theorem exhausted_read_flag_counterexample :
    run [.sender_Push 1, .sender_Close, .receiver_CloseWithError] (Config.init Nat)
      = some Config.closed_then_cancelled ∧
    Config.closed_then_cancelled.receiver = some { center_ := false } ∧
    Config.closed_then_cancelled.center.value_state_ = .kClosed ∧
    (Next.poll { center_ := false } Config.closed_then_cancelled.center).ret = .ready none ∧
    (PipeReceiver.Next { center_ := false } Config.closed_then_cancelled.center).ret
      = .ready { center_ := false, cancelled_ := some true } :=
  ⟨rfl, rfl, rfl, rfl, rfl⟩

/-- C18, amended: the cancelled flag on an exhausted read. Whenever the `Next`
step of a receiver's `Next()` yields no value, the `NextResult` has no value
and the center is unchanged; for a receiver that holds its center the flag is
true exactly when the center is `kCancelled` and false otherwise; for a
receiver that holds no center the flag is true. -/
theorem exhausted_read_flag [MoveSemantics T] (r : PipeReceiver) (c : Center T)
    (h : (Next.poll { center_ := r.center_ } c).ret = .ready none) :
    ∃ nr : NextResult,
      r.Next c = ⟨.ready nr, c, []⟩ ∧ nr.has_value = false ∧
      (r.center_ = true →
        (nr.cancelled = some true ↔ c.value_state_ = .kCancelled) ∧
        (nr.cancelled = some false ↔ c.value_state_ ≠ .kCancelled)) ∧
      (r.center_ = false → nr.cancelled = some true) := by
  obtain ⟨il, x, n, st⟩ := c
  obtain ⟨b⟩ := r
  cases b <;> cases st <;> simp [Next.poll, Center.Next] at h <;>
    simp [PipeReceiver.Next, Next.poll, Center.Next, Center.cancelled,
      NextResult.has_value, NextResult.cancelled]

/-- C18, amended, the scenario of the specification: on a fresh pipe whose
sender is destroyed at once, `Next` yields no value with cancelled = false
and the receiver's `AwaitClosed` resolves false. -/
theorem exhausted_read_flag_witness :
    (PipeReceiver.Next { center_ := true }
      (PipeSender.destroy { center_ := true } (Center.new Nat)).center).ret
        = .ready { center_ := false, cancelled_ := some false } ∧
    (PipeReceiver.AwaitClosed { center_ := true }
      (PipeSender.destroy { center_ := true } (Center.new Nat)).center).ret = .ready false ∧
    ∃ nr : NextResult,
      PipeReceiver.Next { center_ := true }
          (PipeSender.destroy { center_ := true } (Center.new Nat)).center
        = ⟨.ready nr, (PipeSender.destroy { center_ := true } (Center.new Nat)).center, []⟩ ∧
      nr.has_value = false ∧
      ((true = true) →
        (nr.cancelled = some true ↔
          (PipeSender.destroy { center_ := true } (Center.new Nat)).center.value_state_
            = .kCancelled) ∧
        (nr.cancelled = some false ↔
          (PipeSender.destroy { center_ := true } (Center.new Nat)).center.value_state_
            ≠ .kCancelled)) ∧
      ((true = false) → nr.cancelled = some true) :=
  ⟨rfl, rfl,
    exhausted_read_flag { center_ := true }
      (PipeSender.destroy { center_ := true } (Center.new Nat)).center rfl⟩

/-- C19: drop asymmetry of the handles. Destroying or closing a sender that
holds its center leaves the center that `MarkClosed` leaves, with one
reference less, and makes the waiter calls of `MarkClosed`; destroying a
receiver that holds its center, or `CloseWithError` on either handle, does
the same with `MarkCancelled`; an explicit close leaves the handle without a
center, and destroying a handle without a center changes nothing. On a fresh
pipe a push created and not yet polled resolves false on its first poll
after the receiver was destroyed. -/
theorem drop_asymmetry [Inhabited T] (c : Center T) (v : T) :
    (PipeSender.destroy { center_ := true } c =
      ⟨(), { c.MarkClosed.center with refs_ := (c.refs_ + 255) % 256 }, c.MarkClosed.calls⟩ ∧
     PipeSender.Close { center_ := true } c =
      ⟨{ center_ := false }, { c.MarkClosed.center with refs_ := (c.refs_ + 255) % 256 },
        c.MarkClosed.calls⟩) ∧
    (PipeReceiver.destroy { center_ := true } c =
      ⟨(), { c.MarkCancelled.center with refs_ := (c.refs_ + 255) % 256 },
        c.MarkCancelled.calls⟩ ∧
     PipeReceiver.CloseWithError { center_ := true } c =
      ⟨{ center_ := false }, { c.MarkCancelled.center with refs_ := (c.refs_ + 255) % 256 },
        c.MarkCancelled.calls⟩ ∧
     PipeSender.CloseWithError { center_ := true } c =
      ⟨{ center_ := false }, { c.MarkCancelled.center with refs_ := (c.refs_ + 255) % 256 },
        c.MarkCancelled.calls⟩) ∧
    (PipeSender.destroy { center_ := false } c = ⟨(), c, []⟩ ∧
     PipeReceiver.destroy { center_ := false } c = ⟨(), c, []⟩ ∧
     PipeSender.destroy (PipeSender.Close { center_ := true } c).ret
        (PipeSender.Close { center_ := true } c).center
      = ⟨(), (PipeSender.Close { center_ := true } c).center, []⟩ ∧
     PipeReceiver.destroy (PipeReceiver.CloseWithError { center_ := true } c).ret
        (PipeReceiver.CloseWithError { center_ := true } c).center
      = ⟨(), (PipeReceiver.CloseWithError { center_ := true } c).center, []⟩) ∧
    ((PipeSender.Push { center_ := true } (Center.new T) v).ret.poll
        (PipeReceiver.destroy { center_ := true }
          (PipeSender.Push { center_ := true } (Center.new T) v).center).center).ret.1
      = .ready false := by
  obtain ⟨il, x, n, st⟩ := c
  refine ⟨?_, ?_, ?_, rfl⟩ <;>
    cases st <;>
    simp [PipeSender.destroy, PipeSender.Close, PipeSender.CloseWithError,
      PipeReceiver.destroy, PipeReceiver.CloseWithError, Center.MarkClosed,
      Center.MarkCancelled, Center.release, Center.Unref]

/-- C20: delivery refused. A push that still holds `v`, polled while the
center is `kClosed`, `kReadyClosed`, `kWaitingForAckAndClosed` or
`kCancelled`, resolves false in that poll, leaves the center as it is and
makes no waiter call, so it does not go on to `PollAck`, which in `kClosed`
would return true; and a push created from a sender without a center
resolves false on whatever center. -/
theorem delivery_refused (c : Center T) (v : T)
    (hs : c.value_state_ = .kClosed ∨ c.value_state_ = .kReadyClosed ∨
      c.value_state_ = .kWaitingForAckAndClosed ∨ c.value_state_ = .kCancelled) :
    Push.poll { center_ := true, state_ := .value v } c =
      ⟨(.ready false, { center_ := true, state_ := .AwaitingAck }), c, []⟩ ∧
    (c.value_state_ = .kClosed → c.PollAck.ret = .ready true) ∧
    ∀ d e : Center T,
      (PipeSender.Push { center_ := false } d v).center = d ∧
      (PipeSender.Push { center_ := false } d v).ret.poll e =
        ⟨(.ready false, { center_ := false, state_ := .value v }), e, []⟩ := by
  obtain ⟨il, x, n, st⟩ := c
  cases st <;> simp at hs <;>
    simp [Push.poll, Center.Push, Center.PollAck, PipeSender.Push]

/-- C20, at a concrete center: a push holding 4 polled on a closed center. -/
theorem delivery_refused_witness :
    Push.poll { center_ := true, state_ := .value 4 } (⟨[], 0, 2, .kClosed⟩ : Center Nat) =
      ⟨(.ready false, { center_ := true, state_ := .AwaitingAck }), ⟨[], 0, 2, .kClosed⟩, []⟩ ∧
    (Center.PollAck (⟨[], 0, 2, .kClosed⟩ : Center Nat)).ret = .ready true :=
  have h := delivery_refused (⟨[], 0, 2, .kClosed⟩ : Center Nat) 4 (Or.inl rfl)
  ⟨h.1, h.2.1 rfl⟩

end ClosingAndCancelling

section Executions

variable {T : Type}

/-- In a terminal state every member-function call returns and keeps the
state. -/
theorem CenterCall.apply_terminal [MoveSemantics T] (call : CenterCall T) (c : Center T)
    (hc : c.value_state_ = .kClosed ∨ c.value_state_ = .kCancelled) :
    ∃ (d : Center T) (k : List WaiterCall),
      call.apply c = some (d, k) ∧ d.value_state_ = c.value_state_ := by
  obtain ⟨il, x, n, st⟩ := c
  cases call <;> cases st <;> simp at hc <;>
    simp [CenterCall.apply, Center.Push, Center.PollAck, Center.Next,
      Center.PollClosedForSender, Center.PollClosedForReceiver, Center.PollEmpty,
      Center.AckNext, Center.MarkClosed, Center.MarkCancelled]

/-- In a terminal state every operation through the handles keeps the
state. -/
theorem step_keeps_terminal [MoveSemantics T] (op : Op T) (w w2 : Config T)
    (hw : w.center.value_state_ = .kClosed ∨ w.center.value_state_ = .kCancelled)
    (h : op.step w = some w2) : w2.center.value_state_ = w.center.value_state_ := by
  obtain ⟨c, sd, rc, ps, rs, pd, rv⟩ := w
  obtain ⟨il, x, n, st⟩ := c
  simp only at hw
  cases op with
  | sender_Push v =>
    cases sd with
    | none => simp [Op.step] at h
    | some s =>
      obtain ⟨b⟩ := s
      cases b <;> simp [Op.step, PipeSender.Push, Center.IncrementRefCount] at h <;>
        subst h <;> rfl
  | poll_Push i =>
    simp only [Op.step] at h
    cases hp : ps[i]? with
    | none => simp [hp] at h
    | some p =>
      obtain ⟨b, q⟩ := p
      rw [hp] at h
      rcases hw with rfl | rfl <;> cases b <;> cases q <;>
        simp [Push.poll, Center.Push, Center.PollAck, Push.destroy, Center.release,
          Center.Unref] at h <;>
        subst h <;> rfl
  | destroy_Push i =>
    simp only [Op.step] at h
    cases hp : ps[i]? with
    | none => simp [hp] at h
    | some p =>
      obtain ⟨b, q⟩ := p
      rw [hp] at h
      cases b <;> simp [Push.destroy, Center.release, Center.Unref] at h <;> subst h <;> rfl
  | receiver_Next =>
    cases rc with
    | none => simp [Op.step] at h
    | some r =>
      obtain ⟨b⟩ := r
      rcases hw with rfl | rfl <;> cases b <;>
        simp [Op.step, PipeReceiver.Next, Next.poll, Center.Next, Center.cancelled] at h <;>
        subst h <;> rfl
  | destroy_NextResult j =>
    simp only [Op.step] at h
    cases hp : rs[j]? with
    | none => simp [hp] at h
    | some nr =>
      obtain ⟨b, cn⟩ := nr
      rw [hp] at h
      rcases hw with rfl | rfl <;> cases b <;>
        simp [NextResult.destroy, Center.AckNext, Center.release, Center.Unref] at h <;>
        subst h <;> rfl
  | reset_NextResult j =>
    simp only [Op.step] at h
    cases hp : rs[j]? with
    | none => simp [hp] at h
    | some nr =>
      obtain ⟨b, cn⟩ := nr
      rw [hp] at h
      rcases hw with rfl | rfl <;> cases b <;>
        simp [NextResult.reset, Center.AckNext, Center.release, Center.Unref] at h <;>
        subst h <;> rfl
  | sender_Close =>
    cases sd with
    | none => simp [Op.step] at h
    | some s =>
      obtain ⟨b⟩ := s
      rcases hw with rfl | rfl <;> cases b <;>
        simp [Op.step, PipeSender.Close, Center.MarkClosed, Center.release, Center.Unref]
          at h <;>
        subst h <;> rfl
  | sender_CloseWithError =>
    cases sd with
    | none => simp [Op.step] at h
    | some s =>
      obtain ⟨b⟩ := s
      rcases hw with rfl | rfl <;> cases b <;>
        simp [Op.step, PipeSender.CloseWithError, Center.MarkCancelled, Center.release,
          Center.Unref] at h <;>
        subst h <;> rfl
  | destroy_sender =>
    cases sd with
    | none => simp [Op.step] at h
    | some s =>
      obtain ⟨b⟩ := s
      rcases hw with rfl | rfl <;> cases b <;>
        simp [Op.step, PipeSender.destroy, Center.MarkClosed, Center.release, Center.Unref]
          at h <;>
        subst h <;> rfl
  | receiver_CloseWithError =>
    cases rc with
    | none => simp [Op.step] at h
    | some r =>
      obtain ⟨b⟩ := r
      rcases hw with rfl | rfl <;> cases b <;>
        simp [Op.step, PipeReceiver.CloseWithError, Center.MarkCancelled, Center.release,
          Center.Unref] at h <;>
        subst h <;> rfl
  | destroy_receiver =>
    cases rc with
    | none => simp [Op.step] at h
    | some r =>
      obtain ⟨b⟩ := r
      rcases hw with rfl | rfl <;> cases b <;>
        simp [Op.step, PipeReceiver.destroy, Center.MarkCancelled, Center.release,
          Center.Unref] at h <;>
        subst h <;> rfl
  | sender_InterceptAndMap f =>
    cases sd with
    | none => simp [Op.step] at h
    | some s =>
      obtain ⟨b⟩ := s
      cases b <;> simp [Op.step, PipeSender.InterceptAndMap] at h
      subst h
      rfl
  | receiver_InterceptAndMap f =>
    cases rc with
    | none => simp [Op.step] at h
    | some r =>
      obtain ⟨b⟩ := r
      cases b <;> simp [Op.step, PipeReceiver.InterceptAndMap] at h
      subst h
      rfl
  | sender_AwaitClosed =>
    cases sd with
    | none => simp [Op.step] at h
    | some s =>
      obtain ⟨b⟩ := s
      rcases hw with rfl | rfl <;> cases b <;>
        simp [Op.step, PipeSender.AwaitClosed, Center.PollClosedForSender] at h <;>
        subst h <;> rfl
  | receiver_AwaitClosed =>
    cases rc with
    | none => simp [Op.step] at h
    | some r =>
      obtain ⟨b⟩ := r
      rcases hw with rfl | rfl <;> cases b <;>
        simp [Op.step, PipeReceiver.AwaitClosed, Center.PollClosedForReceiver] at h <;>
        subst h <;> rfl
  | receiver_AwaitEmpty =>
    cases rc with
    | none => simp [Op.step] at h
    | some r =>
      obtain ⟨b⟩ := r
      rcases hw with rfl | rfl <;> cases b <;>
        simp [Op.step, PipeReceiver.AwaitEmpty, Center.PollEmpty] at h <;>
        subst h <;> rfl

/-- C14: terminal states are absorbing. On a center that is `kClosed` or
`kCancelled` each of the nine member functions returns and leaves the state
as it is; hence so does every sequence of member-function calls, and so does
every sequence of operations through the handles. -/
theorem terminal_states_absorbing [MoveSemantics T] (c : Center T)
    (hc : c.value_state_ = .kClosed ∨ c.value_state_ = .kCancelled) :
    (∀ call : CenterCall T, ∃ (d : Center T) (k : List WaiterCall),
      call.apply c = some (d, k) ∧ d.value_state_ = c.value_state_) ∧
    (∀ calls : List (CenterCall T), ∃ d : Center T,
      Center.apply_all calls c = some d ∧ d.value_state_ = c.value_state_) ∧
    (∀ (ops : List (Op T)) (w w2 : Config T), w.center = c → run ops w = some w2 →
      w2.center.value_state_ = c.value_state_) := by
  refine ⟨fun call => CenterCall.apply_terminal call c hc, fun calls => ?_, ?_⟩
  · induction calls generalizing c with
    | nil => exact ⟨c, rfl, rfl⟩
    | cons call rest ih =>
      obtain ⟨d, k, hd, hst⟩ := CenterCall.apply_terminal call c hc
      obtain ⟨e, he, hse⟩ := ih d (hst ▸ hc)
      exact ⟨e, by simp [Center.apply_all, hd, he], hse.trans hst⟩
  · intro ops w w2 hwc
    refine run_invariant (fun u => u.center.value_state_ = c.value_state_) ?_ ops w w2
      (congrArg Center.value_state_ hwc)
    intro op u u2 hu hstep
    have := step_keeps_terminal op u u2 (hu ▸ hc) hstep
    exact this.trans hu

/-- C14, at a concrete center: a cancelled center stays cancelled through a
close, a push, an acknowledgement, a read and a poll for the
acknowledgement. -/
theorem terminal_states_absorbing_witness :
    ∃ d : Center Nat,
      Center.apply_all [.MarkClosed, .Push 3, .AckNext, .Next, .PollAck]
        (⟨[], 0, 2, .kCancelled⟩ : Center Nat) = some d ∧
      d.value_state_ = .kCancelled :=
  (terminal_states_absorbing (⟨[], 0, 2, .kCancelled⟩ : Center Nat) (Or.inr rfl)).2.1
    [.MarkClosed, .Push 3, .AckNext, .Next, .PollAck]

/-- Polling a push keeps the history in agreement with the configuration. -/
theorem GateOk_poll_Push [MoveSemantics T] (i : Nat) (w w2 : Config T) (g : AckGate)
    (hw : w.Inv) (hg : w.GateOk g) (h : (Op.poll_Push i).step w = some w2) :
    w2.GateOk ((Op.poll_Push i).gate w g) := by
  obtain ⟨c, sd, rc, ps, rs, pd, rv⟩ := w
  obtain ⟨il, x, n, st⟩ := c
  simp only [Op.step] at h
  cases hp : ps[i]? with
  | none => simp [hp] at h
  | some p =>
    obtain ⟨b, q⟩ := p
    have hset1 := countP_set_at Push.awaiting ps i _ { center_ := b, state_ := .AwaitingAck } hp
    have hset2 := countP_set_at Push.awaiting ps i _ { center_ := b, state_ := q } hp
    have herase := countP_eraseIdx_at Push.awaiting ps i _ hp
    rw [hp] at h
    cases b <;> cases q <;> cases st <;>
      simp [Push.poll, Center.Push, Center.PollAck, Push.destroy, Center.release,
        Center.Unref, Push.deposits] at h <;>
      subst h <;>
      simp [Config.Inv, Config.GateOk, Op.gate, hp, Push.poll, Center.Push, Center.PollAck,
        Push.deposits, Config.awaitingAck, Config.holdingResults, Push.awaiting,
        -List.countP_eq_zero, -List.countP_pos_iff]
        at hw hg hset1 hset2 herase ⊢ <;>
      first
        | omega
        | (intro hpos; exact hg (by omega))

/-- Destroying an unresolved push keeps the history in agreement. -/
theorem GateOk_destroy_Push [MoveSemantics T] (i : Nat) (w w2 : Config T) (g : AckGate)
    (hw : w.Inv) (hg : w.GateOk g) (h : (Op.destroy_Push i).step w = some w2) :
    w2.GateOk ((Op.destroy_Push i).gate w g) := by
  obtain ⟨c, sd, rc, ps, rs, pd, rv⟩ := w
  obtain ⟨il, x, n, st⟩ := c
  simp only [Op.step] at h
  cases hp : ps[i]? with
  | none => simp [hp] at h
  | some p =>
    obtain ⟨b, q⟩ := p
    have herase := countP_eraseIdx_at Push.awaiting ps i _ hp
    rw [hp] at h
    cases b <;> cases q <;> cases st <;>
      simp [Push.destroy, Center.release, Center.Unref] at h <;>
      subst h <;>
      simp [Config.Inv, Config.GateOk, Op.gate, hp, Config.awaitingAck,
        Config.holdingResults, Push.awaiting, -List.countP_eq_zero, -List.countP_pos_iff]
        at hw hg herase ⊢ <;>
      first
        | omega
        | (intro hpos; exact hg (by omega))

/-- Polling the receiver's `Next()` keeps the history in agreement. -/
theorem GateOk_receiver_Next [MoveSemantics T] (w w2 : Config T) (g : AckGate)
    (hw : w.Inv) (hg : w.GateOk g) (h : Op.receiver_Next.step w = some w2) :
    w2.GateOk (Op.receiver_Next.gate w g) := by
  obtain ⟨c, sd, rc, ps, rs, pd, rv⟩ := w
  obtain ⟨il, x, n, st⟩ := c
  cases rc with
  | none => simp [Op.step] at h
  | some r =>
    obtain ⟨b⟩ := r
    cases hr : InterceptorList.Run il (some x) <;> cases b <;> cases st <;>
      simp [Op.step, PipeReceiver.Next, Next.poll, Center.Next, Center.cancelled,
        PipeReceiver.takes, Center.MarkCancelled, Center.IncrementRefCount,
        InterceptorList.ResetInterceptorList, hr] at h <;>
      subst h <;>
      simp [Config.GateOk, Op.gate, Config.awaitingAck,
        -List.countP_eq_zero, -List.countP_pos_iff]
        at hg ⊢ <;>
      first
        | omega
        | (intro hpos; exact hg (by omega))

/-- Destroying a `NextResult` keeps the history in agreement. -/
theorem GateOk_destroy_NextResult [MoveSemantics T] (j : Nat) (w w2 : Config T)
    (g : AckGate) (hw : w.Inv) (hg : w.GateOk g)
    (h : (Op.destroy_NextResult j).step w = some w2) :
    w2.GateOk ((Op.destroy_NextResult j).gate w g) := by
  obtain ⟨c, sd, rc, ps, rs, pd, rv⟩ := w
  obtain ⟨il, x, n, st⟩ := c
  simp only [Op.step] at h
  cases hp : rs[j]? with
  | none => simp [hp] at h
  | some nr =>
    obtain ⟨b, cn⟩ := nr
    have herase := countP_eraseIdx_at NextResult.has_value rs j _ hp
    rw [hp] at h
    cases b <;> cases st <;>
      simp [NextResult.destroy, Center.AckNext, Center.release, Center.Unref,
        InterceptorList.ResetInterceptorList] at h <;>
      subst h <;>
      simp [Config.Inv, Config.GateOk, Op.gate, hp, Config.awaitingAck,
        Config.holdingResults, NextResult.has_value,
        -List.countP_eq_zero, -List.countP_pos_iff]
        at hw hg herase ⊢ <;>
      first
        | omega
        | (intro hpos; exact hg (by omega))
        | (intro hpos; rw [hg (by omega)])

/-- Resetting a `NextResult` keeps the history in agreement. -/
theorem GateOk_reset_NextResult [MoveSemantics T] (j : Nat) (w w2 : Config T)
    (g : AckGate) (hw : w.Inv) (hg : w.GateOk g)
    (h : (Op.reset_NextResult j).step w = some w2) :
    w2.GateOk ((Op.reset_NextResult j).gate w g) := by
  obtain ⟨c, sd, rc, ps, rs, pd, rv⟩ := w
  obtain ⟨il, x, n, st⟩ := c
  simp only [Op.step] at h
  cases hp : rs[j]? with
  | none => simp [hp] at h
  | some nr =>
    obtain ⟨b, cn⟩ := nr
    have herase := countP_eraseIdx_at NextResult.has_value rs j _ hp
    rw [hp] at h
    cases b <;> cases st <;>
      simp [NextResult.reset, Center.AckNext, Center.release, Center.Unref,
        InterceptorList.ResetInterceptorList] at h <;>
      subst h <;>
      simp [Config.Inv, Config.GateOk, Op.gate, hp, Config.awaitingAck,
        Config.holdingResults, NextResult.has_value,
        -List.countP_eq_zero, -List.countP_pos_iff]
        at hw hg herase ⊢ <;>
      first
        | omega
        | (intro hpos; exact hg (by omega))
        | (intro hpos; rw [hg (by omega)])

/-- The operations on the sender keep the history in agreement: they end no
flight and execute no `AckNext`, and none of them moves the center between the
states that the history tells apart while a push awaits its
acknowledgement. -/
theorem GateOk_sender_ops [MoveSemantics T] (op : Op T) (w w2 : Config T) (g : AckGate)
    (hw : w.Inv) (hg : w.GateOk g)
    (hop : (∃ v, op = .sender_Push v) ∨ op = .sender_Close ∨ op = .sender_CloseWithError ∨
      op = .destroy_sender ∨ (∃ f, op = .sender_InterceptAndMap f) ∨
      op = .sender_AwaitClosed)
    (h : op.step w = some w2) : w2.GateOk (op.gate w g) := by
  obtain ⟨c, sd, rc, ps, rs, pd, rv⟩ := w
  obtain ⟨il, x, n, st⟩ := c
  cases sd with
  | none => rcases hop with ⟨v, rfl⟩ | rfl | rfl | rfl | ⟨f, rfl⟩ | rfl <;> simp [Op.step] at h
  | some s =>
    obtain ⟨b⟩ := s
    rcases hop with ⟨v, rfl⟩ | rfl | rfl | rfl | ⟨f, rfl⟩ | rfl <;> cases b <;> cases st <;>
      simp [Op.step, PipeSender.Push, Center.IncrementRefCount, PipeSender.Close,
        PipeSender.CloseWithError, PipeSender.destroy, PipeSender.InterceptAndMap,
        PipeSender.AwaitClosed, Center.PollClosedForSender, Center.MarkClosed,
        Center.MarkCancelled, Center.release, Center.Unref,
        InterceptorList.ResetInterceptorList] at h <;>
      subst h <;>
      simp [Config.Inv, Config.GateOk, Op.gate, Config.awaitingAck,
        Config.holdingResults, Push.awaiting,
        -List.countP_eq_zero, -List.countP_pos_iff] at hw hg ⊢ <;>
      first
        | omega
        | (intro hpos; exact hg (by omega))

/-- The operations on the receiver other than `Next()` keep the history in
agreement. -/
theorem GateOk_receiver_ops [MoveSemantics T] (op : Op T) (w w2 : Config T) (g : AckGate)
    (hw : w.Inv) (hg : w.GateOk g)
    (hop : op = .receiver_CloseWithError ∨ op = .destroy_receiver ∨
      (∃ f, op = .receiver_InterceptAndMap f) ∨ op = .receiver_AwaitClosed ∨
      op = .receiver_AwaitEmpty)
    (h : op.step w = some w2) : w2.GateOk (op.gate w g) := by
  obtain ⟨c, sd, rc, ps, rs, pd, rv⟩ := w
  obtain ⟨il, x, n, st⟩ := c
  cases rc with
  | none => rcases hop with rfl | rfl | ⟨f, rfl⟩ | rfl | rfl <;> simp [Op.step] at h
  | some r =>
    obtain ⟨b⟩ := r
    rcases hop with rfl | rfl | ⟨f, rfl⟩ | rfl | rfl <;> cases b <;> cases st <;>
      simp [Op.step, PipeReceiver.CloseWithError, PipeReceiver.destroy,
        PipeReceiver.InterceptAndMap, PipeReceiver.AwaitClosed,
        PipeReceiver.AwaitEmpty, Center.PollClosedForReceiver, Center.PollEmpty,
        Center.MarkCancelled, Center.release, Center.Unref,
        InterceptorList.ResetInterceptorList] at h <;>
      subst h <;>
      simp [Config.Inv, Config.GateOk, Op.gate, Config.awaitingAck,
        Config.holdingResults,
        -List.countP_eq_zero, -List.countP_pos_iff] at hw hg ⊢ <;>
      first
        | omega
        | (intro hpos; exact hg (by omega))

/-- Every operation keeps the invariant and the history in agreement. -/
theorem GateOk_step [MoveSemantics T] (op : Op T) (w w2 : Config T) (g : AckGate)
    (hw : w.Inv) (hg : w.GateOk g) (h : op.step w = some w2) :
    w2.Inv ∧ w2.GateOk (op.gate w g) := by
  refine ⟨Inv_step op w w2 hw h, ?_⟩
  cases op with
  | sender_Push v => exact GateOk_sender_ops _ w w2 g hw hg (Or.inl ⟨v, rfl⟩) h
  | poll_Push i => exact GateOk_poll_Push i w w2 g hw hg h
  | destroy_Push i => exact GateOk_destroy_Push i w w2 g hw hg h
  | receiver_Next => exact GateOk_receiver_Next w w2 g hw hg h
  | destroy_NextResult j => exact GateOk_destroy_NextResult j w w2 g hw hg h
  | reset_NextResult j => exact GateOk_reset_NextResult j w w2 g hw hg h
  | sender_Close => exact GateOk_sender_ops _ w w2 g hw hg (by simp) h
  | sender_CloseWithError => exact GateOk_sender_ops _ w w2 g hw hg (by simp) h
  | destroy_sender => exact GateOk_sender_ops _ w w2 g hw hg (by simp) h
  | receiver_CloseWithError => exact GateOk_receiver_ops _ w w2 g hw hg (by simp) h
  | destroy_receiver => exact GateOk_receiver_ops _ w w2 g hw hg (by simp) h
  | sender_InterceptAndMap f => exact GateOk_sender_ops _ w w2 g hw hg (by simp) h
  | receiver_InterceptAndMap f => exact GateOk_receiver_ops _ w w2 g hw hg (by simp) h
  | sender_AwaitClosed => exact GateOk_sender_ops _ w w2 g hw hg (by simp) h
  | receiver_AwaitClosed => exact GateOk_receiver_ops _ w w2 g hw hg (by simp) h
  | receiver_AwaitEmpty => exact GateOk_receiver_ops _ w w2 g hw hg (by simp) h

/-- The invariant and the agreement of the history hold after every run with
history that starts where they hold. -/
theorem runGate_invariant [MoveSemantics T] (ops : List (Op T)) :
    ∀ (w w2 : Config T) (g g2 : AckGate), w.Inv → w.GateOk g →
      runGate ops w g = some (w2, g2) → w2.Inv ∧ w2.GateOk g2 := by
  induction ops with
  | nil =>
    intro w w2 g g2 hw hg h
    simp only [runGate, Option.some.injEq, Prod.mk.injEq] at h
    obtain ⟨rfl, rfl⟩ := h
    exact ⟨hw, hg⟩
  | cons op rest ih =>
    intro w w2 g g2 hw hg h
    simp only [runGate] at h
    cases hs : op.step w with
    | none => simp [hs] at h
    | some w1 =>
      rw [hs] at h
      obtain ⟨hw1, hg1⟩ := GateOk_step op w w1 g hw hg hs
      exact ih w1 w2 (op.gate w g) g2 hw1 hg1 h

/-- C11: ack gating. In every run of handle operations on a fresh pipe, with
the history of the value in flight kept beside it, a poll of a push that
resolves true finds the history at `acknowledged`: the push is the one
unresolved push in `AwaitingAck`, so it deposited its value in an earlier
poll, and `AckNext` has been executed since that deposit. The center is then
`kAcked` or `kClosed`. -/
theorem ack_gating [Inhabited T] [MoveSemantics T] (ops : List (Op T)) (w : Config T)
    (g : AckGate) (i : Nat) (p : Push T)
    (h : runGate ops (Config.init T) .idle = some (w, g))
    (hp : w.pushes[i]? = some p) (ht : (p.poll w.center).ret.1 = .ready true) :
    g = .acknowledged ∧ p.awaiting = true ∧ w.awaitingAck = 1 ∧
    (w.center.value_state_ = .kAcked ∨ w.center.value_state_ = .kClosed) := by
  have hinit : (Config.init T).GateOk .idle := by
    simp [Config.GateOk, Config.init, Config.awaitingAck]
  obtain ⟨hw, hg⟩ := runGate_invariant ops (Config.init T) w .idle g Config.Inv_init hinit h
  obtain ⟨c, sd, rc, ps, rs, pd, rv⟩ := w
  obtain ⟨il, x, n, st⟩ := c
  obtain ⟨b, q⟩ := p
  have hcount := countP_eraseIdx_at Push.awaiting ps i _ hp
  cases b <;> cases q <;> cases st <;>
    simp [Push.poll, Center.Push, Center.PollAck] at ht <;>
    simp [Config.Inv, Config.GateOk, Config.awaitingAck, Config.holdingResults,
      Push.awaiting, -List.countP_eq_zero, -List.countP_pos_iff] at hw hg hcount ⊢ <;>
    exact ⟨hg (by omega), by omega⟩

/-- C11, on a run in which 1 is pushed, read and acknowledged: the history is
at `acknowledged` and the next poll of the push resolves true. -/
theorem ack_gating_witness :
    runGate [.sender_Push 1, .poll_Push 0, .receiver_Next, .destroy_NextResult 0]
      (Config.init Nat) .idle = some (Config.acknowledged, .acknowledged) ∧
    Config.acknowledged.pushes[0]? = some { center_ := true, state_ := .AwaitingAck } ∧
    (Push.poll { center_ := true, state_ := .AwaitingAck } Config.acknowledged.center).ret.1
      = .ready true ∧
    (AckGate.acknowledged = .acknowledged ∧
      Push.awaiting ({ center_ := true, state_ := .AwaitingAck } : Push Nat) = true ∧
      Config.acknowledged.awaitingAck = 1 ∧
      (Config.acknowledged.center.value_state_ = .kAcked ∨
        Config.acknowledged.center.value_state_ = .kClosed)) :=
  have hrun : runGate [.sender_Push 1, .poll_Push 0, .receiver_Next, .destroy_NextResult 0]
      (Config.init Nat) .idle = some (Config.acknowledged, .acknowledged) := rfl
  ⟨hrun, rfl, rfl, ack_gating _ _ _ 0 _ hrun rfl rfl⟩

end Executions

section PollsAndWakes

variable {T : Type}

/-- C21: the closed-polls by perspective. `PollClosedForSender` is pending in
`kEmpty`, `kAcked`, `kReady` and `kWaitingForAck`, false in `kReadyClosed`,
`kWaitingForAckAndClosed` and `kClosed`, true in `kCancelled`;
`PollClosedForReceiver` is pending in every state but `kClosed` (false) and
`kCancelled` (true). The two results agree exactly outside `kReadyClosed` and
`kWaitingForAckAndClosed`, where the sender sees a clean close and the
receiver is pending; neither poll changes the center. -/
theorem closed_polls_by_perspective (c : Center T) :
    (c.value_state_ = .kEmpty ∨ c.value_state_ = .kAcked ∨ c.value_state_ = .kReady ∨
        c.value_state_ = .kWaitingForAck →
      c.PollClosedForSender = ⟨.pending, c, [.pending .on_closed_]⟩) ∧
    (c.value_state_ = .kReadyClosed ∨ c.value_state_ = .kWaitingForAckAndClosed ∨
        c.value_state_ = .kClosed →
      c.PollClosedForSender = ⟨.ready false, c, []⟩) ∧
    (c.value_state_ = .kCancelled → c.PollClosedForSender = ⟨.ready true, c, []⟩) ∧
    (c.value_state_ ≠ .kClosed ∧ c.value_state_ ≠ .kCancelled →
      c.PollClosedForReceiver = ⟨.pending, c, [.pending .on_closed_]⟩) ∧
    (c.value_state_ = .kClosed → c.PollClosedForReceiver = ⟨.ready false, c, []⟩) ∧
    (c.value_state_ = .kCancelled → c.PollClosedForReceiver = ⟨.ready true, c, []⟩) ∧
    (c.PollClosedForSender.ret = c.PollClosedForReceiver.ret ↔
      c.value_state_ ≠ .kReadyClosed ∧ c.value_state_ ≠ .kWaitingForAckAndClosed) ∧
    (c.value_state_ = .kReadyClosed ∨ c.value_state_ = .kWaitingForAckAndClosed →
      c.PollClosedForSender.ret = .ready false ∧ c.PollClosedForReceiver.ret = .pending) ∧
    c.PollClosedForSender.center = c ∧ c.PollClosedForReceiver.center = c := by
  obtain ⟨il, x, n, st⟩ := c
  cases st <;> simp [Center.PollClosedForSender, Center.PollClosedForReceiver]

/-- C21, at a concrete center: closed by the sender while 7 waits to be read. -/
theorem closed_polls_by_perspective_witness :
    (Center.PollClosedForSender (⟨[], 7, 2, .kReadyClosed⟩ : Center Nat)).ret = .ready false ∧
    (Center.PollClosedForReceiver (⟨[], 7, 2, .kReadyClosed⟩ : Center Nat)).ret = .pending :=
  (closed_polls_by_perspective (⟨[], 7, 2, .kReadyClosed⟩ : Center Nat)).2.2.2.2.2.2.2.1
    (Or.inl rfl)

/-- C22: `Center::PollEmpty()`. It is pending, on `on_empty_`, exactly in
`kReady` and `kReadyClosed`, ready in the six other states, and never changes
the center; the receiver's `AwaitEmpty` promise polls it. -/
theorem PollEmpty_contract (c : Center T) :
    (c.PollEmpty.ret = .pending ↔
      c.value_state_ = .kReady ∨ c.value_state_ = .kReadyClosed) ∧
    (c.value_state_ = .kReady ∨ c.value_state_ = .kReadyClosed →
      c.PollEmpty = ⟨.pending, c, [.pending .on_empty_]⟩) ∧
    (c.value_state_ = .kEmpty ∨ c.value_state_ = .kWaitingForAck ∨
        c.value_state_ = .kWaitingForAckAndClosed ∨ c.value_state_ = .kAcked ∨
        c.value_state_ = .kClosed ∨ c.value_state_ = .kCancelled →
      c.PollEmpty = ⟨.ready .mk, c, []⟩) ∧
    c.PollEmpty.center = c ∧
    PipeReceiver.AwaitEmpty { center_ := true } c = some c.PollEmpty := by
  obtain ⟨il, x, n, st⟩ := c
  cases st <;> simp [Center.PollEmpty, PipeReceiver.AwaitEmpty]

/-- C22, at a concrete center: pending while 7 waits to be read. -/
theorem PollEmpty_contract_witness :
    Center.PollEmpty (⟨[], 7, 2, .kReady⟩ : Center Nat) =
      ⟨.pending, ⟨[], 7, 2, .kReady⟩, [.pending .on_empty_]⟩ :=
  (PollEmpty_contract (⟨[], 7, 2, .kReady⟩ : Center Nat)).2.1 (Or.inl rfl)

/-- A polling function that returns pending does so on its own waiter. -/
theorem CenterPoll.calls_of_pending [MoveSemantics T] (poll : CenterPoll T) (c : Center T)
    (h : poll.pending c = true) : poll.calls c = [.pending poll.waiter] := by
  obtain ⟨il, x, n, st⟩ := c
  cases poll <;> cases st <;>
    simp [CenterPoll.pending, CenterPoll.calls, CenterPoll.waiter, Poll.is_pending,
      Center.Push, Center.PollAck, Center.Next, Center.PollClosedForSender,
      Center.PollClosedForReceiver, Center.PollEmpty] at h ⊢

/-- C23, as stated, fails twice. `Next` on a center in `kReady` wakes nothing,
yet `PollEmpty` was pending before it and is ready after it; and `MarkClosed`
on a center in `kReady` wakes only `on_closed_`, yet `Push` was pending before
it and is ready, with false, after it. -/
theorem wake_completeness_counterexample :
    (CenterCall.Next.apply (⟨[], 7, 2, .kReady⟩ : Center Nat)
        = some (⟨[], 7, 2, .kWaitingForAck⟩, []) ∧
      CenterPoll.PollEmpty.pending (⟨[], 7, 2, .kReady⟩ : Center Nat) = true ∧
      CenterPoll.PollEmpty.pending (⟨[], 7, 2, .kWaitingForAck⟩ : Center Nat) = false ∧
      (CenterPoll.PollEmpty : CenterPoll Nat).waiter = .on_empty_ ∧
      WaiterCall.wake .on_empty_ ∉ ([] : List WaiterCall)) ∧
    (CenterCall.MarkClosed.apply (⟨[], 7, 2, .kReady⟩ : Center Nat)
        = some (⟨[], 7, 2, .kReadyClosed⟩, [.wake .on_closed_]) ∧
      (CenterPoll.Push 8).pending (⟨[], 7, 2, .kReady⟩ : Center Nat) = true ∧
      (CenterPoll.Push 8).pending (⟨[], 7, 2, .kReadyClosed⟩ : Center Nat) = false ∧
      (Center.Push (⟨[], 7, 2, .kReadyClosed⟩ : Center Nat) 8).ret = .ready false ∧
      (CenterPoll.Push 8 : CenterPoll Nat).waiter = .on_empty_ ∧
      WaiterCall.wake .on_empty_ ∉ [WaiterCall.wake .on_closed_]) := by
  refine ⟨⟨rfl, rfl, rfl, rfl, by simp⟩, ⟨rfl, rfl, rfl, rfl, rfl, by decide⟩⟩

/-- Which calls wake the waiter of a poll that they turn from pending to
ready: all of them, except `Next` for `PollEmpty`, and `MarkClosed` on a
center in `kReady` or `kWaitingForAck` for `Push`. -/
theorem CenterCall.wakes_parked_iff [MoveSemantics T] (call : CenterCall T)
    (poll : CenterPoll T) (c d : Center T) (k : List WaiterCall)
    (h : call.apply c = some (d, k))
    (hb : poll.pending c = true) (ha : poll.pending d = false) :
    (WaiterCall.wake poll.waiter ∈ k ↔
      ¬ (call = .Next ∧ poll = .PollEmpty) ∧
      ¬ (call = .MarkClosed ∧ (∃ v, poll = .Push v) ∧
          (c.value_state_ = .kReady ∨ c.value_state_ = .kWaitingForAck))) := by
  obtain ⟨il, x, n, st⟩ := c
  cases call <;> cases poll <;> cases st <;>
    simp [CenterPoll.pending, Poll.is_pending, Center.Push, Center.PollAck, Center.Next,
      Center.PollClosedForSender, Center.PollClosedForReceiver, Center.PollEmpty] at hb <;>
    simp [CenterCall.apply, Center.Push, Center.PollAck, Center.Next,
      Center.PollClosedForSender, Center.PollClosedForReceiver, Center.PollEmpty,
      Center.AckNext, Center.MarkClosed, Center.MarkCancelled] at h <;>
    obtain ⟨rfl, rfl⟩ := h <;>
    simp [CenterPoll.pending, Poll.is_pending, Center.Push, Center.PollAck, Center.Next,
      Center.PollClosedForSender, Center.PollClosedForReceiver, Center.PollEmpty,
      CenterPoll.waiter] at ha ⊢

/-- C23, amended: wake completeness outside two cases. Whenever a polling
function would return pending before a member-function call and ready after
it, the call wakes the waiter on which that poll parks, provided the pair is
neither `Next` with `PollEmpty` nor `MarkClosed`, on a center in `kReady` or
`kWaitingForAck`, with `Push`. -/
theorem wake_completeness [MoveSemantics T] (call : CenterCall T) (poll : CenterPoll T)
    (c d : Center T) (k : List WaiterCall) (h : call.apply c = some (d, k))
    (hb : poll.pending c = true) (ha : poll.pending d = false)
    (hnext : ¬ (call = .Next ∧ poll = .PollEmpty))
    (hclose : ¬ (call = .MarkClosed ∧ (∃ v, poll = .Push v) ∧
      (c.value_state_ = .kReady ∨ c.value_state_ = .kWaitingForAck))) :
    WaiterCall.wake poll.waiter ∈ k ∧ poll.calls c = [.pending poll.waiter] :=
  ⟨(CenterCall.wakes_parked_iff call poll c d k h hb ha).2 ⟨hnext, hclose⟩,
    CenterPoll.calls_of_pending poll c hb⟩

/-- C23, amended, at a concrete center: pushing into a fresh center makes a
pending `Next` ready and wakes `on_full_`. -/
theorem wake_completeness_witness :
    WaiterCall.wake Waiter.on_full_ ∈ (Center.Push (Center.new Nat) 7).calls :=
  (wake_completeness (.Push 7) .Next (Center.new Nat) _ _ rfl rfl rfl
    (by simp) (by simp)).1

/-- C24: no spurious wakes. A member-function call that returns and leaves the
state unchanged, be it a poll that is pending or ready or a mark or an
acknowledgement that is a no-op, wakes none of the three waiters and leaves
the whole center, slot and interceptor list included, as it was. -/
theorem no_spurious_wakes [MoveSemantics T] (call : CenterCall T) (c d : Center T)
    (k : List WaiterCall) (h : call.apply c = some (d, k))
    (hs : d.value_state_ = c.value_state_) :
    (∀ w : Waiter, WaiterCall.wake w ∉ k) ∧
    d.value_ = c.value_ ∧ d.interceptors = c.interceptors ∧ d = c := by
  obtain ⟨il, x, n, st⟩ := c
  cases call <;> cases st <;>
    simp [CenterCall.apply, Center.Push, Center.PollAck, Center.Next,
      Center.PollClosedForSender, Center.PollClosedForReceiver, Center.PollEmpty,
      Center.AckNext, Center.MarkClosed, Center.MarkCancelled] at h <;>
    obtain ⟨rfl, rfl⟩ := h <;>
    simp at hs ⊢

/-- C24, at a concrete center: a second `MarkClosed` on a closed center. -/
theorem no_spurious_wakes_witness :
    (∀ w : Waiter,
      WaiterCall.wake w ∉ (Center.MarkClosed (⟨[], 0, 2, .kClosed⟩ : Center Nat)).calls) ∧
    (Center.MarkClosed (⟨[], 0, 2, .kClosed⟩ : Center Nat)).center = ⟨[], 0, 2, .kClosed⟩ :=
  have h := no_spurious_wakes (.MarkClosed) (⟨[], 0, 2, .kClosed⟩ : Center Nat) _ _ rfl rfl
  ⟨h.1, h.2.2.2⟩

end PollsAndWakes

section References

variable {T : Type}

/-- Replacing the element at a position changes a sum by the difference
between the old and the new element. -/
theorem sum_map_set_at {α : Type} (g : α → Nat) (l : List α) (i : Nat) (p q : α)
    (h : l[i]? = some p) :
    ((l.set i q).map g).sum + g p = (l.map g).sum + g q := by
  induction l generalizing i with
  | nil => simp at h
  | cons a rest ih =>
    cases i with
    | zero =>
      simp only [List.getElem?_cons_zero, Option.some.injEq] at h
      subst h
      simp only [List.set_cons_zero, List.map_cons, List.sum_cons]
      omega
    | succ n =>
      simp only [List.getElem?_cons_succ] at h
      have := ih n h
      simp only [List.set_cons_succ, List.map_cons, List.sum_cons]
      omega

/-- Removing the element at a position lowers a sum by that element. -/
theorem sum_map_eraseIdx_at {α : Type} (g : α → Nat) (l : List α) (i : Nat) (p : α)
    (h : l[i]? = some p) :
    ((l.eraseIdx i).map g).sum + g p = (l.map g).sum := by
  induction l generalizing i with
  | nil => simp at h
  | cons a rest ih =>
    cases i with
    | zero =>
      simp only [List.getElem?_cons_zero, Option.some.injEq] at h
      subst h
      simp only [List.eraseIdx_cons_zero, List.map_cons, List.sum_cons]
      omega
    | succ n =>
      simp only [List.getElem?_cons_succ] at h
      have := ih n h
      simp only [List.eraseIdx_cons_succ, List.map_cons, List.sum_cons]
      omega

/-- Releasing `n` copies of a pointer subtracts `n` from the counter of eight
bits when the pointer is not null, and changes nothing else. -/
theorem release_iterate (held : Bool) (n : Nat) (c : Center T) (h : c.refs_ < 256) :
    (Center.release held)^[n] c =
      { c with refs_ := if held then (c.refs_ + 255 * n) % 256 else c.refs_ } := by
  induction n generalizing c with
  | zero =>
    cases held
    · simp
    · simp [Nat.mod_eq_of_lt h]
  | succ m ih =>
    rw [Function.iterate_succ, Function.comp_apply]
    cases held
    · have := ih c h
      simpa [Center.release] using this
    · have hlt : (Center.release true c).refs_ < 256 := by
        simp only [Center.release, Center.Unref, if_true]
        omega
      rw [ih _ hlt]
      simp only [Center.release, Center.Unref, if_true]
      congr 1
      omega

/-- Creating, polling and destroying pushes keeps `refs_` equal to the number
of live references, as long as that number stays below 256. -/
theorem live_push_ops [MoveSemantics T] (op : RefOp T) (w w2 : RefConfig T)
    (hop : (∃ v, op = .sender_Push v) ∨ (∃ i, op = .poll_Push i) ∨ (∃ i, op = .destroy_Push i))
    (hw : w.center.refs_ = w.live) (h1 : w.live < 256) (h2 : w2.live < 256)
    (h : op.step w = some w2) : w2.center.refs_ = w2.live := by
  obtain ⟨c, sd, rc, ps, rs, ns, as⟩ := w
  obtain ⟨il, x, n, st⟩ := c
  rcases hop with ⟨v, rfl⟩ | ⟨i, rfl⟩ | ⟨i, rfl⟩
  · cases sd with
    | none => simp [RefOp.step] at h
    | some s =>
      obtain ⟨b⟩ := s
      cases b <;> simp [RefOp.step, PipeSender.Push, Center.IncrementRefCount] at h <;>
        subst h <;>
        simp [RefConfig.live, RefConfig.handle_refs, RefConfig.promise_refs] at hw h1 h2 ⊢ <;>
        omega
  · simp only [RefOp.step] at h
    cases hp : ps[i]? with
    | none => simp [hp] at h
    | some p =>
      obtain ⟨b, q⟩ := p
      have hset1 := countP_set_at (fun p : Push T => p.center_) ps i _
        { center_ := b, state_ := .AwaitingAck } hp
      have hset2 := countP_set_at (fun p : Push T => p.center_) ps i _
        { center_ := b, state_ := q } hp
      rw [hp] at h
      cases b <;> cases q <;> cases st <;>
        simp [Push.poll, Center.Push, Center.PollAck] at h <;>
        subst h <;>
        simp [RefConfig.live, RefConfig.handle_refs, RefConfig.promise_refs,
          -List.countP_eq_zero, -List.countP_pos_iff] at hw h1 h2 hset1 hset2 ⊢ <;>
        omega
  · simp only [RefOp.step] at h
    cases hp : ps[i]? with
    | none => simp [hp] at h
    | some p =>
      obtain ⟨b, q⟩ := p
      have herase := countP_eraseIdx_at (fun p : Push T => p.center_) ps i _ hp
      rw [hp] at h
      cases b <;>
        simp [Push.destroy, Center.release, Center.Unref] at h <;>
        subst h <;>
        simp [RefConfig.live, RefConfig.handle_refs, RefConfig.promise_refs,
          -List.countP_eq_zero, -List.countP_pos_iff] at hw h1 h2 herase ⊢ <;>
        omega

/-- Destroying or resetting a `NextResult` keeps `refs_` equal to the number
of live references. -/
theorem live_result_ops [MoveSemantics T] (op : RefOp T) (w w2 : RefConfig T)
    (hop : (∃ j, op = .destroy_NextResult j) ∨ (∃ j, op = .reset_NextResult j))
    (hw : w.center.refs_ = w.live) (h1 : w.live < 256) (h2 : w2.live < 256)
    (h : op.step w = some w2) : w2.center.refs_ = w2.live := by
  obtain ⟨c, sd, rc, ps, rs, ns, as⟩ := w
  obtain ⟨il, x, n, st⟩ := c
  rcases hop with ⟨j, rfl⟩ | ⟨j, rfl⟩
  · simp only [RefOp.step] at h
    cases hp : rs[j]? with
    | none => simp [hp] at h
    | some nr =>
      obtain ⟨b, cn⟩ := nr
      have herase := countP_eraseIdx_at NextResult.has_value rs j _ hp
      rw [hp] at h
      cases b <;> cases st <;>
        simp [NextResult.destroy, Center.AckNext, Center.release, Center.Unref,
          InterceptorList.ResetInterceptorList] at h <;>
        subst h <;>
        simp [RefConfig.live, RefConfig.handle_refs, RefConfig.promise_refs,
          NextResult.has_value, -List.countP_eq_zero, -List.countP_pos_iff]
          at hw h1 h2 herase ⊢ <;>
        omega
  · simp only [RefOp.step] at h
    cases hp : rs[j]? with
    | none => simp [hp] at h
    | some nr =>
      obtain ⟨b, cn⟩ := nr
      have hset := countP_set_at NextResult.has_value rs j _
        { center_ := false, cancelled_ := cn } hp
      rw [hp] at h
      cases b <;> cases st <;>
        simp [NextResult.reset, Center.AckNext, Center.release, Center.Unref,
          InterceptorList.ResetInterceptorList] at h <;>
        subst h <;>
        simp [RefConfig.live, RefConfig.handle_refs, RefConfig.promise_refs,
          NextResult.has_value, -List.countP_eq_zero, -List.countP_pos_iff]
          at hw h1 h2 hset ⊢ <;>
        omega

/-- The operations on the sender, the creation of an `AwaitClosed()` promise
included, keep `refs_` equal to the number of live references. -/
theorem live_sender_ops [MoveSemantics T] (op : RefOp T) (w w2 : RefConfig T)
    (hop : op = .sender_Close ∨ op = .sender_CloseWithError ∨ op = .destroy_sender ∨
      (∃ f, op = .sender_InterceptAndMap f) ∨ op = .sender_AwaitClosed)
    (hw : w.center.refs_ = w.live) (h1 : w.live < 256) (h2 : w2.live < 256)
    (h : op.step w = some w2) : w2.center.refs_ = w2.live := by
  obtain ⟨c, sd, rc, ps, rs, ns, as⟩ := w
  obtain ⟨il, x, n, st⟩ := c
  cases sd with
  | none => rcases hop with rfl | rfl | rfl | ⟨f, rfl⟩ | rfl <;> simp [RefOp.step] at h
  | some s =>
    obtain ⟨b⟩ := s
    rcases hop with rfl | rfl | rfl | ⟨f, rfl⟩ | rfl <;> cases b <;> cases st <;>
      simp [RefOp.step, PipeSender.Close, PipeSender.CloseWithError, PipeSender.destroy,
        PipeSender.InterceptAndMap, Center.copy, Center.IncrementRefCount,
        Center.MarkClosed, Center.MarkCancelled, Center.release, Center.Unref,
        InterceptorList.ResetInterceptorList] at h <;>
      subst h <;>
      simp [RefConfig.live, RefConfig.handle_refs, RefConfig.promise_refs,
        -List.countP_eq_zero, -List.countP_pos_iff] at hw h1 h2 ⊢ <;>
      omega

/-- The operations on the receiver, the creation of an `AwaitClosed()`, an
`AwaitEmpty()` or a `Next()` promise included, keep `refs_` equal to the
number of live references. -/
theorem live_receiver_ops [MoveSemantics T] (op : RefOp T) (w w2 : RefConfig T)
    (hop : op = .receiver_CloseWithError ∨ op = .destroy_receiver ∨
      (∃ f, op = .receiver_InterceptAndMap f) ∨ op = .receiver_AwaitClosed ∨
      op = .receiver_AwaitEmpty ∨ op = .receiver_Next)
    (hw : w.center.refs_ = w.live) (h1 : w.live < 256) (h2 : w2.live < 256)
    (h : op.step w = some w2) : w2.center.refs_ = w2.live := by
  obtain ⟨c, sd, rc, ps, rs, ns, as⟩ := w
  obtain ⟨il, x, n, st⟩ := c
  cases rc with
  | none => rcases hop with rfl | rfl | ⟨f, rfl⟩ | rfl | rfl | rfl <;> simp [RefOp.step] at h
  | some r =>
    obtain ⟨b⟩ := r
    rcases hop with rfl | rfl | ⟨f, rfl⟩ | rfl | rfl | rfl <;> cases b <;> cases st <;>
      simp [RefOp.step, PipeReceiver.CloseWithError, PipeReceiver.destroy,
        PipeReceiver.InterceptAndMap, Center.copy, Center.IncrementRefCount,
        Center.MarkCancelled, Center.release, Center.Unref,
        InterceptorList.ResetInterceptorList] at h <;>
      subst h <;>
      simp [RefConfig.live, RefConfig.handle_refs, RefConfig.promise_refs, NextPromise.refs,
        -List.countP_eq_zero, -List.countP_pos_iff] at hw h1 h2 ⊢ <;>
      omega

/-- Polling and destroying an `AwaitClosed()` or `AwaitEmpty()` promise keeps
`refs_` equal to the number of live references. -/
theorem live_await_ops [MoveSemantics T] (op : RefOp T) (w w2 : RefConfig T)
    (hop : (∃ k, op = .poll_Await k) ∨ (∃ k, op = .destroy_Await k))
    (hw : w.center.refs_ = w.live) (h1 : w.live < 256) (h2 : w2.live < 256)
    (h : op.step w = some w2) : w2.center.refs_ = w2.live := by
  obtain ⟨c, sd, rc, ps, rs, ns, as⟩ := w
  obtain ⟨il, x, n, st⟩ := c
  rcases hop with ⟨k, rfl⟩ | ⟨k, rfl⟩
  · simp only [RefOp.step] at h
    cases hp : as[k]? with
    | none => simp [hp] at h
    | some a =>
      obtain ⟨kd, b⟩ := a
      rw [hp] at h
      cases kd <;> cases b <;> cases st <;>
        simp [AwaitPromise.poll, PipeSender.AwaitClosed, PipeReceiver.AwaitClosed,
          PipeReceiver.AwaitEmpty, Center.PollClosedForSender, Center.PollClosedForReceiver,
          Center.PollEmpty] at h <;>
        subst h <;>
        exact hw
  · simp only [RefOp.step] at h
    cases hp : as[k]? with
    | none => simp [hp] at h
    | some a =>
      obtain ⟨kd, b⟩ := a
      have herase := countP_eraseIdx_at (fun a : AwaitPromise => a.center) as k _ hp
      rw [hp] at h
      cases b <;>
        simp [Center.release, Center.Unref] at h <;>
        subst h <;>
        simp [RefConfig.live, RefConfig.handle_refs, RefConfig.promise_refs,
          -List.countP_eq_zero, -List.countP_pos_iff] at hw h1 h2 herase ⊢ <;>
        omega

/-- The iterated release on a center given by its members. -/
theorem release_iterate_mk (held : Bool) (m : Nat) (il : InterceptorList T) (x : T)
    (r : Nat) (st : ValueState) (h : r < 256) :
    (Center.release held)^[m]
        { interceptors := il, value_ := x, refs_ := r, value_state_ := st } =
      { interceptors := il, value_ := x,
        refs_ := if held then (r + 255 * m) % 256 else r, value_state_ := st } :=
  release_iterate held m _ h

/-- Polling and destroying a `Next()` promise keeps `refs_` equal to the
number of live references, whatever number of its copies the promise keeps
when it resolves. -/
theorem live_next_ops [MoveSemantics T] (op : RefOp T) (w w2 : RefConfig T)
    (hop : (∃ k kept, op = .poll_Next k kept) ∨ (∃ k, op = .destroy_Next k))
    (hw : w.center.refs_ = w.live) (h1 : w.live < 256) (h2 : w2.live < 256)
    (h : op.step w = some w2) : w2.center.refs_ = w2.live := by
  obtain ⟨c, sd, rc, ps, rs, ns, as⟩ := w
  obtain ⟨il, x, n, st⟩ := c
  rcases hop with ⟨k, kept, rfl⟩ | ⟨k, rfl⟩
  · simp only [RefOp.step] at h
    cases hp : ns[k]? with
    | none => simp [hp] at h
    | some np =>
      obtain ⟨b, cp, rsv⟩ := np
      have hset := sum_map_set_at NextPromise.refs ns k _
        { center_ := b, copies := kept, resolved := true } hp
      rw [hp] at h
      have hn : n < 256 := by
        simp only [RefConfig.live] at hw h1
        omega
      have hn1 : (n + 1) % 256 < 256 := Nat.mod_lt _ (by decide)
      cases hr : InterceptorList.Run il (some x) <;> cases b <;> cases st <;>
        simp [PipeReceiver.Next, Next.poll, Center.Next, Center.cancelled,
          Center.MarkCancelled, Center.IncrementRefCount,
          InterceptorList.ResetInterceptorList, hr] at h <;>
        obtain ⟨hk, h⟩ := h <;>
        subst h
      all_goals
        try simp only [release_iterate_mk _ _ _ _ _ _ hn, release_iterate_mk _ _ _ _ _ _ hn1]
          at h2 ⊢
      all_goals
        simp [RefConfig.live, RefConfig.handle_refs, RefConfig.promise_refs, NextPromise.refs,
          NextResult.has_value, -List.countP_eq_zero, -List.countP_pos_iff]
          at hw h1 h2 hset ⊢
      all_goals omega
  · simp only [RefOp.step] at h
    cases hp : ns[k]? with
    | none => simp [hp] at h
    | some np =>
      obtain ⟨b, cp, rsv⟩ := np
      have herase := sum_map_eraseIdx_at NextPromise.refs ns k _ hp
      rw [hp] at h
      have hn : n < 256 := by
        simp only [RefConfig.live] at hw h1
        omega
      simp only [Option.some.injEq] at h
      subst h
      rw [release_iterate _ _ _ hn]
      cases b <;>
        simp [RefConfig.live, RefConfig.handle_refs, RefConfig.promise_refs, NextPromise.refs,
          -List.countP_eq_zero, -List.countP_pos_iff] at hw h1 h2 herase ⊢ <;>
        omega

/-- Every operation keeps `refs_` equal to the number of live references, as
long as that number stays below 256. -/
theorem live_step [MoveSemantics T] (op : RefOp T) (w w2 : RefConfig T)
    (hw : w.center.refs_ = w.live) (h1 : w.live < 256) (h2 : w2.live < 256)
    (h : op.step w = some w2) : w2.center.refs_ = w2.live := by
  cases op with
  | sender_Push v => exact live_push_ops _ w w2 (Or.inl ⟨v, rfl⟩) hw h1 h2 h
  | poll_Push i => exact live_push_ops _ w w2 (Or.inr (Or.inl ⟨i, rfl⟩)) hw h1 h2 h
  | destroy_Push i => exact live_push_ops _ w w2 (Or.inr (Or.inr ⟨i, rfl⟩)) hw h1 h2 h
  | receiver_Next => exact live_receiver_ops _ w w2 (by simp) hw h1 h2 h
  | poll_Next k kept => exact live_next_ops _ w w2 (Or.inl ⟨k, kept, rfl⟩) hw h1 h2 h
  | destroy_Next k => exact live_next_ops _ w w2 (Or.inr ⟨k, rfl⟩) hw h1 h2 h
  | destroy_NextResult j => exact live_result_ops _ w w2 (Or.inl ⟨j, rfl⟩) hw h1 h2 h
  | reset_NextResult j => exact live_result_ops _ w w2 (Or.inr ⟨j, rfl⟩) hw h1 h2 h
  | sender_Close => exact live_sender_ops _ w w2 (by simp) hw h1 h2 h
  | sender_CloseWithError => exact live_sender_ops _ w w2 (by simp) hw h1 h2 h
  | destroy_sender => exact live_sender_ops _ w w2 (by simp) hw h1 h2 h
  | receiver_CloseWithError => exact live_receiver_ops _ w w2 (by simp) hw h1 h2 h
  | destroy_receiver => exact live_receiver_ops _ w w2 (by simp) hw h1 h2 h
  | sender_InterceptAndMap f => exact live_sender_ops _ w w2 (by simp) hw h1 h2 h
  | receiver_InterceptAndMap f => exact live_receiver_ops _ w w2 (by simp) hw h1 h2 h
  | sender_AwaitClosed => exact live_sender_ops _ w w2 (by simp) hw h1 h2 h
  | receiver_AwaitClosed => exact live_receiver_ops _ w w2 (by simp) hw h1 h2 h
  | receiver_AwaitEmpty => exact live_receiver_ops _ w w2 (by simp) hw h1 h2 h
  | poll_Await k => exact live_await_ops _ w w2 (Or.inl ⟨k, rfl⟩) hw h1 h2 h
  | destroy_Await k => exact live_await_ops _ w w2 (Or.inr ⟨k, rfl⟩) hw h1 h2 h

/-- A sequence that keeps the live references below the bound starts below
the bound. -/
theorem liveBelow_head [MoveSemantics T] (n : Nat) (ops : List (RefOp T)) (w : RefConfig T)
    (h : liveBelow n ops w = true) : w.live < n := by
  cases ops with
  | nil => simpa [liveBelow] using h
  | cons op rest =>
    simp only [liveBelow, Bool.and_eq_true, decide_eq_true_eq] at h
    exact h.1

/-- In a run that keeps the live references below 256, `refs_` stays equal to
their number. -/
theorem live_run [MoveSemantics T] (ops : List (RefOp T)) :
    ∀ (w w2 : RefConfig T), w.center.refs_ = w.live → liveBelow 256 ops w = true →
      runRef ops w = some w2 → w2.center.refs_ = w2.live := by
  induction ops with
  | nil =>
    intro w w2 hw _ h
    simp only [runRef, Option.some.injEq] at h
    exact h ▸ hw
  | cons op rest ih =>
    intro w w2 hw hb h
    simp only [runRef] at h
    cases hs : op.step w with
    | none => simp [hs] at h
    | some w1 =>
      rw [hs] at h
      simp only [liveBelow, hs, Bool.and_eq_true, decide_eq_true_eq] at hb
      have h1 := liveBelow_head 256 rest w1 hb.2
      exact ih w1 w2 (live_step op w w1 hw hb.1 h1 hs) hb.2 h

/-- C25 as stated fails: on a fresh pipe the receiver makes a `Next()`
promise and nothing polls it. The promise holds two copies of `center_`, so
`refs_` is 4, while the sender, the receiver, the pushes and the
value-bearing `NextResult`s are 2 references together. -/
theorem reference_counting_counterexample :
    runRef [.receiver_Next] (RefConfig.init Nat) = some RefConfig.next_pending ∧
    liveBelow 256 [.receiver_Next] (RefConfig.init Nat) = true ∧
    RefConfig.next_pending.handle_refs = 2 ∧
    RefConfig.next_pending.center.refs_ = 4 ∧
    RefConfig.next_pending.center.refs_ ≠ RefConfig.next_pending.handle_refs :=
  ⟨rfl, rfl, rfl, rfl, by decide⟩

/-- C25, amended: reference counting. A new center has two references;
`IncrementRefCount` adds one and `Unref` subtracts one, on a counter of eight
bits, and change nothing else; `Unref` destroys the center exactly when it
brings the counter to 0. Consequently, in every run on a fresh pipe that
keeps fewer than 256 references live, `refs_` equals the number of live
references when the promises are counted with the handles: the sender, the
receiver, each `Push` alive, each value-bearing `NextResult`, the copies held
by each `Next()` promise (two until it resolves) and one for each
`AwaitClosed()` or `AwaitEmpty()` promise. So `refs_` equals the references of
the handles alone whenever no promise holds one, it is at least 1 while any
reference is live and 0 only when none is left. -/
theorem reference_counting [Inhabited T] [MoveSemantics T] :
    (Center.new T).refs_ = 2 ∧
    (∀ c : Center T,
      c.IncrementRefCount = { c with refs_ := (c.refs_ + 1) % 256 } ∧
      (c.refs_ < 255 → c.IncrementRefCount.refs_ = c.refs_ + 1)) ∧
    (∀ c : Center T,
      c.Unref.1 = { c with refs_ := (c.refs_ + 255) % 256 } ∧
      (0 < c.refs_ → c.refs_ < 256 → c.Unref.1.refs_ = c.refs_ - 1) ∧
      (c.Unref.2 = true ↔ c.Unref.1.refs_ = 0)) ∧
    (∀ (ops : List (RefOp T)) (w : RefConfig T),
      runRef ops (RefConfig.init T) = some w → liveBelow 256 ops (RefConfig.init T) = true →
      w.center.refs_ = w.handle_refs + w.promise_refs ∧
      (w.promise_refs = 0 → w.center.refs_ = w.handle_refs) ∧
      (0 < w.handle_refs + w.promise_refs → 1 ≤ w.center.refs_) ∧
      (w.center.refs_ = 0 ↔ w.handle_refs + w.promise_refs = 0)) := by
  refine ⟨rfl, fun c => ⟨rfl, fun h => ?_⟩, fun c => ⟨rfl, fun h1 h2 => ?_, ?_⟩, ?_⟩
  · simp only [Center.IncrementRefCount]
    omega
  · simp only [Center.Unref]
    omega
  · simp [Center.Unref]
  · intro ops w hrun hb
    have h0 : (RefConfig.init T).center.refs_ = (RefConfig.init T).live := by
      simp [RefConfig.init, RefConfig.live, RefConfig.handle_refs, RefConfig.promise_refs,
        Center.new]
    have h := live_run ops (RefConfig.init T) w h0 hb hrun
    simp only [RefConfig.live] at h
    exact ⟨h, fun hz => by omega, fun hpos => by omega, by rw [h]⟩

/-- C25, amended, on a run in which a push, a `Next()` promise and a sender
`AwaitClosed()` promise are made, the push deposits 1 and the `Next()` promise
resolves with it: five references are live, the sender, the receiver, the
push, the `NextResult` and the `AwaitClosed()` promise, and `refs_` is 5. -/
theorem reference_counting_witness :
    runRef [.sender_Push 1, .receiver_Next, .sender_AwaitClosed, .poll_Push 0, .poll_Next 0 0]
      (RefConfig.init Nat) = some RefConfig.delivered ∧
    liveBelow 256 [.sender_Push 1, .receiver_Next, .sender_AwaitClosed, .poll_Push 0,
      .poll_Next 0 0] (RefConfig.init Nat) = true ∧
    RefConfig.delivered.handle_refs = 4 ∧ RefConfig.delivered.promise_refs = 1 ∧
    RefConfig.delivered.center.refs_ =
      RefConfig.delivered.handle_refs + RefConfig.delivered.promise_refs :=
  have hrun : runRef [.sender_Push 1, .receiver_Next, .sender_AwaitClosed, .poll_Push 0,
      .poll_Next 0 0] (RefConfig.init Nat) = some RefConfig.delivered := rfl
  have hb : liveBelow 256 [.sender_Push 1, .receiver_Next, .sender_AwaitClosed, .poll_Push 0,
      .poll_Next 0 0] (RefConfig.init Nat) = true := rfl
  ⟨hrun, hb, rfl, rfl, (reference_counting.2.2.2 _ _ hrun hb).1⟩

end References

section Stuck

variable {T : Type}

/-- The operations on pushes keep the sender side attached. -/
theorem Attached_push_ops [MoveSemantics T] (op : Op T) (w w2 : Config T)
    (hop : (∃ v, op = .sender_Push v) ∨ (∃ i, op = .poll_Push i) ∨ (∃ i, op = .destroy_Push i))
    (hw : w.Attached) (h : op.step w = some w2) : w2.Attached := by
  obtain ⟨c, sd, rc, ps, rs, pd, rv⟩ := w
  obtain ⟨il, x, n, st⟩ := c
  rcases hop with ⟨v, rfl⟩ | ⟨i, rfl⟩ | ⟨i, rfl⟩
  · cases sd with
    | none => simp [Op.step] at h
    | some s =>
      obtain ⟨b⟩ := s
      cases b <;> cases st <;>
        simp [Op.step, PipeSender.Push, Center.IncrementRefCount] at h <;>
        subst h <;>
        simp [Config.Attached, -List.countP_eq_zero, -List.countP_pos_iff] at hw ⊢ <;>
        omega
  · simp only [Op.step] at h
    cases hp : ps[i]? with
    | none => simp [hp] at h
    | some p =>
      obtain ⟨b, q⟩ := p
      have hset1 := countP_set_at (fun p : Push T => !p.center_) ps i _
        { center_ := b, state_ := .AwaitingAck } hp
      have hset2 := countP_set_at (fun p : Push T => !p.center_) ps i _
        { center_ := b, state_ := q } hp
      have herase := countP_eraseIdx_at (fun p : Push T => !p.center_) ps i _ hp
      rw [hp] at h
      cases b <;> cases q <;> cases st <;>
        simp [Push.poll, Center.Push, Center.PollAck, Push.destroy, Center.release,
          Center.Unref, Push.deposits] at h <;>
        subst h <;>
        simp [Config.Attached, -List.countP_eq_zero, -List.countP_pos_iff]
          at hw hset1 hset2 herase ⊢ <;>
        first
          | omega
          | exact ⟨hw.1, by omega⟩
  · simp only [Op.step] at h
    cases hp : ps[i]? with
    | none => simp [hp] at h
    | some p =>
      obtain ⟨b, q⟩ := p
      have herase := countP_eraseIdx_at (fun p : Push T => !p.center_) ps i _ hp
      rw [hp] at h
      cases b <;> cases st <;>
        simp [Push.destroy, Center.release, Center.Unref] at h <;>
        subst h <;>
        simp [Config.Attached, -List.countP_eq_zero, -List.countP_pos_iff]
          at hw herase ⊢ <;>
        first
          | omega
          | exact ⟨hw.1, by omega⟩

/-- The operations on results keep the sender side attached. -/
theorem Attached_result_ops [MoveSemantics T] (op : Op T) (w w2 : Config T)
    (hop : op = .receiver_Next ∨ (∃ j, op = .destroy_NextResult j) ∨
      (∃ j, op = .reset_NextResult j))
    (hw : w.Attached) (h : op.step w = some w2) : w2.Attached := by
  obtain ⟨c, sd, rc, ps, rs, pd, rv⟩ := w
  obtain ⟨il, x, n, st⟩ := c
  rcases hop with rfl | ⟨j, rfl⟩ | ⟨j, rfl⟩
  · cases rc with
    | none => simp [Op.step] at h
    | some r =>
      obtain ⟨b⟩ := r
      cases hr : InterceptorList.Run il (some x) <;> cases b <;> cases st <;>
        simp [Op.step, PipeReceiver.Next, Next.poll, Center.Next, Center.cancelled,
          PipeReceiver.takes, Center.MarkCancelled, Center.IncrementRefCount,
          InterceptorList.ResetInterceptorList, hr] at h <;>
        subst h <;>
        simp [Config.Attached, -List.countP_eq_zero, -List.countP_pos_iff] at hw ⊢ <;>
        exact hw
  · simp only [Op.step] at h
    cases hp : rs[j]? with
    | none => simp [hp] at h
    | some nr =>
      obtain ⟨b, cn⟩ := nr
      rw [hp] at h
      cases b <;> cases st <;>
        simp [NextResult.destroy, Center.AckNext, Center.release, Center.Unref,
          InterceptorList.ResetInterceptorList] at h <;>
        subst h <;>
        simp [Config.Attached, -List.countP_eq_zero, -List.countP_pos_iff] at hw ⊢ <;>
        exact hw
  · simp only [Op.step] at h
    cases hp : rs[j]? with
    | none => simp [hp] at h
    | some nr =>
      obtain ⟨b, cn⟩ := nr
      rw [hp] at h
      cases b <;> cases st <;>
        simp [NextResult.reset, Center.AckNext, Center.release, Center.Unref,
          InterceptorList.ResetInterceptorList] at h <;>
        subst h <;>
        simp [Config.Attached, -List.countP_eq_zero, -List.countP_pos_iff] at hw ⊢ <;>
        exact hw

/-- The other operations on the sender keep the sender side attached: closing
takes the center out of the open states. -/
theorem Attached_sender_ops [MoveSemantics T] (op : Op T) (w w2 : Config T)
    (hop : op = .sender_Close ∨ op = .sender_CloseWithError ∨ op = .destroy_sender ∨
      (∃ f, op = .sender_InterceptAndMap f) ∨ op = .sender_AwaitClosed)
    (hw : w.Attached) (h : op.step w = some w2) : w2.Attached := by
  obtain ⟨c, sd, rc, ps, rs, pd, rv⟩ := w
  obtain ⟨il, x, n, st⟩ := c
  cases sd with
  | none => rcases hop with rfl | rfl | rfl | ⟨f, rfl⟩ | rfl <;> simp [Op.step] at h
  | some s =>
    obtain ⟨b⟩ := s
    rcases hop with rfl | rfl | rfl | ⟨f, rfl⟩ | rfl <;> cases b <;> cases st <;>
      simp [Op.step, PipeSender.Close, PipeSender.CloseWithError, PipeSender.destroy,
        PipeSender.InterceptAndMap, PipeSender.AwaitClosed, Center.PollClosedForSender,
        Center.MarkClosed, Center.MarkCancelled, Center.release, Center.Unref,
        InterceptorList.ResetInterceptorList] at h <;>
      subst h <;>
      simp [Config.Attached, -List.countP_eq_zero, -List.countP_pos_iff] at hw ⊢ <;>
      exact hw

/-- The other operations on the receiver keep the sender side attached. -/
theorem Attached_receiver_ops [MoveSemantics T] (op : Op T) (w w2 : Config T)
    (hop : op = .receiver_CloseWithError ∨ op = .destroy_receiver ∨
      (∃ f, op = .receiver_InterceptAndMap f) ∨ op = .receiver_AwaitClosed ∨
      op = .receiver_AwaitEmpty)
    (hw : w.Attached) (h : op.step w = some w2) : w2.Attached := by
  obtain ⟨c, sd, rc, ps, rs, pd, rv⟩ := w
  obtain ⟨il, x, n, st⟩ := c
  cases rc with
  | none => rcases hop with rfl | rfl | ⟨f, rfl⟩ | rfl | rfl <;> simp [Op.step] at h
  | some r =>
    obtain ⟨b⟩ := r
    rcases hop with rfl | rfl | ⟨f, rfl⟩ | rfl | rfl <;> cases b <;> cases st <;>
      simp [Op.step, PipeReceiver.CloseWithError, PipeReceiver.destroy,
        PipeReceiver.InterceptAndMap, PipeReceiver.AwaitClosed, PipeReceiver.AwaitEmpty,
        Center.PollClosedForReceiver, Center.PollEmpty, Center.MarkCancelled,
        Center.release, Center.Unref, InterceptorList.ResetInterceptorList] at h <;>
      subst h <;>
      simp [Config.Attached, -List.countP_eq_zero, -List.countP_pos_iff] at hw ⊢ <;>
      exact hw

/-- Every operation keeps the sender side attached. -/
theorem Attached_step [MoveSemantics T] (op : Op T) (w w2 : Config T)
    (hw : w.Attached) (h : op.step w = some w2) : w2.Attached := by
  cases op with
  | sender_Push v => exact Attached_push_ops _ w w2 (Or.inl ⟨v, rfl⟩) hw h
  | poll_Push i => exact Attached_push_ops _ w w2 (Or.inr (Or.inl ⟨i, rfl⟩)) hw h
  | destroy_Push i => exact Attached_push_ops _ w w2 (Or.inr (Or.inr ⟨i, rfl⟩)) hw h
  | receiver_Next => exact Attached_result_ops _ w w2 (Or.inl rfl) hw h
  | destroy_NextResult j => exact Attached_result_ops _ w w2 (Or.inr (Or.inl ⟨j, rfl⟩)) hw h
  | reset_NextResult j => exact Attached_result_ops _ w w2 (Or.inr (Or.inr ⟨j, rfl⟩)) hw h
  | sender_Close => exact Attached_sender_ops _ w w2 (by simp) hw h
  | sender_CloseWithError => exact Attached_sender_ops _ w w2 (by simp) hw h
  | destroy_sender => exact Attached_sender_ops _ w w2 (by simp) hw h
  | receiver_CloseWithError => exact Attached_receiver_ops _ w w2 (by simp) hw h
  | destroy_receiver => exact Attached_receiver_ops _ w w2 (by simp) hw h
  | sender_InterceptAndMap f => exact Attached_sender_ops _ w w2 (by simp) hw h
  | receiver_InterceptAndMap f => exact Attached_receiver_ops _ w w2 (by simp) hw h
  | sender_AwaitClosed => exact Attached_sender_ops _ w w2 (by simp) hw h
  | receiver_AwaitClosed => exact Attached_receiver_ops _ w w2 (by simp) hw h
  | receiver_AwaitEmpty => exact Attached_receiver_ops _ w w2 (by simp) hw h

/-- The operations on pushes keep the pipe stuck: in `kAcked` a push that
holds its value stays pending. -/
theorem Stuck_push_ops [MoveSemantics T] (op : Op T) (w w2 : Config T)
    (hop : (∃ v, op = .sender_Push v) ∨ (∃ i, op = .poll_Push i) ∨ (∃ i, op = .destroy_Push i))
    (hw : w.Stuck) (h : op.step w = some w2) : w2.Stuck := by
  obtain ⟨c, sd, rc, ps, rs, pd, rv⟩ := w
  obtain ⟨il, x, n, st⟩ := c
  rcases hop with ⟨v, rfl⟩ | ⟨i, rfl⟩ | ⟨i, rfl⟩
  · cases sd with
    | none => simp [Op.step] at h
    | some s =>
      obtain ⟨b⟩ := s
      cases b <;> cases st <;>
        simp [Op.step, PipeSender.Push, Center.IncrementRefCount] at h <;>
        subst h <;>
        simp [Config.Stuck, Config.awaitingAck, Push.awaiting,
          -List.countP_eq_zero, -List.countP_pos_iff] at hw ⊢ <;>
        omega
  · simp only [Op.step] at h
    cases hp : ps[i]? with
    | none => simp [hp] at h
    | some p =>
      obtain ⟨b, q⟩ := p
      have hset1 := countP_set_at Push.awaiting ps i _
        { center_ := b, state_ := .AwaitingAck } hp
      have hset2 := countP_set_at Push.awaiting ps i _ { center_ := b, state_ := q } hp
      have herase := countP_eraseIdx_at Push.awaiting ps i _ hp
      rw [hp] at h
      cases b <;> cases q <;> cases st <;>
        simp [Push.poll, Center.Push, Center.PollAck, Push.destroy, Center.release,
          Center.Unref, Push.deposits] at h <;>
        subst h <;>
        simp [Config.Stuck, Config.awaitingAck, Push.awaiting,
          -List.countP_eq_zero, -List.countP_pos_iff]
          at hw hset1 hset2 herase ⊢ <;>
        omega
  · simp only [Op.step] at h
    cases hp : ps[i]? with
    | none => simp [hp] at h
    | some p =>
      obtain ⟨b, q⟩ := p
      have herase := countP_eraseIdx_at Push.awaiting ps i _ hp
      rw [hp] at h
      cases b <;> cases q <;> cases st <;>
        simp [Push.destroy, Center.release, Center.Unref] at h <;>
        subst h <;>
        simp [Config.Stuck, Config.awaitingAck, Push.awaiting,
          -List.countP_eq_zero, -List.countP_pos_iff]
          at hw herase ⊢ <;>
        omega

/-- The operations on results keep the pipe stuck: in `kAcked` the receiver's
`Next()` is pending, and an `AckNext` there would abort. -/
theorem Stuck_result_ops [MoveSemantics T] (op : Op T) (w w2 : Config T)
    (hop : op = .receiver_Next ∨ (∃ j, op = .destroy_NextResult j) ∨
      (∃ j, op = .reset_NextResult j))
    (hw : w.Stuck) (h : op.step w = some w2) : w2.Stuck := by
  obtain ⟨c, sd, rc, ps, rs, pd, rv⟩ := w
  obtain ⟨il, x, n, st⟩ := c
  rcases hop with rfl | ⟨j, rfl⟩ | ⟨j, rfl⟩
  · cases rc with
    | none => simp [Op.step] at h
    | some r =>
      obtain ⟨b⟩ := r
      cases hr : InterceptorList.Run il (some x) <;> cases b <;> cases st <;>
        simp [Op.step, PipeReceiver.Next, Next.poll, Center.Next, Center.cancelled,
          PipeReceiver.takes, Center.MarkCancelled, Center.IncrementRefCount,
          InterceptorList.ResetInterceptorList, hr] at h <;>
        subst h <;>
        simp [Config.Stuck, Config.awaitingAck,
          -List.countP_eq_zero, -List.countP_pos_iff] at hw ⊢ <;>
        exact hw
  · simp only [Op.step] at h
    cases hp : rs[j]? with
    | none => simp [hp] at h
    | some nr =>
      obtain ⟨b, cn⟩ := nr
      rw [hp] at h
      cases b <;> cases st <;>
        simp [NextResult.destroy, Center.AckNext, Center.release, Center.Unref,
          InterceptorList.ResetInterceptorList] at h <;>
        subst h <;>
        simp [Config.Stuck, Config.awaitingAck,
          -List.countP_eq_zero, -List.countP_pos_iff] at hw ⊢
      all_goals exact hw
  · simp only [Op.step] at h
    cases hp : rs[j]? with
    | none => simp [hp] at h
    | some nr =>
      obtain ⟨b, cn⟩ := nr
      rw [hp] at h
      cases b <;> cases st <;>
        simp [NextResult.reset, Center.AckNext, Center.release, Center.Unref,
          InterceptorList.ResetInterceptorList] at h <;>
        subst h <;>
        simp [Config.Stuck, Config.awaitingAck,
          -List.countP_eq_zero, -List.countP_pos_iff] at hw ⊢
      all_goals exact hw

/-- The other operations on the sender keep the pipe stuck or close it. -/
theorem Stuck_sender_ops [MoveSemantics T] (op : Op T) (w w2 : Config T)
    (hop : op = .sender_Close ∨ op = .sender_CloseWithError ∨ op = .destroy_sender ∨
      (∃ f, op = .sender_InterceptAndMap f) ∨ op = .sender_AwaitClosed)
    (hw : w.Stuck) (h : op.step w = some w2) : w2.Stuck := by
  obtain ⟨c, sd, rc, ps, rs, pd, rv⟩ := w
  obtain ⟨il, x, n, st⟩ := c
  cases sd with
  | none => rcases hop with rfl | rfl | rfl | ⟨f, rfl⟩ | rfl <;> simp [Op.step] at h
  | some s =>
    obtain ⟨b⟩ := s
    rcases hop with rfl | rfl | rfl | ⟨f, rfl⟩ | rfl <;> cases b <;> cases st <;>
      simp [Op.step, PipeSender.Close, PipeSender.CloseWithError, PipeSender.destroy,
        PipeSender.InterceptAndMap, PipeSender.AwaitClosed, Center.PollClosedForSender,
        Center.MarkClosed, Center.MarkCancelled, Center.release, Center.Unref,
        InterceptorList.ResetInterceptorList] at h <;>
      subst h <;>
      simp [Config.Stuck, Config.awaitingAck,
        -List.countP_eq_zero, -List.countP_pos_iff] at hw ⊢ <;>
      exact hw

/-- The other operations on the receiver keep the pipe stuck or cancel it. -/
theorem Stuck_receiver_ops [MoveSemantics T] (op : Op T) (w w2 : Config T)
    (hop : op = .receiver_CloseWithError ∨ op = .destroy_receiver ∨
      (∃ f, op = .receiver_InterceptAndMap f) ∨ op = .receiver_AwaitClosed ∨
      op = .receiver_AwaitEmpty)
    (hw : w.Stuck) (h : op.step w = some w2) : w2.Stuck := by
  obtain ⟨c, sd, rc, ps, rs, pd, rv⟩ := w
  obtain ⟨il, x, n, st⟩ := c
  cases rc with
  | none => rcases hop with rfl | rfl | ⟨f, rfl⟩ | rfl | rfl <;> simp [Op.step] at h
  | some r =>
    obtain ⟨b⟩ := r
    rcases hop with rfl | rfl | ⟨f, rfl⟩ | rfl | rfl <;> cases b <;> cases st <;>
      simp [Op.step, PipeReceiver.CloseWithError, PipeReceiver.destroy,
        PipeReceiver.InterceptAndMap, PipeReceiver.AwaitClosed, PipeReceiver.AwaitEmpty,
        Center.PollClosedForReceiver, Center.PollEmpty, Center.MarkCancelled,
        Center.release, Center.Unref, InterceptorList.ResetInterceptorList] at h <;>
      subst h <;>
      simp [Config.Stuck, Config.awaitingAck,
        -List.countP_eq_zero, -List.countP_pos_iff] at hw ⊢ <;>
      exact hw

/-- Every operation keeps the pipe stuck, closed or cancelled. -/
theorem Stuck_step [MoveSemantics T] (op : Op T) (w w2 : Config T)
    (hw : w.Stuck) (h : op.step w = some w2) : w2.Stuck := by
  cases op with
  | sender_Push v => exact Stuck_push_ops _ w w2 (Or.inl ⟨v, rfl⟩) hw h
  | poll_Push i => exact Stuck_push_ops _ w w2 (Or.inr (Or.inl ⟨i, rfl⟩)) hw h
  | destroy_Push i => exact Stuck_push_ops _ w w2 (Or.inr (Or.inr ⟨i, rfl⟩)) hw h
  | receiver_Next => exact Stuck_result_ops _ w w2 (Or.inl rfl) hw h
  | destroy_NextResult j => exact Stuck_result_ops _ w w2 (Or.inr (Or.inl ⟨j, rfl⟩)) hw h
  | reset_NextResult j => exact Stuck_result_ops _ w w2 (Or.inr (Or.inr ⟨j, rfl⟩)) hw h
  | sender_Close => exact Stuck_sender_ops _ w w2 (by simp) hw h
  | sender_CloseWithError => exact Stuck_sender_ops _ w w2 (by simp) hw h
  | destroy_sender => exact Stuck_sender_ops _ w w2 (by simp) hw h
  | receiver_CloseWithError => exact Stuck_receiver_ops _ w w2 (by simp) hw h
  | destroy_receiver => exact Stuck_receiver_ops _ w w2 (by simp) hw h
  | sender_InterceptAndMap f => exact Stuck_sender_ops _ w w2 (by simp) hw h
  | receiver_InterceptAndMap f => exact Stuck_receiver_ops _ w w2 (by simp) hw h
  | sender_AwaitClosed => exact Stuck_sender_ops _ w w2 (by simp) hw h
  | receiver_AwaitClosed => exact Stuck_receiver_ops _ w w2 (by simp) hw h
  | receiver_AwaitEmpty => exact Stuck_receiver_ops _ w w2 (by simp) hw h

/-- C26: the fatal branch of `AckNext` is unreachable through the handles. In
every configuration reached from a fresh pipe, a `NextResult` that holds the
center exists only while the center is `kWaitingForAck`,
`kWaitingForAckAndClosed` or `kCancelled`, there is at most one of them, and
destroying or resetting any `NextResult`, which is where `AckNext` is called,
returns instead of aborting. -/
theorem AckNext_never_aborts [Inhabited T] [MoveSemantics T] (ops : List (Op T))
    (w : Config T) (j : Nat) (nr : NextResult)
    (h : run ops (Config.init T) = some w) (hj : w.results[j]? = some nr) :
    (nr.center_ = true →
      (w.center.value_state_ = .kWaitingForAck ∨
        w.center.value_state_ = .kWaitingForAckAndClosed ∨
        w.center.value_state_ = .kCancelled) ∧
      w.center.AckNext ≠ none ∧ w.holdingResults = 1) ∧
    (nr.destroy w.center).isSome = true ∧ (nr.reset w.center).isSome = true ∧
    ((Op.destroy_NextResult j).step w).isSome = true ∧
    ((Op.reset_NextResult j).step w).isSome = true := by
  have hinv := Inv_reachable ops w h
  obtain ⟨c, sd, rc, ps, rs, pd, rv⟩ := w
  obtain ⟨il, x, n, st⟩ := c
  obtain ⟨b, cn⟩ := nr
  obtain ⟨-, -, h3, h4, -⟩ := hinv
  have hcount := countP_eraseIdx_at NextResult.has_value rs j _ hj
  cases b <;> cases st <;>
    simp [Config.holdingResults, NextResult.has_value, NextResult.destroy, NextResult.reset,
      Center.AckNext, Op.step, hj, -List.countP_eq_zero, -List.countP_pos_iff]
      at h3 h4 hcount hj ⊢ <;>
    omega

/-- C26, on a run that leaves a `NextResult` holding the second value: its
destruction and its reset both return. -/
theorem AckNext_never_aborts_witness :
    run [.sender_Push 1, .poll_Push 0, .receiver_Next, .destroy_NextResult 0, .poll_Push 0,
        .sender_Push 2, .poll_Push 0, .receiver_Next] (Config.init Nat)
      = some Config.second_delivered ∧
    Config.second_delivered.results[0]? = some { center_ := true, cancelled_ := none } ∧
    Config.second_delivered.center.value_state_ = .kWaitingForAck ∧
    ((Op.destroy_NextResult 0).step Config.second_delivered).isSome = true ∧
    ((Op.reset_NextResult 0).step Config.second_delivered).isSome = true :=
  have hrun : run [.sender_Push 1, .poll_Push 0, .receiver_Next, .destroy_NextResult 0,
      .poll_Push 0, .sender_Push 2, .poll_Push 0, .receiver_Next] (Config.init Nat)
      = some Config.second_delivered := rfl
  have h := AckNext_never_aborts _ Config.second_delivered 0
    { center_ := true, cancelled_ := none } hrun rfl
  ⟨hrun, rfl, rfl, h.2.2.2.1, h.2.2.2.2⟩

/-- C27: `kAcked` is left only through `PollAck`, `MarkClosed` or
`MarkCancelled`. On a center in `kAcked`, `Push` returns pending, and `Push`,
`Next`, `PollEmpty` and the two closed-polls leave the center as it is, while
`AckNext` aborts; a call that returns with another state is one of the three
named. Hence, from a configuration reached from a fresh pipe in which the
center is `kAcked` and no unresolved push awaits the acknowledgement, no
sequence of operations brings the center back to `kEmpty`: it stays `kAcked`
until it is `kClosed` or `kCancelled`, and while it is `kAcked` every
unresolved push holds its value and its poll is pending and changes
nothing. -/
theorem Acked_left_only_by_PollAck_or_close [Inhabited T] [MoveSemantics T]
    (c : Center T) (hc : c.value_state_ = .kAcked) :
    ((∀ v : T, c.Push v = ⟨.pending, c, [.pending .on_empty_]⟩) ∧
      c.Next.center = c ∧ c.PollEmpty.center = c ∧
      c.PollClosedForSender.center = c ∧ c.PollClosedForReceiver.center = c ∧
      c.AckNext = none) ∧
    (∀ (call : CenterCall T) (d : Center T) (k : List WaiterCall),
      call.apply c = some (d, k) → d.value_state_ ≠ .kAcked →
      call = .PollAck ∨ call = .MarkClosed ∨ call = .MarkCancelled) ∧
    (∀ (ops ops2 : List (Op T)) (w w2 : Config T),
      run ops (Config.init T) = some w → w.center = c → w.awaitingAck = 0 →
      run ops2 w = some w2 →
      w2.center.value_state_ ≠ .kEmpty ∧
      (w2.center.value_state_ = .kAcked ∨ w2.center.value_state_ = .kClosed ∨
        w2.center.value_state_ = .kCancelled) ∧
      (w2.center.value_state_ = .kAcked → ∀ (i : Nat) (p : Push T),
        w2.pushes[i]? = some p →
        (∃ v, p.state_ = .value v) ∧
        p.poll w2.center = ⟨(.pending, p), w2.center, [.pending .on_empty_]⟩)) := by
  refine ⟨?_, ?_, ?_⟩
  · obtain ⟨il, x, n, st⟩ := c
    simp only at hc
    subst hc
    simp [Center.Push, Center.Next, Center.PollEmpty, Center.PollClosedForSender,
      Center.PollClosedForReceiver, Center.AckNext]
  · intro call d k h hd
    obtain ⟨il, x, n, st⟩ := c
    simp only at hc
    subst hc
    cases call <;>
      simp [CenterCall.apply, Center.Push, Center.PollAck, Center.Next,
        Center.PollClosedForSender, Center.PollClosedForReceiver, Center.PollEmpty,
        Center.AckNext, Center.MarkClosed, Center.MarkCancelled] at h ⊢ <;>
      obtain ⟨rfl, rfl⟩ := h <;> simp at hd
  · intro ops ops2 w w2 hrun hwc hwa hrun2
    have hatt0 : (Config.init T).Attached := by
      simp [Config.Attached, Config.init]
    have hatt : w.Attached := run_invariant Config.Attached Attached_step ops _ w hatt0 hrun
    have hatt2 : w2.Attached := run_invariant Config.Attached Attached_step ops2 w w2 hatt hrun2
    have hst : w.Stuck := Or.inl ⟨hwc ▸ hc, hwa⟩
    have hst2 : w2.Stuck := run_invariant Config.Stuck Stuck_step ops2 w w2 hst hrun2
    obtain ⟨c2, sd, rc, ps, rs, pd, rv⟩ := w2
    obtain ⟨il, x, n, st⟩ := c2
    cases st <;>
      simp [Config.Stuck, Config.Attached, Config.awaitingAck,
        -List.countP_eq_zero, -List.countP_pos_iff] at hst2 hatt2 ⊢
    intro i p hp
    obtain ⟨b, q⟩ := p
    have h1 := countP_eraseIdx_at Push.awaiting ps i _ hp
    have h2 := countP_eraseIdx_at (fun p : Push T => !p.center_) ps i _ hp
    cases b <;> cases q <;>
      simp [Push.awaiting, Push.poll, Center.Push] at h1 h2 ⊢ <;>
      omega

/-- C27, on a run in which the push that deposited 1 is destroyed after the
acknowledgement while a second push holds 2: polling goes on without
leaving `kAcked`. -/
theorem Acked_left_only_by_PollAck_or_close_witness :
    run [.sender_Push 1, .sender_Push 2, .poll_Push 0, .receiver_Next, .destroy_NextResult 0,
        .destroy_Push 0] (Config.init Nat) = some Config.abandoned_ack ∧
    run [.poll_Push 0, .receiver_Next, .poll_Push 0] Config.abandoned_ack
      = some Config.abandoned_ack ∧
    Config.abandoned_ack.center.value_state_ ≠ .kEmpty ∧
    Push.poll { center_ := true, state_ := .value 2 } Config.abandoned_ack.center =
      ⟨(.pending, { center_ := true, state_ := .value 2 }), Config.abandoned_ack.center,
        [.pending .on_empty_]⟩ :=
  have hrun : run [.sender_Push 1, .sender_Push 2, .poll_Push 0, .receiver_Next,
      .destroy_NextResult 0, .destroy_Push 0] (Config.init Nat)
      = some Config.abandoned_ack := rfl
  have hrun2 : run [.poll_Push 0, .receiver_Next, .poll_Push 0] Config.abandoned_ack
      = some Config.abandoned_ack := rfl
  have h := (Acked_left_only_by_PollAck_or_close Config.abandoned_ack.center rfl).2.2
    _ _ _ _ hrun rfl rfl hrun2
  ⟨hrun, hrun2, h.1, (h.2.2 rfl 0 _ rfl).2⟩

end Stuck

end grpc_core
